import Mathlib

/-!
# sanlock fencing: `sanlk_reset` (requester) and `sanlk_resetd` (agent)

A shallow embedding of `reset/sanlk_reset.c` and `reset/sanlk_resetd.c`.

* C globals and the locals of `main` that live across loop iterations are
  fields of an explicit state record (`ReqState`, `AgentState`).
* Fixed tables (`ls_names`, `ls_fd`, `pollfd`) are functions from the index;
  the loops only touch indices below `MAX_LS` (plus the signal slot).
* Every call that leaves the process (sanlock, wdmd, the kernel) and every log
  line is appended to the `trace` field of the state, in program order; what a
  call returns is an input of the step (`ReqMainIn`, `ReqIterIn`,
  `AgentIterIn`).  The markers `enter_watchdog_reset_self` and
  `enter_sysrq_reboot` record that the function of that name was entered.
* The loops `while (1)` run over the list of turns the environment supplies:
  `wait_run` and `agent_run` return the state reached and whether the loop was
  left; a run that has not left the loop when the turns are used up is still
  waiting.
* `uint64_t` values are naturals, arithmetic on them is taken modulo `2^64`;
  `int` flags, descriptors and `ls_count` are integers, and the counters of
  `reset_done`, which never exceed `MAX_LS`, are naturals.
* The constants of `sanlock.h` (host status values) are parameters
  (`HostConsts`); those of `poll.h` and `signal.h` are the Linux values.
* Not modelled: option parsing, `daemon`, `openlog`, the wdmd and signal set-up
  of the agent, allocation failure, and the `daemon_debug` switch of the agent's
  `log_debug` (log lines are recorded whether or not they are printed).
-/

namespace Sanlock

/-! ## Constants -/

/-- From `sanlk_reset.h`. -/
def EVENT_RESET : Nat := 1
/-- From `sanlk_reset.h`. -/
def EVENT_RESETTING : Nat := 2
/-- From `sanlk_reset.h`. -/
def EVENT_REBOOT : Nat := 4
/-- From `sanlk_reset.h`. -/
def EVENT_REBOOTING : Nat := 8

/-- Size of the lockspace tables, `#define MAX_LS 4` in both programs. -/
def MAX_LS : Nat := 4

/-- Default of `sysrq_delay` in `sanlk_resetd.c`. -/
def DEFAULT_SYSRQ_DELAY : Int := 25

/-- Linux `poll.h`. -/
def POLLIN : Nat := 1
/-- Linux `poll.h`. -/
def POLLERR : Nat := 8
/-- Linux `poll.h`. -/
def POLLHUP : Nat := 16
/-- Linux `poll.h`. -/
def POLLNVAL : Nat := 32

/-- Linux `signal.h`. -/
def SIGHUP : Nat := 1
/-- Linux `signal.h`. -/
def SIGINT : Nat := 2
/-- Linux `signal.h`. -/
def SIGTERM : Nat := 15

/-- Modulus of `uint64_t`. -/
def U64 : Nat := 2 ^ 64

/-- Subtraction of two `uint64_t` values. -/
def u64_sub (a b : Nat) : Nat := (a % U64 + U64 - b % U64) % U64

/-- Conversion of an `int` to `uint64_t` (the usual arithmetic conversion). -/
def int_to_u64 (d : Int) : Nat := (d % (U64 : Int)).toNat

/-- The operator `~` on an `int` constant converted to `uint64_t`. -/
def u64_not (x : Nat) : Nat := U64 - 1 - x % U64

/-- The host status constants of `sanlock.h`.  That header is not among the
sources, so the values are parameters of the model. -/
structure HostConsts where
  SANLK_HOST_MASK : Nat
  SANLK_HOST_FREE : Nat
  SANLK_HOST_LIVE : Nat
  SANLK_HOST_FAIL : Nat
  SANLK_HOST_DEAD : Nat
  SANLK_HOST_UNKNOWN : Nat
  SANLK_SETEV_CUR_GENERATION : Nat

/-- The five status values are pairwise different. -/
def HostConsts.Distinct (c : HostConsts) : Prop :=
  [c.SANLK_HOST_FREE, c.SANLK_HOST_LIVE, c.SANLK_HOST_FAIL, c.SANLK_HOST_DEAD,
    c.SANLK_HOST_UNKNOWN].Nodup

instance (c : HostConsts) : Decidable c.Distinct := by
  unfold HostConsts.Distinct; infer_instance

/-- A concrete assignment of the status constants, used to evaluate the model. -/
def sample_consts : HostConsts where
  SANLK_HOST_MASK := 15
  SANLK_HOST_FREE := 2
  SANLK_HOST_LIVE := 3
  SANLK_HOST_FAIL := 4
  SANLK_HOST_DEAD := 5
  SANLK_HOST_UNKNOWN := 1
  SANLK_SETEV_CUR_GENERATION := 1

/-! ## Data -/

/-- The fields of `struct sanlk_host` that the code reads. -/
structure sanlk_host where
  host_id : Nat
  generation : Nat
  flags : Nat
  deriving DecidableEq, Repr

/-- The type `struct sanlk_host_event`. -/
structure sanlk_host_event where
  host_id : Nat
  generation : Nat
  event : Nat
  data : Nat
  deriving DecidableEq, Repr

/-- The type `struct pollfd`. -/
structure PollFd where
  fd : Int
  events : Nat
  revents : Nat
  deriving DecidableEq, Repr

/-- Process exit status. -/
inductive ExitCode
  | EXIT_SUCCESS
  | EXIT_FAILURE
  deriving DecidableEq, Repr

/-- Severity of a log line: `log_debug`, `log_warn`, `log_error`. -/
inductive LogLevel
  | debug
  | warn
  | error
  deriving DecidableEq, Repr

/-- The log lines of the modelled code, named after their format strings. -/
inductive LogMsg
  | get_hosts_error (rv : Int) (ls : String)
  | status_not_found_ls (host_id : Nat) (ls : String)
  | status_not_found (host_id : Nat)
  | no_status (host_id : Nat)
  | status_live (host_id : Nat)
  | status_fail (host_id : Nat)
  | status_unknown (host_id : Nat)
  | status_free (host_id : Nat)
  | status_dead (host_id : Nat)
  | status_raw (host_id : Nat) (val : Option Nat)
  | ignore_lockspace_name (name : String)
  | lockspace_name_required
  | host_id_required
  | reg_event_error (fd : Int)
  | reg_event_fd (fd : Int)
  | no_lockspaces_registered
  | set_event_error (rv : Int)
  | asked_host (he : sanlk_host_event)
  | no_lockspaces_after_set_event
  | unregister_get_event_error (fd : Int) (rv : Int)
  | notice_of (event data from_host from_gen : Nat)
  | event_ignored (event data from_host from_gen : Nat)
  | request_to (event data from_host from_gen : Nat)
  | ignore_reboot_request
  | unregister_poll (fd : Int) (revents : Nat)
  | reset_done
  | reset_failed
  | daemon_quit_signal (signo : Nat)
  | rebooting_with_sysrq
  | sysrq_open_failed (fd : Int)
  | sysrq_write_failed (rv : Int)
  | reboot_expected
  | test_live_failed (rv : Int)
  | resetting_with_watchdog
  | unregister_daemon_quit (daemon_quit ls_count : Int)
  deriving DecidableEq, Repr

/-- What the process does to the outside world, in program order. -/
inductive Call
  | log (lvl : LogLevel) (msg : LogMsg)
  | sanlock_reg_event (name : String)
  | sanlock_end_event (fd : Int) (name : Option String)
  | sanlock_get_hosts (name : String)
  | sanlock_set_event (name : Option String) (he : sanlk_host_event) (flags : Nat)
  | sanlock_get_event (fd : Int)
  | enter_watchdog_reset_self
  | wdmd_test_live (fd : Int) (renewal_time expire_time : Nat)
  | wdmd_refcount_clear (fd : Int)
  | close (fd : Int)
  | enter_sysrq_reboot
  | sleep (sec : Nat)
  | open_sysrq_trigger
  | write_sysrq_b (fd : Int)
  | read_signal (fd : Int)
  | poll (nfds : Nat) (timeout : Int)
  | fprintf_stderr (msg : LogMsg)
  deriving DecidableEq, Repr

/-- What `sanlock_get_hosts` hands back: the return value and the host array
(`none` is a `NULL` array; `hss_count` is the length of the array). -/
structure GetHostsReply where
  rv : Int
  hss : Option (List sanlk_host)

/-- What `sanlock_get_event` hands back. -/
structure GetEventReply where
  rv : Int
  from_he : sanlk_host_event
  from_host : Nat
  from_gen : Nat

/-! ## The requester, `sanlk_reset.c` -/

namespace Reset

/-- Globals of `sanlk_reset.c` and the locals `he`, `flags`, `done` of `main`. -/
structure ReqState where
  ls_names : Nat → Option String
  ls_fd : Nat → Int
  pollfd : Nat → PollFd
  ls_count : Int
  event_reply : Int
  use_watchdog : Int
  use_sysrq_reboot : Int
  last_status_live : Int
  last_status_fail : Int
  last_status_unknown : Int
  he : sanlk_host_event
  flags : Nat
  done : Int
  trace : List Call

/-- Record a call. -/
def ReqState.emit (s : ReqState) (c : Call) : ReqState :=
  { s with trace := s.trace ++ [c] }

/-- The function `unregister_ls` of `sanlk_reset.c`. -/
def unregister_ls (i : Nat) (s : ReqState) : ReqState :=
  let s := s.emit (.sanlock_end_event (s.ls_fd i) (s.ls_names i))
  { s with
    ls_names := Function.update s.ls_names i none
    ls_fd := Function.update s.ls_fd i (-1)
    pollfd := Function.update s.pollfd i { s.pollfd i with fd := -1, events := 0 } }

/-- Local counters of `reset_done`; `val` is `none` while uninitialised. -/
structure Counts where
  found_count : Nat
  free_count : Nat
  live_count : Nat
  fail_count : Nat
  dead_count : Nat
  unknown_count : Nat
  val : Option Nat
  deriving DecidableEq, Repr

/-- The counters as initialised at the top of `reset_done`. -/
def Counts.zero : Counts := ⟨0, 0, 0, 0, 0, 0, none⟩

/-- The `if`/`else if` chain on `val` inside the inner loop of `reset_done`. -/
def count_val (c : HostConsts) (val : Nat) (k : Counts) : Counts :=
  let k := { k with val := some val }
  if val = c.SANLK_HOST_FREE then { k with free_count := k.free_count + 1 }
  else if val = c.SANLK_HOST_LIVE then { k with live_count := k.live_count + 1 }
  else if val = c.SANLK_HOST_FAIL then { k with fail_count := k.fail_count + 1 }
  else if val = c.SANLK_HOST_DEAD then { k with dead_count := k.dead_count + 1 }
  else if val = c.SANLK_HOST_UNKNOWN then { k with unknown_count := k.unknown_count + 1 }
  else k

/-- The inner loop of `reset_done` over the host array: returns `found` and
the counters.  It stops at the first entry whose `host_id` matches. -/
def scan_hosts (c : HostConsts) (host_id : Nat) : List sanlk_host → Counts → Bool × Counts
  | [], k => (false, k)
  | hs :: rest, k =>
    if hs.host_id ≠ host_id then scan_hosts c host_id rest k
    else (true, count_val c (hs.flags &&& c.SANLK_HOST_MASK) k)

/-- One turn of the outer loop of `reset_done`, for table index `i`;
`reply` is what `sanlock_get_hosts` returns for `ls_names[i]`. -/
def reset_done_ls (c : HostConsts) (host_id : Nat) (reply : GetHostsReply) (i : Nat)
    (sk : ReqState × Counts) : ReqState × Counts :=
  match sk.1.ls_names i with
  | none => sk
  | some name =>
    let s := sk.1.emit (.sanlock_get_hosts name)
    match reply.hss with
    | none => (s.emit (.log .error (.get_hosts_error reply.rv name)), sk.2)
    | some [] => (s.emit (.log .error (.get_hosts_error reply.rv name)), sk.2)
    | some (h :: hs) =>
      let r := scan_hosts c host_id (h :: hs) sk.2
      if r.1 = false then
        (s.emit (.log .error (.status_not_found_ls host_id name)), r.2)
      else
        (s, { r.2 with found_count := r.2.found_count + 1 })

/-- The outer loop of `reset_done`. -/
def reset_done_scan (c : HostConsts) (host_id : Nat) (get_hosts : Nat → GetHostsReply)
    (s : ReqState) : ReqState × Counts :=
  (List.range MAX_LS).foldl (fun sk i => reset_done_ls c host_id (get_hosts i) i sk)
    (s, Counts.zero)

/-- The code of `reset_done` after the loop: the decision on the counters. -/
def reset_done_decide (host_id : Nat) (s : ReqState) (k : Counts) : Int × ReqState :=
  if k.found_count = 0 then
    (0, s.emit (.log .error (.status_not_found host_id)))
  else if k.free_count = 0 ∧ k.live_count = 0 ∧ k.fail_count = 0 ∧ k.dead_count = 0
      ∧ k.unknown_count = 0 then
    (0, s.emit (.log .error (.no_status host_id)))
  else if k.live_count ≠ 0 then
    let s := if s.last_status_live = 0 then s.emit (.log .debug (.status_live host_id)) else s
    (0, { s with last_status_live := 1, last_status_fail := 0, last_status_unknown := 0 })
  else if k.fail_count ≠ 0 then
    let s := if s.last_status_fail = 0 then s.emit (.log .debug (.status_fail host_id)) else s
    (0, { s with last_status_fail := 1, last_status_live := 0, last_status_unknown := 0 })
  else if k.unknown_count ≠ 0 then
    let s := if s.last_status_unknown = 0 then s.emit (.log .debug (.status_unknown host_id))
      else s
    (0, { s with last_status_unknown := 1, last_status_fail := 0, last_status_live := 0 })
  else if k.free_count ≠ 0 ∧ k.fail_count = 0 then
    (1, s.emit (.log .debug (.status_free host_id)))
  else if k.dead_count ≠ 0 then
    (1, s.emit (.log .debug (.status_dead host_id)))
  else
    (0, s.emit (.log .debug (.status_raw host_id k.val)))

/-- The function `reset_done`: the return value and the state it leaves. -/
def reset_done (c : HostConsts) (host_id : Nat) (get_hosts : Nat → GetHostsReply)
    (s : ReqState) : Int × ReqState :=
  let r := reset_done_scan c host_id get_hosts s
  reset_done_decide host_id r.1 r.2

/-- What the environment hands to one turn of the wait loop of `main`: the
result of `poll`, and for each table index what `sanlock_get_hosts` and
`sanlock_get_event` return when called for it in this turn. -/
structure ReqIterIn where
  poll_rv : Int
  poll_eintr : Bool
  revents : Nat → Nat
  get_hosts : Nat → GetHostsReply
  get_event : Nat → GetEventReply

/-- What the environment hands to `main` after option parsing. -/
structure ReqMainIn where
  reg_event : Nat → Int
  set_event : Nat → Int
  iters : List ReqIterIn

/-- The body of the loop of `main` over the lockspace names in `argv`. -/
def parse_ls_name (arg : String) (s : ReqState) : ReqState :=
  if s.ls_count = MAX_LS then
    s.emit (.fprintf_stderr (.ignore_lockspace_name arg))
  else
    { s with
      ls_names := Function.update s.ls_names s.ls_count.toNat (some arg)
      ls_count := s.ls_count + 1 }

/-- The statement `ls_count = 0` and the loop of `main` that collects the
lockspace names from `argv[optind..]`. -/
def parse_ls_names (args : List String) (s : ReqState) : ReqState :=
  args.foldl (fun s arg => parse_ls_name arg s) { s with ls_count := 0 }

/-- The loop of `main` that clears `ls_fd` and `pollfd`. -/
def init_tables (s : ReqState) : ReqState :=
  (List.range MAX_LS).foldl (fun s i =>
    { s with
      ls_fd := Function.update s.ls_fd i (-1)
      pollfd := Function.update s.pollfd i ⟨-1, 0, 0⟩ }) s

/-- One turn of the registration loop of `main`. -/
def reg_event_ls (reg_event : Nat → Int) (i : Nat) (s : ReqState) : ReqState :=
  match s.ls_names i with
  | none => s
  | some name =>
    let s := s.emit (.sanlock_reg_event name)
    let fd := reg_event i
    if fd < 0 then
      let s := s.emit (.log .error (.reg_event_error fd))
      { s with ls_names := Function.update s.ls_names i none }
    else
      { s with
        ls_fd := Function.update s.ls_fd i fd
        pollfd := Function.update s.pollfd i { s.pollfd i with fd := fd, events := POLLIN }
        ls_count := s.ls_count + 1 }

/-- The three `if`s of `main` that fill in `he.event` and `flags`. -/
def build_event (c : HostConsts) (s : ReqState) : ReqState :=
  let s := if s.use_watchdog ≠ 0 then
      { s with he := { s.he with event := s.he.event ||| EVENT_RESET } } else s
  let s := if s.use_sysrq_reboot ≠ 0 then
      { s with he := { s.he with event := s.he.event ||| EVENT_REBOOT } } else s
  if s.he.generation = 0 then { s with flags := c.SANLK_SETEV_CUR_GENERATION } else s

/-- One turn of the loop of `main` that sends the event. -/
def send_event_ls (set_event : Nat → Int) (i : Nat) (s : ReqState) : ReqState :=
  match s.ls_names i with
  | none => s
  | some name =>
    if s.ls_fd i = -1 then s
    else
      let s := s.emit (.sanlock_set_event (some name) s.he s.flags)
      let rv := set_event i
      if rv < 0 then
        unregister_ls i (s.emit (.log .error (.set_event_error rv)))
      else
        s.emit (.log .warn (.asked_host s.he))

/-- The second `if` in the body of the wait loop: hang-up or error on the
descriptor. -/
def wait_ls_err (i : Nat) (s : ReqState) : ReqState :=
  if (s.pollfd i).revents &&& (POLLERR ||| POLLHUP ||| POLLNVAL) ≠ 0 then
    let s := s.emit (.log .debug (.unregister_poll (s.ls_fd i) (s.pollfd i).revents))
    let s := unregister_ls i s
    { s with ls_count := s.ls_count - 1 }
  else s

/-- The test of `main` on a received event. -/
def is_reply (he : sanlk_host_event) (r : GetEventReply) : Bool :=
  r.from_host = he.host_id ∧ r.from_he.event &&& EVENT_RESETTING ≠ 0

/-- The body of the `for` loop inside the wait loop, for table index `i`. -/
def wait_ls (inp : ReqIterIn) (i : Nat) (s : ReqState) : ReqState :=
  if (s.pollfd i).fd < 0 then s
  else if (s.pollfd i).revents &&& POLLIN ≠ 0 then
    let s := s.emit (.sanlock_get_event (s.ls_fd i))
    let r := inp.get_event i
    if r.rv < 0 then
      let s := s.emit (.log .error (.unregister_get_event_error (s.ls_fd i) r.rv))
      let s := unregister_ls i s
      { s with ls_count := s.ls_count - 1 }
    else
      let s := if is_reply s.he r then
          { s.emit (.log .warn
              (.notice_of r.from_he.event r.from_he.data r.from_host r.from_gen)) with
            event_reply := 1 }
        else
          s.emit (.log .warn
            (.event_ignored r.from_he.event r.from_he.data r.from_host r.from_gen))
      wait_ls_err i s
  else wait_ls_err i s

/-- The call `poll(pollfd, MAX_LS, 1000)` when it succeeds: the kernel fills in
`revents`. -/
def poll_fill (nfds : Nat) (revents : Nat → Nat) (pollfd : Nat → PollFd) : Nat → PollFd :=
  fun i => if i < nfds then { pollfd i with revents := revents i } else pollfd i

/-- One turn of the wait loop of `main`; the flag says whether the loop is
left (`break`). -/
def wait_iter (c : HostConsts) (inp : ReqIterIn) (s : ReqState) : ReqState × Bool :=
  let s := s.emit (.poll MAX_LS 1000)
  if inp.poll_rv = -1 ∧ inp.poll_eintr = true then (s, false)
  else if inp.poll_rv < 0 then (s, true)
  else
    let s : ReqState := { s with pollfd := poll_fill MAX_LS inp.revents s.pollfd }
    let r := reset_done c s.he.host_id inp.get_hosts s
    let s : ReqState := { r.2 with done := r.1 }
    if s.done ≠ 0 then (s, true)
    else
      let s := (List.range MAX_LS).foldl (fun s i => wait_ls inp i s) s
      if s.ls_count = 0 then (s, true) else (s, false)

/-- The wait loop of `main` over the turns the environment supplies.  The flag
is `true` when the loop has been left; turns after that are not consumed. -/
def wait_run (c : HostConsts) : List ReqIterIn → ReqState → ReqState × Bool
  | [], s => (s, false)
  | inp :: rest, s =>
    let r := wait_iter c inp s
    if r.2 then r else wait_run c rest r.1

/-- The end of `main`, after the wait loop. -/
def finish (s : ReqState) : ReqState × ExitCode :=
  let s : ReqState := (List.range MAX_LS).foldl (fun (s : ReqState) i =>
    match s.ls_names i with
    | none => s
    | some _ => if s.ls_fd i = -1 then s else unregister_ls i s) s
  if s.done ≠ 0 then (s.emit (.log .debug .reset_done), .EXIT_SUCCESS)
  else (s.emit (.log .debug .reset_failed), .EXIT_FAILURE)

/-- The wait loop and the end of `main`: `none` while the requester is still
waiting after all supplied turns. -/
def wait_and_finish (c : HostConsts) (iters : List ReqIterIn) (s : ReqState) :
    Option (ReqState × ExitCode) :=
  let r := wait_run c iters s
  if r.2 then some (finish r.1) else none

/-- The part of `main` that clears the tables and registers for events on the
lockspaces named in `ls_names`. -/
def main_register (inp : ReqMainIn) (s : ReqState) : ReqState :=
  let s := init_tables s
  let s : ReqState := { s with ls_count := 0 }
  (List.range MAX_LS).foldl (fun s i => reg_event_ls inp.reg_event i s) s

/-- The part of `main` that builds the event and sends it into every
registered lockspace. -/
def main_send (c : HostConsts) (inp : ReqMainIn) (s : ReqState) : ReqState :=
  let s := build_event c s
  (List.range MAX_LS).foldl (fun s i => send_event_ls inp.set_event i s) s

/-- The function `main` from the allocation of `pollfd` on (the state `s` is
the one left by option parsing and `parse_ls_names`). -/
def main_after_parse (c : HostConsts) (inp : ReqMainIn) (s : ReqState) :
    Option (ReqState × ExitCode) :=
  let s := main_register inp s
  if s.ls_count = 0 then
    some (s.emit (.log .error .no_lockspaces_registered), .EXIT_FAILURE)
  else
    let s := main_send c inp s
    if s.ls_count = 0 then
      some (s.emit (.log .error .no_lockspaces_after_set_event), .EXIT_FAILURE)
    else
      wait_and_finish c inp.iters s

/-- The function `main` after option parsing: `names` are the arguments left
in `argv`, and `s` holds `he.host_id`, `he.generation`, `use_watchdog` and
`use_sysrq_reboot` as the options set them.  The allocation of `pollfd` is taken
to succeed. -/
def main_after_options (c : HostConsts) (names : List String) (inp : ReqMainIn)
    (s : ReqState) : Option (ReqState × ExitCode) :=
  if s.he.host_id = 0 then
    some (s.emit (.log .error .host_id_required), .EXIT_FAILURE)
  else
    let s := parse_ls_names names s
    if s.ls_count = 0 then
      some (s.emit (.log .error .lockspace_name_required), .EXIT_FAILURE)
    else
      main_after_parse c inp s

/-- The state of the requester when `main` starts: statics are zero,
`use_watchdog` is 1. -/
def ReqState.initial : ReqState where
  ls_names := fun _ => none
  ls_fd := fun _ => 0
  pollfd := fun _ => ⟨0, 0, 0⟩
  ls_count := 0
  event_reply := 0
  use_watchdog := 1
  use_sysrq_reboot := 0
  last_status_live := 0
  last_status_fail := 0
  last_status_unknown := 0
  he := ⟨0, 0, 0, 0⟩
  flags := 0
  done := 0
  trace := []

end Reset

/-! ## The agent, `sanlk_resetd.c` -/

namespace Resetd

/-- Globals of `sanlk_resetd.c` and the local `poll_timeout` of `main`. -/
structure AgentState where
  daemon_quit : Int
  use_watchdog : Int
  use_sysrq_reboot : Int
  sysrq_delay : Int
  we_are_resetting : Int
  we_are_rebooting : Int
  rebooting_time : Nat
  ls_names : Nat → Option String
  ls_fd : Nat → Int
  pollfd : Nat → PollFd
  ls_count : Int
  signal_fd : Int
  wdmd_fd : Int
  poll_timeout : Int
  trace : List Call

/-- What the environment hands to one turn of the main loop of the agent: the
result of `poll`, of the `read` on the signal descriptor (`none` when its size
is wrong, else `ssi_signo`), the clock at each place it is read, and the
results of the calls made for each table index. -/
structure AgentIterIn where
  poll_rv : Int
  poll_eintr : Bool
  revents : Nat → Nat
  signal_read : Option Nat
  tv_sec_check : Nat
  sysrq_open_fd : Int
  sysrq_write_rv : Int
  get_event : Nat → GetEventReply
  tv_sec_watchdog : Nat → Nat
  test_live_rv : Nat → Int
  tv_sec_reboot : Nat → Nat
  set_event_rv : Nat → Int

/-- Record a call. -/
def AgentState.emit (s : AgentState) (c : Call) : AgentState :=
  { s with trace := s.trace ++ [c] }

/-- The function `monotime`: `ts.tv_sec` as a `uint64_t`. -/
def monotime (tv_sec : Nat) : Nat := tv_sec % U64

/-- The function `sysrq_reboot`. -/
def sysrq_reboot (open_fd write_rv : Int) (s : AgentState) : AgentState :=
  let s := s.emit .enter_sysrq_reboot
  let s := s.emit (.log .error .rebooting_with_sysrq)
  let s := s.emit (.sleep 1)
  let s := s.emit .open_sysrq_trigger
  if open_fd < 0 then
    s.emit (.log .error (.sysrq_open_failed open_fd))
  else
    let s := s.emit (.write_sysrq_b open_fd)
    let s := if write_rv < 0 then s.emit (.log .error (.sysrq_write_failed write_rv)) else s
    let s := s.emit (.close open_fd)
    s.emit (.log .error .reboot_expected)

/-- The function `watchdog_reset_self`. -/
def watchdog_reset_self (tv_sec : Nat) (test_live_rv : Int) (s : AgentState) : AgentState :=
  let s := s.emit .enter_watchdog_reset_self
  if s.use_watchdog = 0 then s
  else
    let now := monotime tv_sec
    let s := s.emit (.wdmd_test_live s.wdmd_fd now now)
    if test_live_rv < 0 then
      s.emit (.log .error (.test_live_failed test_live_rv))
    else
      s.emit (.log .error .resetting_with_watchdog)

/-- The function `close_wdmd`. -/
def close_wdmd (s : AgentState) : AgentState :=
  if s.use_watchdog = 0 then s
  else (s.emit (.wdmd_refcount_clear s.wdmd_fd)).emit (.close s.wdmd_fd)

/-- The function `set_event_out`. -/
def set_event_out (ls_name : Option String) (event_out from_host from_gen : Nat) (rv : Int)
    (s : AgentState) : AgentState :=
  let he : sanlk_host_event :=
    { host_id := from_host, generation := from_gen, event := event_out, data := 0 }
  let s := s.emit (.sanlock_set_event ls_name he 0)
  if rv < 0 then s.emit (.log .error (.set_event_error rv)) else s

/-- The function `unregister_ls` of `sanlk_resetd.c`. -/
def unregister_ls (i : Nat) (s : AgentState) : AgentState :=
  let s := s.emit (.sanlock_end_event (s.ls_fd i) (s.ls_names i))
  { s with
    ls_names := Function.update s.ls_names i none
    ls_fd := Function.update s.ls_fd i (-1)
    pollfd := Function.update s.pollfd i { s.pollfd i with fd := -1, events := 0 } }

/-- The function `process_signals`. -/
def process_signals (fd : Int) (signal_read : Option Nat) (s : AgentState) : AgentState :=
  let s := s.emit (.read_signal fd)
  match signal_read with
  | none => s
  | some signo =>
    if signo = SIGTERM ∨ signo = SIGINT then
      { s.emit (.log .debug (.daemon_quit_signal signo)) with daemon_quit := 1 }
    else s

/-- The locals `event` and `event_out` of `main` while one event is handled. -/
structure EventVars where
  event : Nat
  event_out : Nat
  deriving DecidableEq, Repr

/-- The two `log_warn` calls on a received event. -/
def log_event (r : GetEventReply) (s : AgentState) : AgentState :=
  let s := if r.from_he.event &&& (EVENT_RESET ||| EVENT_REBOOT) ≠ 0 then
      s.emit (.log .warn (.request_to r.from_he.event r.from_he.data r.from_host r.from_gen))
    else s
  if r.from_he.event &&& (EVENT_RESETTING ||| EVENT_REBOOTING) ≠ 0 then
    s.emit (.log .warn (.notice_of r.from_he.event r.from_he.data r.from_host r.from_gen))
  else s

/-- The `if` that drops the reboot request when sysrq reboot is not enabled. -/
def drop_reboot (v : EventVars) (s : AgentState) : EventVars × AgentState :=
  if v.event &&& EVENT_REBOOT ≠ 0 ∧ s.use_sysrq_reboot = 0 then
    ({ v with event := v.event &&& u64_not EVENT_REBOOT },
      s.emit (.log .error .ignore_reboot_request))
  else (v, s)

/-- The `if` that accepts a reset request. -/
def accept_reset (tv_sec : Nat) (test_live_rv : Int) (v : EventVars) (s : AgentState) :
    EventVars × AgentState :=
  if v.event &&& EVENT_RESET ≠ 0 ∧ s.we_are_resetting = 0 then
    let s := { s with we_are_resetting := 1, poll_timeout := 1000 }
    let s := watchdog_reset_self tv_sec test_live_rv s
    ({ v with event_out := v.event_out ||| EVENT_RESETTING }, s)
  else (v, s)

/-- The `if` that accepts a reboot request. -/
def accept_reboot (tv_sec : Nat) (v : EventVars) (s : AgentState) : EventVars × AgentState :=
  if v.event &&& EVENT_REBOOT ≠ 0 ∧ s.we_are_rebooting = 0 then
    ({ v with event_out := v.event_out ||| EVENT_REBOOTING },
      { s with we_are_rebooting := 1, rebooting_time := monotime tv_sec, poll_timeout := 1000 })
  else (v, s)

/-- The code of `main` run on an event that `sanlock_get_event` delivered for
table index `i`. -/
def handle_event (inp : AgentIterIn) (i : Nat) (r : GetEventReply) (s : AgentState) :
    AgentState :=
  let v : EventVars := { event := r.from_he.event, event_out := 0 }
  let s := log_event r s
  let a := drop_reboot v s
  let b := accept_reset (inp.tv_sec_watchdog i) (inp.test_live_rv i) a.1 a.2
  let d := accept_reboot (inp.tv_sec_reboot i) b.1 b.2
  if d.1.event_out ≠ 0 then
    set_event_out (d.2.ls_names i) d.1.event_out r.from_host r.from_gen (inp.set_event_rv i) d.2
  else d.2

/-- The second `if` in the body of the `for` loop: hang-up or error on the
descriptor. -/
def agent_ls_err (i : Nat) (s : AgentState) : AgentState :=
  if (s.pollfd i).revents &&& (POLLERR ||| POLLHUP ||| POLLNVAL) ≠ 0 then
    let s := s.emit (.log .debug (.unregister_poll (s.ls_fd i) (s.pollfd i).revents))
    let s := unregister_ls i s
    { s with ls_count := s.ls_count - 1 }
  else s

/-- The body of the `for` loop inside the main loop, for table index `i`. -/
def agent_ls (inp : AgentIterIn) (i : Nat) (s : AgentState) : AgentState :=
  if (s.pollfd i).fd < 0 then s
  else if (s.pollfd i).revents &&& POLLIN ≠ 0 then
    let s := s.emit (.sanlock_get_event (s.ls_fd i))
    let r := inp.get_event i
    if r.rv < 0 then
      let s := s.emit (.log .error (.unregister_get_event_error (s.ls_fd i) r.rv))
      let s := unregister_ls i s
      { s with ls_count := s.ls_count - 1 }
    else
      agent_ls_err i (handle_event inp i r s)
  else agent_ls_err i s

/-- The test `monotime() - rebooting_time >= sysrq_delay`, in `uint64_t`. -/
def delay_elapsed (now rebooting_time : Nat) (sysrq_delay : Int) : Bool :=
  u64_sub now rebooting_time ≥ int_to_u64 sysrq_delay

/-- The `if` of the main loop that issues the sysrq reboot. -/
def check_reboot (inp : AgentIterIn) (s : AgentState) : AgentState :=
  if s.we_are_rebooting ≠ 0 ∧
      delay_elapsed (monotime inp.tv_sec_check) s.rebooting_time s.sysrq_delay = true then
    sysrq_reboot inp.sysrq_open_fd inp.sysrq_write_rv s
  else s

/-- The call `poll(pollfd, MAX_LS+1, poll_timeout)` when it succeeds. -/
def poll_fill (nfds : Nat) (revents : Nat → Nat) (pollfd : Nat → PollFd) : Nat → PollFd :=
  fun i => if i < nfds then { pollfd i with revents := revents i } else pollfd i

/-- One turn of the main loop of the agent; the flag says whether the loop is
left (`break`). -/
def agent_iter (inp : AgentIterIn) (s : AgentState) : AgentState × Bool :=
  let s := s.emit (.poll (MAX_LS + 1) s.poll_timeout)
  if inp.poll_rv = -1 ∧ inp.poll_eintr = true then (s, false)
  else if inp.poll_rv < 0 then (s, true)
  else
    let s : AgentState := { s with pollfd := poll_fill (MAX_LS + 1) inp.revents s.pollfd }
    let s : AgentState :=
      if (s.pollfd MAX_LS).revents &&& POLLIN ≠ 0 then
        process_signals (s.pollfd MAX_LS).fd inp.signal_read s
      else s
    if s.daemon_quit ≠ 0 then (s, true)
    else
      let s := check_reboot inp s
      let s := (List.range MAX_LS).foldl (fun s i => agent_ls inp i s) s
      if s.ls_count = 0 then (s, true) else (s, false)

/-- The main loop of the agent over the turns the environment supplies.  The
flag is `true` when the loop has been left; turns after that are not consumed. -/
def agent_run : List AgentIterIn → AgentState → AgentState × Bool
  | [], s => (s, false)
  | inp :: rest, s =>
    let r := agent_iter inp s
    if r.2 then r else agent_run rest r.1

/-- The end of `main`, after the main loop. -/
def agent_finish (s : AgentState) : AgentState :=
  let s := s.emit (.log .debug (.unregister_daemon_quit s.daemon_quit s.ls_count))
  let s : AgentState := (List.range MAX_LS).foldl (fun (s : AgentState) i =>
    match s.ls_names i with
    | none => s
    | some _ => if s.ls_fd i = -1 then s else unregister_ls i s) s
  close_wdmd s

/-- The main loop and the end of `main`: `none` while the agent is still in
the loop after all supplied turns. -/
def agent_loop_and_finish (iters : List AgentIterIn) (s : AgentState) : Option AgentState :=
  let r := agent_run iters s
  if r.2 then some (agent_finish r.1) else none

/-- The body of the loop of `main` over the lockspace names in `argv`. -/
def parse_ls_name (arg : String) (s : AgentState) : AgentState :=
  if s.ls_count = MAX_LS then
    s.emit (.fprintf_stderr (.ignore_lockspace_name arg))
  else
    { s with
      ls_names := Function.update s.ls_names s.ls_count.toNat (some arg)
      ls_count := s.ls_count + 1 }

/-- The statement `ls_count = 0` and the loop of `main` that collects the
lockspace names from `argv[optind..]`. -/
def parse_ls_names (args : List String) (s : AgentState) : AgentState :=
  args.foldl (fun s arg => parse_ls_name arg s) { s with ls_count := 0 }

/-- The state of the agent when `main` starts: statics are zero except the
three with an initialiser. -/
def AgentState.initial : AgentState where
  daemon_quit := 0
  use_watchdog := 1
  use_sysrq_reboot := 0
  sysrq_delay := DEFAULT_SYSRQ_DELAY
  we_are_resetting := 0
  we_are_rebooting := 0
  rebooting_time := 0
  ls_names := fun _ => none
  ls_fd := fun _ => 0
  pollfd := fun _ => ⟨0, 0, 0⟩
  ls_count := 0
  signal_fd := 0
  wdmd_fd := 0
  poll_timeout := -1
  trace := []

end Resetd

/-! ## Specification-side notions for the requester -/

namespace Reset

/-- What the lockspace at table index `i` reports for `host_id` in a snapshot:
the masked flags of the entry for `host_id` among the hosts it returned, and
`none` when the slot is not registered, the call gave no hosts, or `host_id` is
not among them. -/
def spec_report (c : HostConsts) (host_id : Nat) (names : Nat → Option String)
    (get_hosts : Nat → GetHostsReply) (i : Nat) : Option Nat :=
  match names i with
  | none => none
  | some _ =>
    match (get_hosts i).hss with
    | none => none
    | some hss =>
      (hss.find? (fun h => decide (h.host_id = host_id))).map
        (fun h => h.flags &&& c.SANLK_HOST_MASK)

/-- The condition of the specification for `Done`: some registered lockspace
reports the target free or dead, and none reports it live, fail or unknown. -/
def SpecDone (c : HostConsts) (host_id : Nat) (names : Nat → Option String)
    (get_hosts : Nat → GetHostsReply) : Prop :=
  (∃ i, i < MAX_LS ∧ (spec_report c host_id names get_hosts i = some c.SANLK_HOST_FREE ∨
      spec_report c host_id names get_hosts i = some c.SANLK_HOST_DEAD)) ∧
  (∀ i, i < MAX_LS →
    spec_report c host_id names get_hosts i ≠ some c.SANLK_HOST_LIVE ∧
    spec_report c host_id names get_hosts i ≠ some c.SANLK_HOST_FAIL ∧
    spec_report c host_id names get_hosts i ≠ some c.SANLK_HOST_UNKNOWN)

/-- The state in which `wait_iter` calls `reset_done`. -/
def polled (inp : ReqIterIn) (s : ReqState) : ReqState :=
  { s.emit (.poll MAX_LS 1000) with
    pollfd := poll_fill MAX_LS inp.revents (s.emit (.poll MAX_LS 1000)).pollfd }

/-- The state without the advisory `event_reply` flag and without its trace. -/
def ReqState.core (s : ReqState) : ReqState := { s with event_reply := 0, trace := [] }

/-- Two turns of the wait loop that differ at most in the contents of the
events delivered: same `poll` result, same host status snapshots, same return
codes of `sanlock_get_event`. -/
def SameButEvents (a b : ReqIterIn) : Prop :=
  a.poll_rv = b.poll_rv ∧ a.poll_eintr = b.poll_eintr ∧ a.revents = b.revents ∧
    a.get_hosts = b.get_hosts ∧ ∀ i, (a.get_event i).rv = (b.get_event i).rv

/-- How many table indices have a descriptor that `poll` watches. -/
def regcount (s : ReqState) : Nat :=
  ((List.range MAX_LS).filter (fun i => decide (0 ≤ (s.pollfd i).fd))).length

/-- What `main` establishes before the wait loop and every turn keeps: a
registered lockspace has a descriptor that `poll` watches, and `ls_count` is at
least the number of such descriptors. -/
structure WaitInv (s : ReqState) : Prop where
  names : ∀ i, i < MAX_LS → s.ls_names i ≠ none → 0 ≤ (s.pollfd i).fd
  count : (regcount s : Int) ≤ s.ls_count

/-- No `poll` of these turns fails with an error other than `EINTR`. -/
def PollsOk (l : List ReqIterIn) : Prop :=
  ∀ x ∈ l, 0 ≤ x.poll_rv ∨ (x.poll_rv = -1 ∧ x.poll_eintr = true)

/-- The state of the requester after `parse_ls_names` for three lockspace
names and the target host 7. -/
def sample_parsed : ReqState :=
  parse_ls_names ["ls0", "ls1", "ls2"] { ReqState.initial with he := ⟨7, 0, 0, 0⟩ }

/-- A turn of the wait loop: `revents` as given, every lockspace returns the
hosts 1 (live) and 7 (with the flags `flags i`), and `sanlock_get_event` returns
`rv i` and an event `event` sent by `from_host`. -/
def sample_wait (revents flags : Nat → Nat) (rv : Nat → Int) (event from_host : Nat) :
    ReqIterIn where
  poll_rv := 1
  poll_eintr := false
  revents := revents
  get_hosts := fun i => ⟨0, some [⟨1, 1, 3⟩, ⟨7, 1, flags i⟩]⟩
  get_event := fun i => ⟨rv i, ⟨0, 0, event, 0⟩, from_host, 1⟩

/-- The environment of `main` in which every registration succeeds (table
index `i` gets descriptor `5 + i`) and every `sanlock_set_event` succeeds. -/
def sample_main (iters : List ReqIterIn) : ReqMainIn where
  reg_event := fun i => 5 + i
  set_event := fun _ => 0
  iters := iters

instance (s : ReqState) : Decidable (WaitInv s) :=
  decidable_of_iff
    ((∀ i, i < MAX_LS → s.ls_names i ≠ none → 0 ≤ (s.pollfd i).fd) ∧
      (regcount s : Int) ≤ s.ls_count)
    ⟨fun h => ⟨h.1, h.2⟩, fun h => ⟨h.names, h.count⟩⟩

/-- The state in which `main` enters the wait loop, given the results of the
registrations and of sending the event. -/
def wait_entry (c : HostConsts) (reg_event set_event : Nat → Int) (s : ReqState) : ReqState :=
  main_send c ⟨reg_event, set_event, []⟩ (main_register ⟨reg_event, set_event, []⟩ s)

/-- The state in which `main` enters the wait loop when it was given three
lockspace names and every call succeeded. -/
def sample_waiting : ReqState :=
  main_send sample_consts (sample_main []) (main_register (sample_main []) sample_parsed)

/-- A turn in which index 0 is readable and `sanlock_get_event` fails there;
every lockspace reports host 7 live. -/
def turn_get_event_error : ReqIterIn :=
  sample_wait (fun i => if i = 0 then POLLIN else 0) (fun _ => 3) (fun _ => -1) 0 0

/-- A turn in which `poll` reports a hang-up on index 1; every lockspace
reports host 7 live. -/
def turn_hangup : ReqIterIn :=
  sample_wait (fun i => if i = 1 then POLLHUP else 0) (fun _ => 3) (fun _ => 0) 0 0

/-- A turn without events in which the lockspace at index 2 reports host 7
dead, while the replies for the other indices still say live. -/
def turn_dead : ReqIterIn :=
  sample_wait (fun _ => 0) (fun i => if i = 2 then 5 else 3) (fun _ => 0) 0 0

/-- A turn in which index 0 is readable and delivers the event `event` sent by
`from_host`; every lockspace reports host 7 live. -/
def turn_event (event from_host : Nat) : ReqIterIn :=
  sample_wait (fun i => if i = 0 then POLLIN else 0) (fun _ => 3) (fun _ => 0) event from_host

/-- A turn without events in which every lockspace reports host 7 dead. -/
def turn_all_dead : ReqIterIn :=
  sample_wait (fun _ => 0) (fun _ => 5) (fun _ => 0) 0 0

/-- A turn in which `poll` times out and nothing is reported. -/
def turn_timeout : ReqIterIn where
  poll_rv := 0
  poll_eintr := false
  revents := fun _ => 0
  get_hosts := fun _ => ⟨-1, none⟩
  get_event := fun _ => ⟨-1, ⟨0, 0, 0, 0⟩, 0, 0⟩

/-- The environment of `main` in which every registration succeeds and every
`sanlock_set_event` fails. -/
def set_event_fails (iters : List ReqIterIn) : ReqMainIn where
  reg_event := fun i => 5 + i
  set_event := fun _ => -1
  iters := iters

/-- The places at which `reset_done` returns after its loop, in program order;
`fall_through` is the last `return 0`, after the raw status value is logged. -/
inductive DoneBranch
  | not_found
  | no_status
  | live
  | fail
  | unknown
  | free
  | dead
  | fall_through
  deriving DecidableEq, Repr

/-- The `return` that the tests of `reset_done` after its loop lead to. -/
def reset_done_branch (k : Counts) : DoneBranch :=
  if k.found_count = 0 then .not_found
  else if k.free_count = 0 ∧ k.live_count = 0 ∧ k.fail_count = 0 ∧ k.dead_count = 0
      ∧ k.unknown_count = 0 then .no_status
  else if k.live_count ≠ 0 then .live
  else if k.fail_count ≠ 0 then .fail
  else if k.unknown_count ≠ 0 then .unknown
  else if k.free_count ≠ 0 ∧ k.fail_count = 0 then .free
  else if k.dead_count ≠ 0 then .dead
  else .fall_through

/-- The body of each branch of `reset_done` after its loop. -/
def branch_outcome (host_id : Nat) (s : ReqState) (k : Counts) : DoneBranch → Int × ReqState
  | .not_found => (0, s.emit (.log .error (.status_not_found host_id)))
  | .no_status => (0, s.emit (.log .error (.no_status host_id)))
  | .live =>
    let s := if s.last_status_live = 0 then s.emit (.log .debug (.status_live host_id)) else s
    (0, { s with last_status_live := 1, last_status_fail := 0, last_status_unknown := 0 })
  | .fail =>
    let s := if s.last_status_fail = 0 then s.emit (.log .debug (.status_fail host_id)) else s
    (0, { s with last_status_fail := 1, last_status_live := 0, last_status_unknown := 0 })
  | .unknown =>
    let s := if s.last_status_unknown = 0 then s.emit (.log .debug (.status_unknown host_id))
      else s
    (0, { s with last_status_unknown := 1, last_status_fail := 0, last_status_live := 0 })
  | .free => (1, s.emit (.log .debug (.status_free host_id)))
  | .dead => (1, s.emit (.log .debug (.status_dead host_id)))
  | .fall_through => (0, s.emit (.log .debug (.status_raw host_id k.val)))

/-- The counters after one lockspace has reported `r`. -/
def tally (c : HostConsts) (k : Counts) (r : Option Nat) : Counts :=
  match r with
  | none => k
  | some v => { count_val c v k with found_count := (count_val c v k).found_count + 1 }

end Reset

/-! ## Specification-side notions for the agent -/

/-- Calls other than logging and the bookkeeping of the poll loop. -/
def Call.is_effect : Call → Bool
  | .log _ _ => false
  | .poll _ _ => false
  | .sanlock_get_event _ => false
  | .sanlock_end_event _ _ => false
  | .read_signal _ => false
  | .fprintf_stderr _ => false
  | _ => true

/-- The calls of a trace that are not logging or bookkeeping. -/
def effects (t : List Call) : List Call := t.filter Call.is_effect

/-- The call is the watchdog arm call `wdmd_test_live`. -/
def Call.is_test_live : Call → Bool
  | .wdmd_test_live _ _ _ => true
  | _ => false

/-- The call marks an entry into `watchdog_reset_self`. -/
def Call.is_enter_watchdog : Call → Bool
  | .enter_watchdog_reset_self => true
  | _ => false

/-- The call marks an entry into `sysrq_reboot`. -/
def Call.is_enter_sysrq : Call → Bool
  | .enter_sysrq_reboot => true
  | _ => false

/-- The call is the log line of the last `return` of `reset_done`, which
prints the raw status value. -/
def Call.is_status_raw : Call → Bool
  | .log _ (.status_raw _ _) => true
  | _ => false

/-- The call is a `sanlock_set_event`. -/
def Call.is_set_event : Call → Bool
  | .sanlock_set_event _ _ _ => true
  | _ => false

/-- The call is a `sanlock_set_event` whose event carries the bit `bit`. -/
def Call.is_ack (bit : Nat) : Call → Bool
  | .sanlock_set_event _ he _ => decide (he.event &&& bit ≠ 0)
  | _ => false

/-- The table of lockspace names with its fill count and the output written
so far: the part of the state the argument loop of either program works on. -/
structure LsTable where
  ls_names : Nat → Option String
  ls_count : Int
  trace : List Call

/-- One turn of the argument loop, seen on the table alone. -/
def LsTable.take_name (arg : String) (t : LsTable) : LsTable :=
  if t.ls_count = MAX_LS then
    { t with trace := t.trace ++ [.fprintf_stderr (.ignore_lockspace_name arg)] }
  else
    { t with
      ls_names := Function.update t.ls_names t.ls_count.toNat (some arg)
      ls_count := t.ls_count + 1 }

/-- The table of the requester. -/
def Reset.ReqState.table (s : Reset.ReqState) : LsTable :=
  ⟨s.ls_names, s.ls_count, s.trace⟩

/-- The table of the agent. -/
def Resetd.AgentState.table (s : Resetd.AgentState) : LsTable :=
  ⟨s.ls_names, s.ls_count, s.trace⟩

/-- The lines `ignore lockspace_name ...` for the arguments past the first
`MAX_LS - m`. -/
def ignored_names (m : Nat) (args : List String) : List Call :=
  (args.drop (MAX_LS - m)).map (fun a => Call.fprintf_stderr (.ignore_lockspace_name a))

/-- Six lockspace names on a command line. -/
def six_names : List String := ["a", "b", "c", "d", "e", "f"]

namespace Reset

/-- The request bits the options `-w` and `-r` of the requester select. -/
def request_bits (use_watchdog use_sysrq_reboot : Int) : Nat :=
  (if use_watchdog ≠ 0 then EVENT_RESET else 0) |||
    (if use_sysrq_reboot ≠ 0 then EVENT_REBOOT else 0)

/-- The event the requester is to send: the target and its generation as the
options gave them, and the request bits of the options. -/
def fencing_event (s : ReqState) : sanlk_host_event :=
  ⟨s.he.host_id, s.he.generation, request_bits s.use_watchdog s.use_sysrq_reboot, s.he.data⟩

/-- The flags that go with the event: generation 0 stands for the current
generation of the target. -/
def fencing_flags (c : HostConsts) (s : ReqState) : Nat :=
  if s.he.generation = 0 then c.SANLK_SETEV_CUR_GENERATION else s.flags

/-- The name at table index `i` if registering for its events succeeds. -/
def registered_name (reg_event : Nat → Int) (s : ReqState) (i : Nat) : Option String :=
  match s.ls_names i with
  | none => none
  | some name => if reg_event i < 0 then none else some name

/-- The `sanlock_set_event` call expected for table index `i`. -/
def expected_event (c : HostConsts) (reg_event : Nat → Int) (s : ReqState) (i : Nat) :
    Option Call :=
  (registered_name reg_event s i).map
    (fun name => Call.sanlock_set_event (some name) (fencing_event s) (fencing_flags c s))

/-- The `sanlock_set_event` call the send loop makes for table index `i` in
state `s`. -/
def pending_event (s : ReqState) (i : Nat) : Option Call :=
  match s.ls_names i with
  | none => none
  | some name =>
    if s.ls_fd i = -1 then none else some (Call.sanlock_set_event (some name) s.he s.flags)

/-- The `sanlock_set_event` calls made so far. -/
def ReqState.sent (s : ReqState) : List Call := s.trace.filter Call.is_set_event

/-- The fields the event is built from, and the calls made so far. -/
def ReqState.request (s : ReqState) : sanlk_host_event × Nat × Int × Int × List Call :=
  (s.he, s.flags, s.use_watchdog, s.use_sysrq_reboot, s.sent)

/-- The state after option parsing for `-i 7 -w 0` and three lockspace names:
the watchdog is disabled and the sysrq reboot is left at its default, disabled. -/
def sample_disabled : ReqState :=
  parse_ls_names ["ls0", "ls1", "ls2"]
    { ReqState.initial with he := ⟨7, 0, 0, 0⟩, use_watchdog := 0 }

end Reset

namespace Resetd

/-- The state without its trace. -/
def AgentState.core (s : AgentState) : AgentState := { s with trace := [] }

/-- The event `r` asks for a reset and the agent is not resetting yet. -/
def reset_accepted (r : GetEventReply) (s : AgentState) : Prop :=
  r.from_he.event &&& EVENT_RESET ≠ 0 ∧ s.we_are_resetting = 0

/-- The event `r` asks for a reboot, sysrq reboot is enabled and the agent is
not rebooting yet. -/
def reboot_accepted (r : GetEventReply) (s : AgentState) : Prop :=
  r.from_he.event &&& EVENT_REBOOT ≠ 0 ∧ s.use_sysrq_reboot ≠ 0 ∧ s.we_are_rebooting = 0

instance (r : GetEventReply) (s : AgentState) : Decidable (reset_accepted r s) := by
  unfold reset_accepted; infer_instance

instance (r : GetEventReply) (s : AgentState) : Decidable (reboot_accepted r s) := by
  unfold reboot_accepted; infer_instance

/-- The bits of the acknowledgment for the event `r` in state `s`. -/
def ack_bits (r : GetEventReply) (s : AgentState) : Nat :=
  (if reset_accepted r s then EVENT_RESETTING else 0) |||
    (if reboot_accepted r s then EVENT_REBOOTING else 0)

/-- In this turn an event is delivered for table index `i`: the slot is in
use, `poll` flagged it readable and `sanlock_get_event` succeeded. -/
def received (inp : AgentIterIn) (i : Nat) (s : AgentState) : Prop :=
  ¬ (s.pollfd i).fd < 0 ∧ (s.pollfd i).revents &&& POLLIN ≠ 0 ∧ ¬ (inp.get_event i).rv < 0

instance (inp : AgentIterIn) (i : Nat) (s : AgentState) : Decidable (received inp i s) := by
  unfold received; infer_instance

/-- The effects of `handle_event`. -/
def handle_effects (inp : AgentIterIn) (i : Nat) (r : GetEventReply) (s : AgentState) :
    List Call :=
  (if reset_accepted r s then
      Call.enter_watchdog_reset_self ::
        (if s.use_watchdog = 0 then []
          else [Call.wdmd_test_live s.wdmd_fd (monotime (inp.tv_sec_watchdog i))
            (monotime (inp.tv_sec_watchdog i))])
    else []) ++
  (if reset_accepted r s ∨ reboot_accepted r s then
      [Call.sanlock_set_event (s.ls_names i)
        ⟨r.from_host, r.from_gen, ack_bits r s, 0⟩ 0]
    else [])

/-- The state fields after `handle_event`. -/
def handle_core (inp : AgentIterIn) (i : Nat) (r : GetEventReply) (s : AgentState) :
    AgentState :=
  let s1 : AgentState :=
    if reset_accepted r s then { s.core with we_are_resetting := 1, poll_timeout := 1000 }
    else s.core
  if reboot_accepted r s then
    { s1 with
      we_are_rebooting := 1
      rebooting_time := monotime (inp.tv_sec_reboot i)
      poll_timeout := 1000 }
  else s1

/-- The state of a turn of the main loop after a successful `poll` and the
processing of signals. -/
def after_signals (inp : AgentIterIn) (s : AgentState) : AgentState :=
  let s := s.emit (.poll (MAX_LS + 1) s.poll_timeout)
  let s : AgentState := { s with pollfd := poll_fill (MAX_LS + 1) inp.revents s.pollfd }
  if (s.pollfd MAX_LS).revents &&& POLLIN ≠ 0 then
    process_signals (s.pollfd MAX_LS).fd inp.signal_read s
  else s

/-- The effects of `sysrq_reboot`. -/
def sysrq_effects (open_fd : Int) : List Call :=
  [Call.enter_sysrq_reboot, Call.sleep 1, Call.open_sysrq_trigger] ++
    (if open_fd < 0 then [] else [Call.write_sysrq_b open_fd, Call.close open_fd])

/-- The test of `check_reboot`. -/
def reboot_due (inp : AgentIterIn) (s : AgentState) : Prop :=
  s.we_are_rebooting ≠ 0 ∧
    delay_elapsed (monotime inp.tv_sec_check) s.rebooting_time s.sysrq_delay = true

instance (inp : AgentIterIn) (s : AgentState) : Decidable (reboot_due inp s) := by
  unfold reboot_due; infer_instance

/-- A state of the agent with one lockspace registered at index 0 on
descriptor 5, readable after `poll`. -/
def sample_agent (use_watchdog use_sysrq_reboot : Int) : AgentState :=
  { AgentState.initial with
    use_watchdog := use_watchdog
    use_sysrq_reboot := use_sysrq_reboot
    ls_names := fun i => if i = 0 then some "ls0" else none
    ls_fd := fun i => if i = 0 then 5 else -1
    pollfd := fun i => if i = 0 then ⟨5, POLLIN, POLLIN⟩ else ⟨-1, 0, 0⟩
    ls_count := 1
    signal_fd := 9
    wdmd_fd := 7 }

/-- A turn of the agent in which `poll` flags index 0 readable and the event
`event` from host 3, generation 11, is delivered there; the watchdog arm call
returns `test_live_rv` and the clock reads `now`. -/
def sample_turn (event : Nat) (test_live_rv : Int) (now : Nat) : AgentIterIn where
  poll_rv := 1
  poll_eintr := false
  revents := fun i => if i = 0 then POLLIN else 0
  signal_read := none
  tv_sec_check := now
  sysrq_open_fd := 4
  sysrq_write_rv := 1
  get_event := fun _ => ⟨0, ⟨0, 0, event, 0⟩, 3, 11⟩
  tv_sec_watchdog := fun _ => now
  test_live_rv := fun _ => test_live_rv
  tv_sec_reboot := fun _ => now
  set_event_rv := fun _ => 0

/-- A turn of the agent in which only the signal descriptor is readable and
the signal `signo` is read from it. -/
def turn_signal (signo : Nat) : AgentIterIn where
  poll_rv := 1
  poll_eintr := false
  revents := fun i => if i = MAX_LS then POLLIN else 0
  signal_read := some signo
  tv_sec_check := 150
  sysrq_open_fd := 4
  sysrq_write_rv := 1
  get_event := fun _ => ⟨0, ⟨0, 0, 0, 0⟩, 0, 0⟩
  tv_sec_watchdog := fun _ => 150
  test_live_rv := fun _ => 0
  tv_sec_reboot := fun _ => 150
  set_event_rv := fun _ => 0

/-- The configuration and fencing fields of the agent, which the table
bookkeeping does not touch. -/
structure Fence where
  use_watchdog : Int
  use_sysrq_reboot : Int
  sysrq_delay : Int
  we_are_resetting : Int
  we_are_rebooting : Int
  rebooting_time : Nat
  wdmd_fd : Int
  deriving DecidableEq, Repr

/-- The configuration and fencing fields of a state. -/
def AgentState.fence (s : AgentState) : Fence :=
  ⟨s.use_watchdog, s.use_sysrq_reboot, s.sysrq_delay, s.we_are_resetting,
    s.we_are_rebooting, s.rebooting_time, s.wdmd_fd⟩

/-- One when the flag is still clear, zero once it is set. -/
def unset (flag : Int) : Nat := if flag = 0 then 1 else 0

/-- How many effects of the trace of `s` satisfy `p`. -/
def AgentState.count (p : Call → Bool) (s : AgentState) : Nat := (effects s.trace).countP p

/-- What every piece of the agent's loop guarantees between the state `s` it
starts in and the state `s'` it ends in. -/
structure Evolves (s s' : AgentState) : Prop where
  use_watchdog : s'.use_watchdog = s.use_watchdog
  use_sysrq_reboot : s'.use_sysrq_reboot = s.use_sysrq_reboot
  sysrq_delay : s'.sysrq_delay = s.sysrq_delay
  resetting : s.we_are_resetting ≠ 0 → s'.we_are_resetting = s.we_are_resetting
  rebooting : s.we_are_rebooting ≠ 0 →
    s'.we_are_rebooting = s.we_are_rebooting ∧ s'.rebooting_time = s.rebooting_time
  disabled : s.use_sysrq_reboot = 0 →
    s'.we_are_rebooting = s.we_are_rebooting ∧ s'.rebooting_time = s.rebooting_time
  arm : s'.count Call.is_test_live + unset s'.we_are_resetting ≤
    s.count Call.is_test_live + unset s.we_are_resetting
  enter : s'.count Call.is_enter_watchdog + unset s'.we_are_resetting ≤
    s.count Call.is_enter_watchdog + unset s.we_are_resetting
  ack_reset : s'.count (Call.is_ack EVENT_RESETTING) + unset s'.we_are_resetting ≤
    s.count (Call.is_ack EVENT_RESETTING) + unset s.we_are_resetting
  ack_reboot : s'.count (Call.is_ack EVENT_REBOOTING) + unset s'.we_are_rebooting ≤
    s.count (Call.is_ack EVENT_REBOOTING) + unset s.we_are_rebooting
  sysrq : s.we_are_rebooting = 0 → s.use_sysrq_reboot = 0 →
    s'.count Call.is_enter_sysrq = s.count Call.is_enter_sysrq

end Resetd

namespace Reset

/-- The facts about the counters that the decision of `reset_done` rests on,
for a family `r` of reports. -/
structure Tallied (c : HostConsts) (r : Nat → Option Nat) (l : List Nat) (k0 k : Counts) :
    Prop where
  found : k.found_count ≠ 0 ↔ k0.found_count ≠ 0 ∨ ∃ i ∈ l, r i ≠ none
  free : k.free_count ≠ 0 ↔ k0.free_count ≠ 0 ∨ ∃ i ∈ l, r i = some c.SANLK_HOST_FREE
  live : k.live_count ≠ 0 ↔ k0.live_count ≠ 0 ∨ ∃ i ∈ l, r i = some c.SANLK_HOST_LIVE
  fail : k.fail_count ≠ 0 ↔ k0.fail_count ≠ 0 ∨ ∃ i ∈ l, r i = some c.SANLK_HOST_FAIL
  dead : k.dead_count ≠ 0 ↔ k0.dead_count ≠ 0 ∨ ∃ i ∈ l, r i = some c.SANLK_HOST_DEAD
  unknown : k.unknown_count ≠ 0 ↔
    k0.unknown_count ≠ 0 ∨ ∃ i ∈ l, r i = some c.SANLK_HOST_UNKNOWN

end Reset

/-! ## Lemmas on `reset_done` -/

/-- A property kept by every turn of a loop holds after the loop. -/
theorem foldl_inv {σ : Type} (P : σ → Prop) (f : σ → Nat → σ) (l : List Nat)
    (hstep : ∀ s i, i ∈ l → P s → P (f s i)) (s : σ) (h : P s) : P (l.foldl f s) := by
  induction l generalizing s with
  | nil => exact h
  | cons i t ih =>
    simp only [List.foldl_cons]
    exact ih (fun s j hj hs => hstep s j (List.mem_cons_of_mem _ hj) hs) _
      (hstep s i (List.mem_cons_self _ _) h)

namespace Reset

theorem emit_ls_names (s : ReqState) (x : Call) : (s.emit x).ls_names = s.ls_names := rfl

theorem scan_hosts_find (c : HostConsts) (host_id : Nat) (l : List sanlk_host) (k : Counts) :
    scan_hosts c host_id l k =
      match l.find? (fun h => decide (h.host_id = host_id)) with
      | none => (false, k)
      | some x => (true, count_val c (x.flags &&& c.SANLK_HOST_MASK) k) := by
  induction l with
  | nil => rfl
  | cons h t ih =>
    by_cases hh : h.host_id = host_id
    · simp [scan_hosts, hh, List.find?]
    · simp [scan_hosts, hh, List.find?, ih]

theorem reset_done_ls_names (c : HostConsts) (host_id : Nat) (reply : GetHostsReply) (i : Nat)
    (sk : ReqState × Counts) :
    (reset_done_ls c host_id reply i sk).1.ls_names = sk.1.ls_names := by
  unfold reset_done_ls
  split
  · rfl
  · split
    · rfl
    · rfl
    · dsimp only
      split <;> rfl

theorem reset_done_ls_counts (c : HostConsts) (host_id : Nat) (gh : Nat → GetHostsReply)
    (i : Nat) (sk : ReqState × Counts) :
    (reset_done_ls c host_id (gh i) i sk).2 =
      tally c sk.2 (spec_report c host_id sk.1.ls_names gh i) := by
  unfold reset_done_ls spec_report
  split
  · rename_i h; simp [h, tally]
  · rename_i name h
    simp only [h]
    split
    · rename_i h2; simp [h2, tally]
    · rename_i h2; simp [h2, tally]
    · rename_i x xs h2
      simp only [h2, scan_hosts_find]
      cases hf : List.find? (fun h => decide (h.host_id = host_id)) (x :: xs) with
      | none => simp [tally]
      | some y => simp [tally]

theorem reset_done_fold (c : HostConsts) (host_id : Nat) (gh : Nat → GetHostsReply)
    (l : List Nat) (sk : ReqState × Counts) :
    (l.foldl (fun sk i => reset_done_ls c host_id (gh i) i sk) sk).1.ls_names = sk.1.ls_names ∧
    (l.foldl (fun sk i => reset_done_ls c host_id (gh i) i sk) sk).2 =
      l.foldl (fun k i => tally c k (spec_report c host_id sk.1.ls_names gh i)) sk.2 := by
  induction l generalizing sk with
  | nil => exact ⟨rfl, rfl⟩
  | cons i t ih =>
    simp only [List.foldl_cons]
    obtain ⟨h1, h2⟩ := ih (reset_done_ls c host_id (gh i) i sk)
    rw [h1, h2, reset_done_ls_names, reset_done_ls_counts]
    exact ⟨rfl, rfl⟩

theorem tally_step (c : HostConsts) (hc : c.Distinct) (k : Counts) (r : Option Nat) :
    ((tally c k r).found_count ≠ 0 ↔ k.found_count ≠ 0 ∨ r ≠ none) ∧
    ((tally c k r).free_count ≠ 0 ↔ k.free_count ≠ 0 ∨ r = some c.SANLK_HOST_FREE) ∧
    ((tally c k r).live_count ≠ 0 ↔ k.live_count ≠ 0 ∨ r = some c.SANLK_HOST_LIVE) ∧
    ((tally c k r).fail_count ≠ 0 ↔ k.fail_count ≠ 0 ∨ r = some c.SANLK_HOST_FAIL) ∧
    ((tally c k r).dead_count ≠ 0 ↔ k.dead_count ≠ 0 ∨ r = some c.SANLK_HOST_DEAD) ∧
    ((tally c k r).unknown_count ≠ 0 ↔
      k.unknown_count ≠ 0 ∨ r = some c.SANLK_HOST_UNKNOWN) := by
  unfold HostConsts.Distinct at hc
  simp only [List.nodup_cons, List.mem_cons, List.mem_singleton, not_or, List.not_mem_nil,
    not_false_eq_true, List.nodup_nil, and_true] at hc
  obtain ⟨⟨h12, h13, h14, h15⟩, ⟨h23, h24, h25⟩, ⟨h34, h35⟩, h45⟩ := hc
  cases r with
  | none => simp [tally]
  | some v =>
    simp only [tally, count_val]
    split_ifs with a1 a2 a3 a4 a5
    · subst a1; simp [h12, h13, h14, h15]
    · subst a2; simp [Ne.symm h12, h23, h24, h25]
    · subst a3; simp [Ne.symm h13, Ne.symm h23, h34, h35]
    · subst a4; simp [Ne.symm h14, Ne.symm h24, Ne.symm h34, h45]
    · subst a5; simp [Ne.symm h15, Ne.symm h25, Ne.symm h35, Ne.symm h45]
    · simp [a1, a2, a3, a4, a5]

theorem tallied_fold (c : HostConsts) (hc : c.Distinct) (r : Nat → Option Nat) (l : List Nat)
    (k0 : Counts) : Tallied c r l k0 (l.foldl (fun k i => tally c k (r i)) k0) := by
  induction l generalizing k0 with
  | nil => constructor <;> simp
  | cons i t ih =>
    simp only [List.foldl_cons]
    have h := ih (tally c k0 (r i))
    obtain ⟨s0, s1, s2, s3, s4, s5⟩ := tally_step c hc k0 (r i)
    constructor
    · rw [h.found, s0]; simp [or_assoc]
    · rw [h.free, s1]; simp [or_assoc]
    · rw [h.live, s2]; simp [or_assoc]
    · rw [h.fail, s3]; simp [or_assoc]
    · rw [h.dead, s4]; simp [or_assoc]
    · rw [h.unknown, s5]; simp [or_assoc]

theorem reset_done_decide_one (host_id : Nat) (s : ReqState) (k : Counts) :
    (reset_done_decide host_id s k).1 = 1 ↔
      k.found_count ≠ 0 ∧ (k.free_count ≠ 0 ∨ k.dead_count ≠ 0) ∧ k.live_count = 0 ∧
        k.fail_count = 0 ∧ k.unknown_count = 0 := by
  unfold reset_done_decide
  split_ifs <;> simp_all

theorem reset_done_decide_zero_or_one (host_id : Nat) (s : ReqState) (k : Counts) :
    (reset_done_decide host_id s k).1 = 0 ∨ (reset_done_decide host_id s k).1 = 1 := by
  unfold reset_done_decide
  split_ifs <;> simp

theorem reset_done_ls_names_eq (c : HostConsts) (host_id : Nat) (gh : Nat → GetHostsReply)
    (s : ReqState) : (reset_done c host_id gh s).2.ls_names = s.ls_names := by
  have h := (reset_done_fold c host_id gh (List.range MAX_LS) (s, Counts.zero)).1
  unfold reset_done reset_done_scan reset_done_decide
  dsimp only at h ⊢
  split_ifs <;> simp only [emit_ls_names, h]

theorem reset_done_one_iff (c : HostConsts) (hc : c.Distinct) (host_id : Nat)
    (gh : Nat → GetHostsReply) (s : ReqState) :
    (reset_done c host_id gh s).1 = 1 ↔ SpecDone c host_id s.ls_names gh := by
  have hf := (reset_done_fold c host_id gh (List.range MAX_LS) (s, Counts.zero)).2
  have ht := tallied_fold c hc (spec_report c host_id s.ls_names gh) (List.range MAX_LS)
    Counts.zero
  unfold reset_done reset_done_scan
  dsimp only at hf ⊢
  rw [reset_done_decide_one, hf]
  rw [ht.found, ht.free, ht.dead]
  have hl := ht.live
  have hfa := ht.fail
  have hu := ht.unknown
  simp only [Counts.zero, ne_eq, not_true_eq_false, false_or, List.mem_range] at hl hfa hu ⊢
  rw [← not_iff_not] at hl hfa hu
  simp only [not_not, not_exists, not_and] at hl hfa hu
  rw [hl, hfa, hu]
  unfold SpecDone
  constructor
  · rintro ⟨-, h1, h2, h3, h4⟩
    refine ⟨?_, fun i hi => ⟨h2 i hi, h3 i hi, h4 i hi⟩⟩
    rcases h1 with ⟨i, hi, h⟩ | ⟨i, hi, h⟩
    · exact ⟨i, hi, Or.inl h⟩
    · exact ⟨i, hi, Or.inr h⟩
  · rintro ⟨⟨i, hi, h⟩, h2⟩
    refine ⟨⟨i, hi, ?_⟩, ?_, fun j hj => (h2 j hj).1, fun j hj => (h2 j hj).2.1,
      fun j hj => (h2 j hj).2.2⟩
    · rcases h with h | h <;> simp [h]
    · rcases h with h | h
      · exact Or.inl ⟨i, hi, h⟩
      · exact Or.inr ⟨i, hi, h⟩

/-! ## Lemmas on the wait loop -/

theorem wait_ls_err_done (i : Nat) (s : ReqState) : (wait_ls_err i s).done = s.done := by
  unfold wait_ls_err; split_ifs <;> rfl

theorem wait_ls_done (inp : ReqIterIn) (i : Nat) (s : ReqState) :
    (wait_ls inp i s).done = s.done := by
  unfold wait_ls
  dsimp only
  split_ifs <;> simp only [wait_ls_err_done] <;> rfl

theorem wait_fold_done (inp : ReqIterIn) (l : List Nat) (s : ReqState) :
    (l.foldl (fun s i => wait_ls inp i s) s).done = s.done :=
  foldl_inv (fun t => t.done = s.done) _ l (fun t i _ h => by
    show (wait_ls inp i t).done = s.done
    rw [wait_ls_done]; exact h) s rfl

theorem wait_iter_ok (c : HostConsts) (inp : ReqIterIn) (s : ReqState) (hp : 0 ≤ inp.poll_rv) :
    wait_iter c inp s =
      if (reset_done c s.he.host_id inp.get_hosts (polled inp s)).1 ≠ 0 then
        ({ (reset_done c s.he.host_id inp.get_hosts (polled inp s)).2 with
            done := (reset_done c s.he.host_id inp.get_hosts (polled inp s)).1 }, true)
      else
        ((List.range MAX_LS).foldl (fun s i => wait_ls inp i s)
            { (reset_done c s.he.host_id inp.get_hosts (polled inp s)).2 with
              done := (reset_done c s.he.host_id inp.get_hosts (polled inp s)).1 },
          decide (((List.range MAX_LS).foldl (fun s i => wait_ls inp i s)
            { (reset_done c s.he.host_id inp.get_hosts (polled inp s)).2 with
              done := (reset_done c s.he.host_id inp.get_hosts (polled inp s)).1 }).ls_count
              = 0)) := by
  have h1 : ¬ (inp.poll_rv = -1 ∧ inp.poll_eintr = true) := by omega
  have h2 : ¬ inp.poll_rv < 0 := by omega
  unfold wait_iter
  simp only [h1, h2, if_false]
  split_ifs with h3 h4 <;> simp_all [polled, ReqState.emit]

/-- Equal cores have equal fields. -/
theorem req_core_fields {x y : ReqState} (h : x.core = y.core) :
    x.ls_names = y.ls_names ∧ x.ls_fd = y.ls_fd ∧ x.pollfd = y.pollfd ∧
    x.ls_count = y.ls_count ∧ x.use_watchdog = y.use_watchdog ∧
    x.use_sysrq_reboot = y.use_sysrq_reboot ∧ x.last_status_live = y.last_status_live ∧
    x.last_status_fail = y.last_status_fail ∧ x.last_status_unknown = y.last_status_unknown ∧
    x.he = y.he ∧ x.flags = y.flags ∧ x.done = y.done := by
  cases x; cases y
  simp only [ReqState.core, ReqState.mk.injEq] at h
  simp only [h, and_self]

theorem req_emit_core (s : ReqState) (x : Call) : (s.emit x).core = s.core := rfl

/-- The function `unregister_ls` acts on the core alone. -/
theorem unregister_ls_core {s t : ReqState} (h : s.core = t.core) (i : Nat) :
    (unregister_ls i s).core = (unregister_ls i t).core := by
  obtain ⟨h1, h2, h3, -⟩ := req_core_fields h
  cases s; cases t
  simp only [ReqState.core, ReqState.mk.injEq] at h
  simp_all [unregister_ls, ReqState.core, ReqState.emit]

theorem dec_count_core {s t : ReqState} (h : s.core = t.core) :
    ({ s with ls_count := s.ls_count - 1 } : ReqState).core =
      ({ t with ls_count := t.ls_count - 1 } : ReqState).core := by
  cases s; cases t
  simp only [ReqState.core, ReqState.mk.injEq] at h
  simp_all [ReqState.core]

theorem wait_ls_err_core {s t : ReqState} (h : s.core = t.core) (i : Nat) :
    (wait_ls_err i s).core = (wait_ls_err i t).core := by
  obtain ⟨-, -, h3, -⟩ := req_core_fields h
  unfold wait_ls_err
  rw [h3]
  split_ifs
  · exact dec_count_core (unregister_ls_core (h.trans rfl) i)
  · exact h

theorem wait_ls_core {a b : ReqIterIn} (hab : SameButEvents a b) {s t : ReqState}
    (h : s.core = t.core) (i : Nat) : (wait_ls a i s).core = (wait_ls b i t).core := by
  obtain ⟨-, -, h3, -⟩ := req_core_fields h
  have hrv := hab.2.2.2.2 i
  unfold wait_ls
  dsimp only
  rw [h3, hrv]
  by_cases h1 : (t.pollfd i).fd < 0
  · rw [if_pos h1, if_pos h1]; exact h
  · rw [if_neg h1, if_neg h1]
    by_cases h2 : (t.pollfd i).revents &&& POLLIN ≠ 0
    · rw [if_pos h2, if_pos h2]
      by_cases h4 : (b.get_event i).rv < 0
      · rw [if_pos h4, if_pos h4]
        exact dec_count_core (unregister_ls_core (h.trans rfl) i)
      · rw [if_neg h4, if_neg h4]
        apply wait_ls_err_core
        split_ifs <;> exact h
    · rw [if_neg h2, if_neg h2]
      exact wait_ls_err_core h i

theorem wait_fold_core {a b : ReqIterIn} (hab : SameButEvents a b) (l : List Nat)
    {s t : ReqState} (h : s.core = t.core) :
    (l.foldl (fun s i => wait_ls a i s) s).core = (l.foldl (fun s i => wait_ls b i s) t).core := by
  induction l generalizing s t with
  | nil => exact h
  | cons i rest ih =>
    simp only [List.foldl_cons]
    exact ih (wait_ls_core hab h i)

theorem reset_done_ls_core (c : HostConsts) (host_id : Nat) (reply : GetHostsReply) (i : Nat)
    (sk : ReqState × Counts) : (reset_done_ls c host_id reply i sk).1.core = sk.1.core := by
  unfold reset_done_ls
  split
  · rfl
  · split
    · rfl
    · rfl
    · dsimp only
      split <;> rfl

theorem reset_done_scan_core (c : HostConsts) (host_id : Nat) (gh : Nat → GetHostsReply)
    (s : ReqState) : (reset_done_scan c host_id gh s).1.core = s.core := by
  unfold reset_done_scan
  exact foldl_inv (fun sk => sk.1.core = s.core) _ _
    (fun sk i _ h => (reset_done_ls_core c host_id (gh i) i sk).trans h) (s, Counts.zero) rfl

theorem reset_done_scan_counts (c : HostConsts) (host_id : Nat) (gh : Nat → GetHostsReply)
    {s t : ReqState} (h : s.ls_names = t.ls_names) :
    (reset_done_scan c host_id gh s).2 = (reset_done_scan c host_id gh t).2 := by
  unfold reset_done_scan
  rw [(reset_done_fold c host_id gh _ (s, Counts.zero)).2,
    (reset_done_fold c host_id gh _ (t, Counts.zero)).2]
  dsimp only
  rw [h]

theorem reset_done_decide_core (host_id : Nat) {s t : ReqState} (h : s.core = t.core)
    (k : Counts) :
    (reset_done_decide host_id s k).1 = (reset_done_decide host_id t k).1 ∧
    (reset_done_decide host_id s k).2.core = (reset_done_decide host_id t k).2.core := by
  obtain ⟨-, -, -, -, -, -, h7, h8, h9, -⟩ := req_core_fields h
  cases s; cases t
  simp only [ReqState.core, ReqState.mk.injEq] at h
  simp only at h7 h8 h9
  unfold reset_done_decide
  dsimp only
  split_ifs <;> simp_all [ReqState.core, ReqState.emit]

theorem reset_done_core (c : HostConsts) (host_id : Nat) (gh : Nat → GetHostsReply)
    {s t : ReqState} (h : s.core = t.core) :
    (reset_done c host_id gh s).1 = (reset_done c host_id gh t).1 ∧
    (reset_done c host_id gh s).2.core = (reset_done c host_id gh t).2.core := by
  unfold reset_done
  dsimp only
  have h1 : (reset_done_scan c host_id gh s).1.core = (reset_done_scan c host_id gh t).1.core := by
    rw [reset_done_scan_core, reset_done_scan_core, h]
  rw [reset_done_scan_counts c host_id gh (req_core_fields h).1]
  exact reset_done_decide_core host_id h1 _

theorem set_done_core {s t : ReqState} (h : s.core = t.core) (d : Int) :
    ({ s with done := d } : ReqState).core = ({ t with done := d } : ReqState).core := by
  cases s; cases t
  simp only [ReqState.core, ReqState.mk.injEq] at h
  simp_all [ReqState.core]

theorem polled_core {a b : ReqIterIn} (hab : SameButEvents a b) {s t : ReqState}
    (h : s.core = t.core) : (polled a s).core = (polled b t).core := by
  obtain ⟨-, -, hr, -⟩ := hab
  cases s; cases t
  simp only [ReqState.core, ReqState.mk.injEq] at h
  simp_all [ReqState.core, polled, ReqState.emit]

theorem wait_iter_fail (c : HostConsts) (inp : ReqIterIn) (s : ReqState) (hp : inp.poll_rv < 0) :
    wait_iter c inp s =
      (s.emit (.poll MAX_LS 1000), decide (¬ (inp.poll_rv = -1 ∧ inp.poll_eintr = true))) := by
  unfold wait_iter
  dsimp only
  split_ifs <;> simp_all

theorem wait_iter_core (c : HostConsts) {a b : ReqIterIn} (hab : SameButEvents a b)
    {s t : ReqState} (h : s.core = t.core) :
    (wait_iter c a s).1.core = (wait_iter c b t).1.core ∧
    (wait_iter c a s).2 = (wait_iter c b t).2 := by
  have hrv := hab.1
  have hei := hab.2.1
  have hgh := hab.2.2.2.1
  have hhe := (req_core_fields h).2.2.2.2.2.2.2.2.2.1
  by_cases hp : 0 ≤ a.poll_rv
  · rw [wait_iter_ok c a s hp, wait_iter_ok c b t (hrv ▸ hp), hgh, hhe]
    obtain ⟨r1, r2⟩ := reset_done_core c t.he.host_id b.get_hosts (polled_core hab h)
    rw [r1]
    have r3 := set_done_core r2 (reset_done c t.he.host_id b.get_hosts (polled b t)).1
    split_ifs
    · exact ⟨r3, rfl⟩
    · have r4 := wait_fold_core hab (List.range MAX_LS) r3
      refine ⟨r4, ?_⟩
      dsimp only
      rw [(req_core_fields r4).2.2.2.1]
  · rw [wait_iter_fail c a s (by omega), wait_iter_fail c b t (by omega), hrv, hei]
    exact ⟨h, rfl⟩

theorem wait_run_core (c : HostConsts) {la lb : List ReqIterIn}
    (hab : List.Forall₂ SameButEvents la lb) {s t : ReqState} (h : s.core = t.core) :
    (wait_run c la s).1.core = (wait_run c lb t).1.core ∧
    (wait_run c la s).2 = (wait_run c lb t).2 := by
  induction hab generalizing s t with
  | nil => exact ⟨h, rfl⟩
  | cons hx _ ih =>
    obtain ⟨h1, h2⟩ := wait_iter_core c hx h
    unfold wait_run
    dsimp only
    rw [h2]
    split_ifs
    · exact ⟨h1, h2⟩
    · exact ih h1

theorem unregister_ls_done (i : Nat) (s : ReqState) : (unregister_ls i s).done = s.done := rfl

theorem finish_fold_done (l : List Nat) (s : ReqState) :
    (l.foldl (fun (s : ReqState) i =>
      match s.ls_names i with
      | none => s
      | some _ => if s.ls_fd i = -1 then s else unregister_ls i s) s).done = s.done := by
  apply foldl_inv (fun t => t.done = s.done) _ l _ s rfl
  intro t i _ h
  dsimp only
  split
  · exact h
  · split_ifs
    · exact h
    · exact h

theorem finish_exit (s : ReqState) :
    (finish s).2 = if s.done ≠ 0 then ExitCode.EXIT_SUCCESS else ExitCode.EXIT_FAILURE := by
  unfold finish
  dsimp only
  rw [finish_fold_done]
  split_ifs <;> rfl

theorem wait_run_append (c : HostConsts) (l1 l2 : List ReqIterIn) (s : ReqState) :
    wait_run c (l1 ++ l2) s =
      if (wait_run c l1 s).2 = true then wait_run c l1 s else wait_run c l2 (wait_run c l1 s).1 := by
  induction l1 generalizing s with
  | nil => simp [wait_run]
  | cons x rest ih =>
    simp only [List.cons_append, wait_run]
    by_cases h : (wait_iter c x s).2 = true
    · simp [h]
    · simp only [h, if_false]
      exact ih _

/-- The function `reset_done` does not look at the replies for table indices
whose lockspace is not registered. -/
theorem reset_done_congr (c : HostConsts) (host_id : Nat) (gh gh' : Nat → GetHostsReply)
    (s : ReqState) (h : ∀ i, i < MAX_LS → s.ls_names i ≠ none → gh' i = gh i) :
    reset_done c host_id gh' s = reset_done c host_id gh s := by
  have key : ∀ (l : List Nat) (sk : ReqState × Counts), (∀ i ∈ l, i < MAX_LS) →
      sk.1.ls_names = s.ls_names →
      l.foldl (fun sk i => reset_done_ls c host_id (gh' i) i sk) sk =
        l.foldl (fun sk i => reset_done_ls c host_id (gh i) i sk) sk := by
    intro l
    induction l with
    | nil => intros; rfl
    | cons i rest ih =>
      intro sk hl hn
      simp only [List.foldl_cons]
      have hstep : reset_done_ls c host_id (gh' i) i sk = reset_done_ls c host_id (gh i) i sk := by
        by_cases hi : s.ls_names i = none
        · unfold reset_done_ls
          rw [hn, hi]
        · rw [h i (hl i (List.mem_cons_self _ _)) hi]
      rw [hstep]
      exact ih _ (fun j hj => hl j (List.mem_cons_of_mem _ hj))
        ((reset_done_ls_names c host_id (gh i) i sk).trans hn)
  unfold reset_done reset_done_scan
  rw [key (List.range MAX_LS) (s, Counts.zero) (fun i hi => List.mem_range.mp hi) rfl]

/-! ## The invariant of the wait loop -/

theorem reset_done_decide_frame (host_id : Nat) (s : ReqState) (k : Counts) :
    (reset_done_decide host_id s k).2.ls_names = s.ls_names ∧
    (reset_done_decide host_id s k).2.pollfd = s.pollfd ∧
    (reset_done_decide host_id s k).2.ls_count = s.ls_count ∧
    (reset_done_decide host_id s k).2.he = s.he := by
  unfold reset_done_decide
  dsimp only
  split_ifs <;> exact ⟨rfl, rfl, rfl, rfl⟩

theorem reset_done_frame (c : HostConsts) (host_id : Nat) (gh : Nat → GetHostsReply)
    (s : ReqState) :
    (reset_done c host_id gh s).2.ls_names = s.ls_names ∧
    (reset_done c host_id gh s).2.pollfd = s.pollfd ∧
    (reset_done c host_id gh s).2.ls_count = s.ls_count ∧
    (reset_done c host_id gh s).2.he = s.he := by
  obtain ⟨h1, -, h3, h4, -, -, -, -, -, h10, -⟩ :=
    req_core_fields (reset_done_scan_core c host_id gh s)
  obtain ⟨d1, d2, d3, d4⟩ := reset_done_decide_frame host_id
    (reset_done_scan c host_id gh s).1 (reset_done_scan c host_id gh s).2
  unfold reset_done
  dsimp only
  exact ⟨d1.trans h1, d2.trans h3, d3.trans h4, d4.trans h10⟩

theorem wait_ls_err_tables (i : Nat) (s : ReqState) :
    (wait_ls_err i s).he = s.he ∧
    (((wait_ls_err i s).ls_names = s.ls_names ∧ (wait_ls_err i s).pollfd = s.pollfd ∧
        (wait_ls_err i s).ls_count = s.ls_count) ∨
      ((wait_ls_err i s).ls_names = Function.update s.ls_names i none ∧
        (wait_ls_err i s).pollfd =
          Function.update s.pollfd i { s.pollfd i with fd := -1, events := 0 } ∧
        (wait_ls_err i s).ls_count = s.ls_count - 1)) := by
  unfold wait_ls_err
  split_ifs
  · exact ⟨rfl, Or.inr ⟨rfl, rfl, rfl⟩⟩
  · exact ⟨rfl, Or.inl ⟨rfl, rfl, rfl⟩⟩

/-- What the body of the `for` loop does to the tables: nothing, or it takes
the lockspace at index `i`, whose descriptor was watched, out of them. -/
theorem wait_ls_tables (inp : ReqIterIn) (i : Nat) (s : ReqState) :
    (wait_ls inp i s).he = s.he ∧
    (((wait_ls inp i s).ls_names = s.ls_names ∧ (wait_ls inp i s).pollfd = s.pollfd ∧
        (wait_ls inp i s).ls_count = s.ls_count) ∨
      (0 ≤ (s.pollfd i).fd ∧
        (wait_ls inp i s).ls_names = Function.update s.ls_names i none ∧
        (wait_ls inp i s).pollfd =
          Function.update s.pollfd i { s.pollfd i with fd := -1, events := 0 } ∧
        (wait_ls inp i s).ls_count = s.ls_count - 1)) := by
  unfold wait_ls
  dsimp only
  by_cases h1 : (s.pollfd i).fd < 0
  · rw [if_pos h1]
    exact ⟨rfl, Or.inl ⟨rfl, rfl, rfl⟩⟩
  · rw [if_neg h1]
    have h1' : 0 ≤ (s.pollfd i).fd := by omega
    by_cases h2 : (s.pollfd i).revents &&& POLLIN ≠ 0
    · rw [if_pos h2]
      by_cases h3 : (inp.get_event i).rv < 0
      · rw [if_pos h3]
        exact ⟨rfl, Or.inr ⟨h1', rfl, rfl, rfl⟩⟩
      · rw [if_neg h3]
        split_ifs
        · obtain ⟨e0, e⟩ := wait_ls_err_tables i
            { s.emit (.sanlock_get_event (s.ls_fd i)) |>.emit (.log .warn
                (.notice_of (inp.get_event i).from_he.event (inp.get_event i).from_he.data
                  (inp.get_event i).from_host (inp.get_event i).from_gen)) with
              event_reply := 1 }
          refine ⟨e0, ?_⟩
          rcases e with e | e
          · exact Or.inl e
          · exact Or.inr ⟨h1', e⟩
        · obtain ⟨e0, e⟩ := wait_ls_err_tables i
            (s.emit (.sanlock_get_event (s.ls_fd i)) |>.emit (.log .warn
              (.event_ignored (inp.get_event i).from_he.event (inp.get_event i).from_he.data
                (inp.get_event i).from_host (inp.get_event i).from_gen)))
          refine ⟨e0, ?_⟩
          rcases e with e | e
          · exact Or.inl e
          · exact Or.inr ⟨h1', e⟩
    · rw [if_neg h2]
      obtain ⟨e0, e⟩ := wait_ls_err_tables i s
      refine ⟨e0, ?_⟩
      rcases e with e | e
      · exact Or.inl e
      · exact Or.inr ⟨h1', e⟩

theorem filter_update_not_mem (pf : Nat → PollFd) (i : Nat) (x : PollFd) (l : List Nat)
    (hi : i ∉ l) :
    l.filter (fun j => decide (0 ≤ (Function.update pf i x j).fd)) =
      l.filter (fun j => decide (0 ≤ (pf j).fd)) := by
  apply List.filter_congr
  intro j hj
  have hji : j ≠ i := fun h => hi (h ▸ hj)
  rw [Function.update_noteq hji]

theorem filter_update_mem (pf : Nat → PollFd) (i : Nat) (x : PollFd) (hx : x.fd < 0)
    (hfd : 0 ≤ (pf i).fd) (l : List Nat) (hnd : l.Nodup) (hi : i ∈ l) :
    (l.filter (fun j => decide (0 ≤ (Function.update pf i x j).fd))).length + 1 =
      (l.filter (fun j => decide (0 ≤ (pf j).fd))).length := by
  induction l with
  | nil => exact absurd hi (List.not_mem_nil _)
  | cons a rest ih =>
    obtain ⟨ha, hrest⟩ := List.nodup_cons.mp hnd
    by_cases hai : a = i
    · subst hai
      have hx' : ¬ 0 ≤ x.fd := by omega
      rw [List.filter_cons, List.filter_cons, Function.update_same,
        filter_update_not_mem pf a x rest ha]
      simp [hx', hfd]
    · have hi' : i ∈ rest := by
        rcases List.mem_cons.mp hi with h | h
        · exact absurd h.symm hai
        · exact h
      have h := ih hrest hi'
      rw [List.filter_cons, List.filter_cons, Function.update_noteq hai]
      by_cases hp : 0 ≤ (pf a).fd
      · simp only [hp, decide_True, if_true, List.length_cons]
        omega
      · simp only [hp, decide_False, Bool.false_eq_true, if_false]
        exact h

theorem regcount_unregister {s s' : ReqState} (i : Nat) (hi : i < MAX_LS)
    (hfd : 0 ≤ (s.pollfd i).fd)
    (hp : s'.pollfd = Function.update s.pollfd i { s.pollfd i with fd := -1, events := 0 }) :
    regcount s' + 1 = regcount s := by
  unfold regcount
  rw [hp]
  exact filter_update_mem s.pollfd i _ (show (-1 : Int) < 0 by decide) hfd _
    (List.nodup_range _) (List.mem_range.mpr hi)

theorem wait_ls_inv (inp : ReqIterIn) (i : Nat) (hi : i < MAX_LS) (s : ReqState)
    (h : WaitInv s) : WaitInv (wait_ls inp i s) := by
  obtain ⟨-, e⟩ := wait_ls_tables inp i s
  rcases e with ⟨e1, e2, e3⟩ | ⟨hfd, e1, e2, e3⟩
  · constructor
    · rw [e1, e2]; exact h.names
    · unfold regcount
      rw [e2, e3]
      exact h.count
  · constructor
    · intro j hj hn
      rw [e1] at hn
      rw [e2]
      by_cases hji : j = i
      · subst hji
        rw [Function.update_same] at hn
        exact absurd rfl hn
      · rw [Function.update_noteq hji] at hn ⊢
        exact h.names j hj hn
    · have hc := regcount_unregister i hi hfd e2
      have := h.count
      rw [e3]
      omega

theorem wait_fold_inv (inp : ReqIterIn) (s : ReqState) (h : WaitInv s) :
    WaitInv ((List.range MAX_LS).foldl (fun s i => wait_ls inp i s) s) :=
  foldl_inv WaitInv _ _ (fun t i hi ht => wait_ls_inv inp i (List.mem_range.mp hi) t ht) s h

theorem wait_fold_he (inp : ReqIterIn) (l : List Nat) (s : ReqState) :
    (l.foldl (fun s i => wait_ls inp i s) s).he = s.he :=
  foldl_inv (fun t => t.he = s.he) _ l
    (fun t i _ h => (wait_ls_tables inp i t).1.trans h) s rfl

/-- A state with the same tables satisfies the invariant too. -/
theorem WaitInv.of_tables {s t : ReqState} (h : WaitInv s) (h1 : t.ls_names = s.ls_names)
    (h2 : ∀ i, (t.pollfd i).fd = (s.pollfd i).fd) (h3 : t.ls_count = s.ls_count) :
    WaitInv t := by
  constructor
  · intro i hi hn
    rw [h2 i]
    rw [h1] at hn
    exact h.names i hi hn
  · unfold regcount
    simp only [h2, h3]
    exact h.count

theorem wait_iter_inv (c : HostConsts) (inp : ReqIterIn) (s : ReqState) (h : WaitInv s)
    (hp : 0 ≤ inp.poll_rv ∨ (inp.poll_rv = -1 ∧ inp.poll_eintr = true)) :
    WaitInv (wait_iter c inp s).1 ∧ (wait_iter c inp s).1.he = s.he ∧
    ((wait_iter c inp s).2 = true →
      (wait_iter c inp s).1.done ≠ 0 ∨ (wait_iter c inp s).1.ls_count = 0) := by
  by_cases h0 : 0 ≤ inp.poll_rv
  · obtain ⟨f1, f2, f3, f4⟩ := reset_done_frame c s.he.host_id inp.get_hosts (polled inp s)
    have hfd : ∀ i, ((polled inp s).pollfd i).fd = (s.pollfd i).fd := by
      intro i
      simp only [polled, poll_fill, ReqState.emit]
      split_ifs <;> rfl
    have hinv : WaitInv
        ({ (reset_done c s.he.host_id inp.get_hosts (polled inp s)).2 with
            done := (reset_done c s.he.host_id inp.get_hosts (polled inp s)).1 } : ReqState) :=
      h.of_tables f1 (fun i => by rw [← hfd i]; exact congrArg (fun pf => (pf i).fd) f2) f3
    rw [wait_iter_ok c inp s h0]
    split_ifs with hd
    · exact ⟨hinv, f4, fun _ => Or.inl hd⟩
    · refine ⟨wait_fold_inv inp _ hinv, (wait_fold_he inp _ _).trans f4, ?_⟩
      intro hx
      exact Or.inr (of_decide_eq_true hx)
  · have h1 : inp.poll_rv = -1 ∧ inp.poll_eintr = true := by
      rcases hp with hp | hp
      · exact absurd hp h0
      · exact hp
    rw [wait_iter_fail c inp s (by omega)]
    refine ⟨h.of_tables rfl (fun _ => rfl) rfl, rfl, ?_⟩
    intro hx
    simp [h1] at hx

theorem wait_run_inv (c : HostConsts) (l : List ReqIterIn) (s : ReqState) (h : WaitInv s)
    (hp : PollsOk l) :
    WaitInv (wait_run c l s).1 ∧ (wait_run c l s).1.he = s.he ∧
    ((wait_run c l s).2 = true →
      (wait_run c l s).1.done ≠ 0 ∨ (wait_run c l s).1.ls_count = 0) := by
  induction l generalizing s with
  | nil => exact ⟨h, rfl, fun hx => by simp [wait_run] at hx⟩
  | cons x rest ih =>
    obtain ⟨i1, i2, i3⟩ := wait_iter_inv c x s h (hp x (List.mem_cons_self _ _))
    unfold wait_run
    dsimp only
    split_ifs with hb
    · exact ⟨i1, i2, fun _ => i3 hb⟩
    · obtain ⟨j1, j2, j3⟩ := ih _ i1 (fun y hy => hp y (List.mem_cons_of_mem _ hy))
      exact ⟨j1, j2.trans i2, j3⟩

/-- Under the invariant, a state with `ls_count = 0` has no registered
lockspace. -/
theorem WaitInv.none_registered {s : ReqState} (h : WaitInv s) (h0 : s.ls_count = 0) (i : Nat)
    (hi : i < MAX_LS) : s.ls_names i = none := by
  by_contra hn
  have hfd := h.names i hi hn
  have hc := h.count
  rw [h0] at hc
  have hz : regcount s = 0 := by omega
  unfold regcount at hz
  rw [List.length_eq_zero, List.filter_eq_nil_iff] at hz
  have := hz i (List.mem_range.mpr hi)
  simp [hfd] at this

theorem spec_report_unregistered (c : HostConsts) (host_id : Nat) (names : Nat → Option String)
    (gh : Nat → GetHostsReply) (i : Nat) (h : names i = none) :
    spec_report c host_id names gh i = none := by
  unfold spec_report
  rw [h]

/-- The wait loop passes the host status replies to `reset_done` only. -/
theorem wait_iter_congr (c : HostConsts) (inp : ReqIterIn) (gh' : Nat → GetHostsReply)
    (s : ReqState) (h : ∀ i, i < MAX_LS → s.ls_names i ≠ none → gh' i = inp.get_hosts i) :
    wait_iter c { inp with get_hosts := gh' } s = wait_iter c inp s := by
  have hr : reset_done c s.he.host_id gh' (polled inp s) =
      reset_done c s.he.host_id inp.get_hosts (polled inp s) :=
    reset_done_congr c s.he.host_id inp.get_hosts gh' (polled inp s) h
  by_cases h0 : 0 ≤ inp.poll_rv
  · rw [wait_iter_ok c inp s h0, wait_iter_ok c { inp with get_hosts := gh' } s h0]
    have hpol : polled { inp with get_hosts := gh' } s = polled inp s := rfl
    have hls : ∀ i t, wait_ls { inp with get_hosts := gh' } i t = wait_ls inp i t :=
      fun _ _ => rfl
    simp only [hpol, hr, hls]
  · rw [wait_iter_fail c inp s (by omega), wait_iter_fail c { inp with get_hosts := gh' } s
      (by show inp.poll_rv < 0; omega)]

theorem unregister_ls_names_self (i : Nat) (s : ReqState) :
    (unregister_ls i s).ls_names i = none := by
  unfold unregister_ls
  dsimp only
  rw [Function.update_same]

theorem wait_ls_err_unregisters (i : Nat) (s : ReqState)
    (h4 : (s.pollfd i).revents &&& (POLLERR ||| POLLHUP ||| POLLNVAL) ≠ 0) :
    (wait_ls_err i s).ls_names i = none := by
  unfold wait_ls_err
  rw [if_pos h4]
  exact unregister_ls_names_self i _

/-- A lockspace whose channel fails is taken out of `ls_names`. -/
theorem wait_ls_unregisters (inp : ReqIterIn) (i : Nat) (s : ReqState)
    (hfd : 0 ≤ (s.pollfd i).fd)
    (herr : ((s.pollfd i).revents &&& POLLIN ≠ 0 ∧ (inp.get_event i).rv < 0) ∨
      (s.pollfd i).revents &&& (POLLERR ||| POLLHUP ||| POLLNVAL) ≠ 0) :
    (wait_ls inp i s).ls_names i = none := by
  have h1 : ¬ (s.pollfd i).fd < 0 := by omega
  unfold wait_ls
  dsimp only
  rw [if_neg h1]
  by_cases h2 : (s.pollfd i).revents &&& POLLIN ≠ 0
  · rw [if_pos h2]
    by_cases h3 : (inp.get_event i).rv < 0
    · rw [if_pos h3]
      exact unregister_ls_names_self i _
    · rw [if_neg h3]
      have h4 : (s.pollfd i).revents &&& (POLLERR ||| POLLHUP ||| POLLNVAL) ≠ 0 := by
        rcases herr with h | h
        · exact absurd h.2 h3
        · exact h
      split_ifs
      · exact wait_ls_err_unregisters i _ h4
      · exact wait_ls_err_unregisters i _ h4
  · rw [if_neg h2]
    have h4 : (s.pollfd i).revents &&& (POLLERR ||| POLLHUP ||| POLLNVAL) ≠ 0 := by
      rcases herr with h | h
      · exact absurd h.1 h2
      · exact h
    exact wait_ls_err_unregisters i s h4

/-! ## The wait loop without lockspaces -/

theorem tally_none_fold (c : HostConsts) (r : Nat → Option Nat) (l : List Nat)
    (h : ∀ i ∈ l, r i = none) (k : Counts) : l.foldl (fun k i => tally c k (r i)) k = k :=
  foldl_inv (fun t => t = k) _ l
    (fun t i hi ht => by
      show tally c t (r i) = k
      rw [h i hi, ht]; rfl) k rfl

theorem reset_done_unregistered (c : HostConsts) (host_id : Nat) (gh : Nat → GetHostsReply)
    (s : ReqState) (hn : ∀ i, i < MAX_LS → s.ls_names i = none) :
    (reset_done c host_id gh s).1 = 0 := by
  have hf := (reset_done_fold c host_id gh (List.range MAX_LS) (s, Counts.zero)).2
  dsimp only at hf
  rw [tally_none_fold c _ _ (fun i hi =>
    spec_report_unregistered c host_id s.ls_names gh i (hn i (List.mem_range.mp hi)))] at hf
  unfold reset_done reset_done_scan
  dsimp only
  rw [hf]
  rfl

theorem wait_ls_unwatched (inp : ReqIterIn) (i : Nat) (s : ReqState)
    (h : (s.pollfd i).fd < 0) : wait_ls inp i s = s := by
  unfold wait_ls
  rw [if_pos h]

theorem wait_fold_unwatched (inp : ReqIterIn) (s : ReqState)
    (h : ∀ i, i < MAX_LS → (s.pollfd i).fd < 0) :
    (List.range MAX_LS).foldl (fun s i => wait_ls inp i s) s = s :=
  foldl_inv (fun t => t = s) _ _
    (fun t i hi ht => by
      show wait_ls inp i t = s
      rw [ht]
      exact wait_ls_unwatched inp i s (h i (List.mem_range.mp hi))) s rfl

/-- With no lockspace left in the tables and `ls_count` not zero, a turn of
the wait loop whose `poll` does not fail does not leave the loop, and the next
turn starts in the same situation. -/
theorem wait_iter_stuck (c : HostConsts) (inp : ReqIterIn) (s : ReqState)
    (hn : ∀ i, i < MAX_LS → s.ls_names i = none)
    (hfd : ∀ i, i < MAX_LS → (s.pollfd i).fd < 0) (hc : s.ls_count ≠ 0)
    (hp : 0 ≤ inp.poll_rv ∨ (inp.poll_rv = -1 ∧ inp.poll_eintr = true)) :
    (wait_iter c inp s).2 = false ∧
    (∀ i, i < MAX_LS → (wait_iter c inp s).1.ls_names i = none) ∧
    (∀ i, i < MAX_LS → ((wait_iter c inp s).1.pollfd i).fd < 0) ∧
    (wait_iter c inp s).1.ls_count ≠ 0 := by
  by_cases h0 : 0 ≤ inp.poll_rv
  · obtain ⟨f1, f2, f3, -⟩ := reset_done_frame c s.he.host_id inp.get_hosts (polled inp s)
    have hz := reset_done_unregistered c s.he.host_id inp.get_hosts (polled inp s) hn
    rw [wait_iter_ok c inp s h0]
    generalize reset_done c s.he.host_id inp.get_hosts (polled inp s) = rd at f1 f2 f3 hz ⊢
    have hne : ¬ rd.1 ≠ 0 := by simp [hz]
    have hfd' : ∀ i, i < MAX_LS → ((({ rd.2 with done := rd.1 } : ReqState)).pollfd i).fd < 0 := by
      intro i hi
      show ((rd.2).pollfd i).fd < 0
      rw [f2]
      simp only [polled, poll_fill, ReqState.emit]
      split_ifs <;> exact hfd i hi
    rw [if_neg hne, wait_fold_unwatched inp _ hfd']
    refine ⟨?_, ?_, hfd', ?_⟩
    · show decide (rd.2.ls_count = 0) = false
      rw [f3]
      exact decide_eq_false hc
    · intro i hi
      show rd.2.ls_names i = none
      rw [f1]
      exact hn i hi
    · show rd.2.ls_count ≠ 0
      rw [f3]
      exact hc
  · have h1 : inp.poll_rv = -1 ∧ inp.poll_eintr = true := by
      rcases hp with hp | hp
      · exact absurd hp h0
      · exact hp
    rw [wait_iter_fail c inp s (by omega)]
    refine ⟨by simp [h1], hn, hfd, hc⟩

theorem wait_run_stuck (c : HostConsts) (l : List ReqIterIn) (s : ReqState)
    (hn : ∀ i, i < MAX_LS → s.ls_names i = none)
    (hfd : ∀ i, i < MAX_LS → (s.pollfd i).fd < 0) (hc : s.ls_count ≠ 0) (hp : PollsOk l) :
    (wait_run c l s).2 = false := by
  induction l generalizing s with
  | nil => rfl
  | cons x rest ih =>
    obtain ⟨h1, h2, h3, h4⟩ := wait_iter_stuck c x s hn hfd hc (hp x (List.mem_cons_self _ _))
    unfold wait_run
    dsimp only
    rw [h1]
    simp only [Bool.false_eq_true, if_false]
    exact ih _ h2 h3 h4 (fun y hy => hp y (List.mem_cons_of_mem _ hy))

theorem main_after_parse_waits (c : HostConsts) (inp : ReqMainIn) (s : ReqState)
    (h1 : (main_register inp s).ls_count ≠ 0)
    (h2 : (main_send c inp (main_register inp s)).ls_count ≠ 0) :
    main_after_parse c inp s =
      wait_and_finish c inp.iters (main_send c inp (main_register inp s)) := by
  unfold main_after_parse
  dsimp only
  rw [if_neg h1, if_neg h2]

/-! ## The invariant holds when `main` enters the wait loop -/

theorem init_step_fd (t : ReqState) (i j : Nat) (h : (t.pollfd i).fd = -1) :
    ((Function.update t.pollfd j (⟨-1, 0, 0⟩ : PollFd)) i).fd = -1 := by
  by_cases hji : i = j
  · subst hji
    rw [Function.update_same]
  · rw [Function.update_noteq hji]
    exact h

theorem init_tables_spec (s : ReqState) :
    (init_tables s).ls_names = s.ls_names ∧
    ∀ i, i < MAX_LS → ((init_tables s).pollfd i).fd = -1 := by
  have key : ∀ (l : List Nat) (t : ReqState),
      (l.foldl (fun (s : ReqState) i =>
        ({ s with
          ls_fd := Function.update s.ls_fd i (-1)
          pollfd := Function.update s.pollfd i ⟨-1, 0, 0⟩ } : ReqState)) t).ls_names =
        t.ls_names ∧
      ∀ i, (i ∈ l ∨ (t.pollfd i).fd = -1) →
        ((l.foldl (fun (s : ReqState) i =>
          ({ s with
            ls_fd := Function.update s.ls_fd i (-1)
            pollfd := Function.update s.pollfd i ⟨-1, 0, 0⟩ } : ReqState)) t).pollfd i).fd
          = -1 := by
    intro l
    induction l with
    | nil =>
      intro t
      refine ⟨rfl, fun i hi => ?_⟩
      rcases hi with hi | hi
      · exact absurd hi (List.not_mem_nil _)
      · exact hi
    | cons a rest ih =>
      intro t
      simp only [List.foldl_cons]
      obtain ⟨h1, h2⟩ := ih
        ({ t with
          ls_fd := Function.update t.ls_fd a (-1)
          pollfd := Function.update t.pollfd a ⟨-1, 0, 0⟩ } : ReqState)
      refine ⟨h1, fun i hi => h2 i ?_⟩
      rcases hi with hi | hi
      · rcases List.mem_cons.mp hi with h | h
        · right
          subst h
          show ((Function.update t.pollfd i (⟨-1, 0, 0⟩ : PollFd)) i).fd = -1
          rw [Function.update_same]
        · exact Or.inl h
      · right
        exact init_step_fd t i a hi
  unfold init_tables
  obtain ⟨h1, h2⟩ := key (List.range MAX_LS) s
  exact ⟨h1, fun i hi => h2 i (Or.inl (List.mem_range.mpr hi))⟩

theorem regcount_zero (s : ReqState) (h : ∀ i, i < MAX_LS → (s.pollfd i).fd < 0) :
    regcount s = 0 := by
  unfold regcount
  rw [List.length_eq_zero, List.filter_eq_nil_iff]
  intro i hi
  have := h i (List.mem_range.mp hi)
  simp only [decide_eq_true_eq, not_le]
  exact this

theorem regcount_register {s s' : ReqState} (i : Nat) (hi : i < MAX_LS)
    (hold : (s.pollfd i).fd < 0) (x : PollFd) (hx : 0 ≤ x.fd)
    (hp : s'.pollfd = Function.update s.pollfd i x) : regcount s' = regcount s + 1 := by
  have hback : s.pollfd = Function.update s'.pollfd i (s.pollfd i) := by
    rw [hp, Function.update_idem, Function.update_eq_self]
  have hnew : 0 ≤ (s'.pollfd i).fd := by
    rw [hp, Function.update_same]; exact hx
  have h := filter_update_mem s'.pollfd i (s.pollfd i) hold hnew _ (List.nodup_range MAX_LS)
    (List.mem_range.mpr hi)
  rw [← hback] at h
  unfold regcount
  exact h.symm

theorem reg_event_ls_tables (reg_event : Nat → Int) (i : Nat) (s : ReqState) :
    (s.ls_names i = none ∧ (reg_event_ls reg_event i s).ls_names = s.ls_names ∧
      (reg_event_ls reg_event i s).pollfd = s.pollfd ∧
      (reg_event_ls reg_event i s).ls_count = s.ls_count) ∨
    ((reg_event_ls reg_event i s).ls_names = Function.update s.ls_names i none ∧
      (reg_event_ls reg_event i s).pollfd = s.pollfd ∧
      (reg_event_ls reg_event i s).ls_count = s.ls_count) ∨
    (0 ≤ reg_event i ∧ (reg_event_ls reg_event i s).ls_names = s.ls_names ∧
      (reg_event_ls reg_event i s).pollfd =
        Function.update s.pollfd i { s.pollfd i with fd := reg_event i, events := POLLIN } ∧
      (reg_event_ls reg_event i s).ls_count = s.ls_count + 1) := by
  unfold reg_event_ls
  split
  · rename_i h
    exact Or.inl ⟨h, rfl, rfl, rfl⟩
  · dsimp only
    split_ifs with h
    · exact Or.inr (Or.inl ⟨rfl, rfl, rfl⟩)
    · exact Or.inr (Or.inr ⟨by omega, rfl, rfl, rfl⟩)

/-- The registration loop over indices whose descriptor is still unwatched. -/
theorem reg_fold_inv (reg_event : Nat → Int) (l : List Nat) (hnd : l.Nodup)
    (hl : ∀ i ∈ l, i < MAX_LS) (s : ReqState)
    (hfd : ∀ i ∈ l, (s.pollfd i).fd < 0)
    (hnames : ∀ i, i < MAX_LS → i ∉ l → s.ls_names i ≠ none → 0 ≤ (s.pollfd i).fd)
    (hcount : (regcount s : Int) ≤ s.ls_count) :
    WaitInv (l.foldl (fun s i => reg_event_ls reg_event i s) s) := by
  induction l generalizing s with
  | nil => exact ⟨fun i hi hn => hnames i hi (List.not_mem_nil _) hn, hcount⟩
  | cons a rest ih =>
    obtain ⟨ha, hrest⟩ := List.nodup_cons.mp hnd
    have ha4 : a < MAX_LS := hl a (List.mem_cons_self _ _)
    have hfa : (s.pollfd a).fd < 0 := hfd a (List.mem_cons_self _ _)
    have hout : ∀ i, i ∉ rest → i ≠ a → i ∉ a :: rest := by
      intro i h1 h2 h
      rcases List.mem_cons.mp h with h | h
      · exact h2 h
      · exact h1 h
    simp only [List.foldl_cons]
    rcases reg_event_ls_tables reg_event a s with
      ⟨e0, e1, e2, e3⟩ | ⟨e1, e2, e3⟩ | ⟨hpos, e1, e2, e3⟩
    · apply ih hrest (fun i hi => hl i (List.mem_cons_of_mem _ hi))
      · intro i hi
        rw [e2]
        exact hfd i (List.mem_cons_of_mem _ hi)
      · intro i hi hni hn
        rw [e1] at hn
        rw [e2]
        by_cases hia : i = a
        · subst hia
          exact absurd e0 hn
        · exact hnames i hi (hout i hni hia) hn
      · unfold regcount
        rw [e2, e3]
        exact hcount
    · apply ih hrest (fun i hi => hl i (List.mem_cons_of_mem _ hi))
      · intro i hi
        rw [e2]
        exact hfd i (List.mem_cons_of_mem _ hi)
      · intro i hi hni hn
        rw [e1] at hn
        rw [e2]
        by_cases hia : i = a
        · subst hia
          rw [Function.update_same] at hn
          exact absurd rfl hn
        · rw [Function.update_noteq hia] at hn
          exact hnames i hi (hout i hni hia) hn
      · unfold regcount
        rw [e2, e3]
        exact hcount
    · apply ih hrest (fun i hi => hl i (List.mem_cons_of_mem _ hi))
      · intro i hi
        have hia : i ≠ a := fun h => ha (h ▸ hi)
        rw [e2, Function.update_noteq hia]
        exact hfd i (List.mem_cons_of_mem _ hi)
      · intro i hi hni hn
        rw [e1] at hn
        rw [e2]
        by_cases hia : i = a
        · subst hia
          rw [Function.update_same]
          exact hpos
        · rw [Function.update_noteq hia]
          exact hnames i hi (hout i hni hia) hn
      · rw [regcount_register a ha4 hfa _ hpos e2, e3]
        push_cast
        omega

theorem main_register_inv (inp : ReqMainIn) (s : ReqState) : WaitInv (main_register inp s) := by
  obtain ⟨-, h2⟩ := init_tables_spec s
  unfold main_register
  dsimp only
  have hfd : ∀ i, i < MAX_LS →
      ((({ init_tables s with ls_count := 0 } : ReqState)).pollfd i).fd < 0 := by
    intro i hi
    show ((init_tables s).pollfd i).fd < 0
    rw [h2 i hi]
    decide
  apply reg_fold_inv inp.reg_event _ (List.nodup_range _) (fun i hi => List.mem_range.mp hi)
  · exact fun i hi => hfd i (List.mem_range.mp hi)
  · intro i hi hni
    exact absurd (List.mem_range.mpr hi) hni
  · rw [regcount_zero _ hfd]
    exact le_refl _

theorem send_event_ls_tables (set_event : Nat → Int) (i : Nat) (s : ReqState) :
    (send_event_ls set_event i s).ls_count = s.ls_count ∧
    (((send_event_ls set_event i s).ls_names = s.ls_names ∧
        (send_event_ls set_event i s).pollfd = s.pollfd) ∨
      (s.ls_names i ≠ none ∧
        (send_event_ls set_event i s).ls_names = Function.update s.ls_names i none ∧
        (send_event_ls set_event i s).pollfd =
          Function.update s.pollfd i { s.pollfd i with fd := -1, events := 0 })) := by
  unfold send_event_ls
  split
  · exact ⟨rfl, Or.inl ⟨rfl, rfl⟩⟩
  · rename_i name h
    dsimp only
    split_ifs
    · exact ⟨rfl, Or.inl ⟨rfl, rfl⟩⟩
    · exact ⟨rfl, Or.inr ⟨by rw [h]; simp, rfl, rfl⟩⟩
    · exact ⟨rfl, Or.inl ⟨rfl, rfl⟩⟩

theorem send_event_ls_inv (set_event : Nat → Int) (i : Nat) (hi : i < MAX_LS) (s : ReqState)
    (h : WaitInv s) : WaitInv (send_event_ls set_event i s) := by
  obtain ⟨e3, e⟩ := send_event_ls_tables set_event i s
  rcases e with ⟨e1, e2⟩ | ⟨hn, e1, e2⟩
  · exact h.of_tables e1 (fun j => by rw [e2]) e3
  · have hfd := h.names i hi hn
    constructor
    · intro j hj hnj
      rw [e1] at hnj
      rw [e2]
      by_cases hji : j = i
      · subst hji
        rw [Function.update_same] at hnj
        exact absurd rfl hnj
      · rw [Function.update_noteq hji] at hnj ⊢
        exact h.names j hj hnj
    · have hc := regcount_unregister i hi hfd e2
      have := h.count
      rw [e3]
      omega

theorem build_event_tables (c : HostConsts) (s : ReqState) :
    (build_event c s).ls_names = s.ls_names ∧ (build_event c s).pollfd = s.pollfd ∧
    (build_event c s).ls_count = s.ls_count := by
  unfold build_event
  dsimp only
  split_ifs <;> exact ⟨rfl, rfl, rfl⟩

/-- The state in which `main` enters the wait loop satisfies the invariant,
whatever the results of registering and of sending the event were, and sending
does not change `ls_count`. -/
theorem main_send_inv (c : HostConsts) (inp : ReqMainIn) (s : ReqState) :
    WaitInv (main_send c inp (main_register inp s)) ∧
    (main_send c inp (main_register inp s)).ls_count = (main_register inp s).ls_count := by
  obtain ⟨b1, b2, b3⟩ := build_event_tables c (main_register inp s)
  have hb : WaitInv (build_event c (main_register inp s)) :=
    (main_register_inv inp s).of_tables b1 (fun j => by rw [b2]) b3
  unfold main_send
  dsimp only
  constructor
  · exact foldl_inv WaitInv _ _
      (fun t i hi ht => send_event_ls_inv inp.set_event i (List.mem_range.mp hi) t ht) _ hb
  · exact foldl_inv (fun t => t.ls_count = (main_register inp s).ls_count) _ _
      (fun t i _ ht => (send_event_ls_tables inp.set_event i t).1.trans ht) _ b3

/-- The wait loop only takes lockspaces out of `ls_names`. -/
theorem wait_run_names (c : HostConsts) (l : List ReqIterIn) (s : ReqState) (i : Nat)
    (h : (wait_run c l s).1.ls_names i ≠ none) : s.ls_names i ≠ none := by
  have hls : ∀ (x : ReqIterIn) (j : Nat) (t : ReqState),
      (wait_ls x j t).ls_names i ≠ none → t.ls_names i ≠ none := by
    intro x j t ht
    rcases (wait_ls_tables x j t).2 with ⟨e1, -, -⟩ | ⟨-, e1, -, -⟩
    · rw [e1] at ht; exact ht
    · rw [e1] at ht
      by_cases hij : i = j
      · subst hij
        rw [Function.update_same] at ht
        exact absurd rfl ht
      · rw [Function.update_noteq hij] at ht
        exact ht
  have hfold : ∀ (x : ReqIterIn) (l' : List Nat) (t : ReqState),
      (l'.foldl (fun s j => wait_ls x j s) t).ls_names i ≠ none → t.ls_names i ≠ none := by
    intro x l'
    induction l' with
    | nil => exact fun t ht => ht
    | cons a rest ih =>
      intro t ht
      simp only [List.foldl_cons] at ht
      exact hls x a t (ih _ ht)
  have hiter : ∀ (x : ReqIterIn) (t : ReqState),
      (wait_iter c x t).1.ls_names i ≠ none → t.ls_names i ≠ none := by
    intro x t ht
    by_cases hp : 0 ≤ x.poll_rv
    · rw [wait_iter_ok c x t hp] at ht
      have f1 := (reset_done_frame c t.he.host_id x.get_hosts (polled x t)).1
      split_ifs at ht
      · have ht' : (reset_done c t.he.host_id x.get_hosts (polled x t)).2.ls_names i ≠ none := ht
        rw [f1] at ht'
        exact ht'
      · have ht' := hfold x _ _ ht
        have ht'' : (reset_done c t.he.host_id x.get_hosts (polled x t)).2.ls_names i ≠ none :=
          ht'
        rw [f1] at ht''
        exact ht''
    · rw [wait_iter_fail c x t (by omega)] at ht
      exact ht
  induction l generalizing s with
  | nil => exact h
  | cons x rest ih =>
    unfold wait_run at h
    dsimp only at h
    split_ifs at h
    · exact hiter x s h
    · exact hiter x s (ih _ h)

end Reset

/-! ## Lemmas on the agent -/

theorem and_not_reboot_reboot (e : Nat) : (e &&& u64_not EVENT_REBOOT) &&& EVENT_REBOOT = 0 := by
  rw [Nat.land_assoc]
  have h : u64_not EVENT_REBOOT &&& EVENT_REBOOT = 0 := by decide
  rw [h]; simp

theorem and_not_reboot_reset (e : Nat) :
    (e &&& u64_not EVENT_REBOOT) &&& EVENT_RESET = e &&& EVENT_RESET := by
  rw [Nat.land_assoc]
  have h : u64_not EVENT_REBOOT &&& EVENT_RESET = EVENT_RESET := by decide
  rw [h]

theorem filter_effects (p : Call → Bool) (hp : ∀ c, p c = true → c.is_effect = true)
    (t : List Call) : (effects t).filter p = t.filter p := by
  unfold effects
  rw [List.filter_filter]
  congr 1
  funext c
  cases h : p c
  · rfl
  · simp [hp c h]

theorem countP_effects (p : Call → Bool) (hp : ∀ c, p c = true → c.is_effect = true)
    (t : List Call) : (effects t).countP p = t.countP p := by
  rw [List.countP_eq_length_filter, List.countP_eq_length_filter, filter_effects p hp]

theorem is_set_event_effect (c : Call) (h : c.is_set_event = true) : c.is_effect = true := by
  cases c <;> simp_all [Call.is_set_event, Call.is_effect]

theorem is_test_live_effect (c : Call) (h : c.is_test_live = true) : c.is_effect = true := by
  cases c <;> simp_all [Call.is_test_live, Call.is_effect]

theorem is_enter_watchdog_effect (c : Call) (h : c.is_enter_watchdog = true) :
    c.is_effect = true := by
  cases c <;> simp_all [Call.is_enter_watchdog, Call.is_effect]

theorem is_enter_sysrq_effect (c : Call) (h : c.is_enter_sysrq = true) :
    c.is_effect = true := by
  cases c <;> simp_all [Call.is_enter_sysrq, Call.is_effect]

theorem is_ack_effect (bit : Nat) (c : Call) (h : c.is_ack bit = true) : c.is_effect = true := by
  cases c <;> simp_all [Call.is_ack, Call.is_effect]

namespace Resetd

theorem emit_core (s : AgentState) (c : Call) : (s.emit c).core = s.core := rfl

theorem emit_trace (s : AgentState) (c : Call) : (s.emit c).trace = s.trace ++ [c] := rfl

theorem effects_append (a b : List Call) : effects (a ++ b) = effects a ++ effects b := by
  simp [effects]

theorem effects_single (c : Call) : effects [c] = if c.is_effect = true then [c] else [] := by
  simp only [effects, List.filter_cons, List.filter_nil]

theorem effects_emit (s : AgentState) (c : Call) :
    effects (s.emit c).trace = effects s.trace ++ (if c.is_effect = true then [c] else []) := by
  rw [emit_trace, effects_append, effects_single]

/-- Equal cores have equal fields. -/
theorem core_fields {x y : AgentState} (h : x.core = y.core) :
    x.daemon_quit = y.daemon_quit ∧ x.use_watchdog = y.use_watchdog ∧
    x.use_sysrq_reboot = y.use_sysrq_reboot ∧ x.sysrq_delay = y.sysrq_delay ∧
    x.we_are_resetting = y.we_are_resetting ∧ x.we_are_rebooting = y.we_are_rebooting ∧
    x.rebooting_time = y.rebooting_time ∧ x.ls_names = y.ls_names ∧ x.ls_fd = y.ls_fd ∧
    x.pollfd = y.pollfd ∧ x.ls_count = y.ls_count ∧ x.signal_fd = y.signal_fd ∧
    x.wdmd_fd = y.wdmd_fd ∧ x.poll_timeout = y.poll_timeout := by
  cases x; cases y
  simp only [AgentState.core, AgentState.mk.injEq] at h
  simp only [h, and_self]

theorem log_event_core (r : GetEventReply) (s : AgentState) : (log_event r s).core = s.core := by
  unfold log_event
  dsimp only
  split_ifs <;> rfl

theorem log_event_effects (r : GetEventReply) (s : AgentState) :
    effects (log_event r s).trace = effects s.trace := by
  unfold log_event
  dsimp only
  split_ifs <;> simp [effects_emit, Call.is_effect]

theorem watchdog_reset_self_core (t : Nat) (rv : Int) (s : AgentState) :
    (watchdog_reset_self t rv s).core = s.core := by
  unfold watchdog_reset_self
  dsimp only
  split_ifs <;> rfl

theorem watchdog_reset_self_effects (t : Nat) (rv : Int) (s : AgentState) :
    effects (watchdog_reset_self t rv s).trace =
      effects s.trace ++ (Call.enter_watchdog_reset_self ::
        (if s.use_watchdog = 0 then []
          else [Call.wdmd_test_live s.wdmd_fd (monotime t) (monotime t)])) := by
  unfold watchdog_reset_self
  dsimp only
  have hu : (s.emit Call.enter_watchdog_reset_self).use_watchdog = s.use_watchdog := rfl
  have hw : (s.emit Call.enter_watchdog_reset_self).wdmd_fd = s.wdmd_fd := rfl
  rw [hu, hw]
  split_ifs <;> simp [effects_emit, Call.is_effect]

theorem set_event_out_core (n : Option String) (e h g : Nat) (rv : Int) (s : AgentState) :
    (set_event_out n e h g rv s).core = s.core := by
  unfold set_event_out
  dsimp only
  split_ifs <;> rfl

theorem set_event_out_effects (n : Option String) (e h g : Nat) (rv : Int) (s : AgentState) :
    effects (set_event_out n e h g rv s).trace =
      effects s.trace ++ [Call.sanlock_set_event n ⟨h, g, e, 0⟩ 0] := by
  unfold set_event_out
  dsimp only
  split_ifs <;> simp [effects_emit, Call.is_effect]

theorem drop_reboot_spec (v : EventVars) (s : AgentState) :
    (drop_reboot v s).2.core = s.core ∧
    effects (drop_reboot v s).2.trace = effects s.trace ∧
    (drop_reboot v s).1.event_out = v.event_out ∧
    ((drop_reboot v s).1.event &&& EVENT_RESET = v.event &&& EVENT_RESET) ∧
    ((drop_reboot v s).1.event &&& EVENT_REBOOT ≠ 0 ↔
      v.event &&& EVENT_REBOOT ≠ 0 ∧ s.use_sysrq_reboot ≠ 0) := by
  unfold drop_reboot
  split_ifs with h
  · refine ⟨rfl, ?_, rfl, and_not_reboot_reset _, ?_⟩
    · simp [effects_emit, Call.is_effect]
    · simp [and_not_reboot_reboot, h.2]
  · refine ⟨rfl, rfl, rfl, rfl, ?_⟩
    constructor
    · intro h1
      exact ⟨h1, fun h2 => h ⟨h1, h2⟩⟩
    · exact fun h1 => h1.1

theorem accept_reset_spec (t : Nat) (rv : Int) (v : EventVars) (s : AgentState) :
    (accept_reset t rv v s).2.core =
      (if v.event &&& EVENT_RESET ≠ 0 ∧ s.we_are_resetting = 0 then
        { s.core with we_are_resetting := 1, poll_timeout := 1000 } else s.core) ∧
    effects (accept_reset t rv v s).2.trace =
      effects s.trace ++
        (if v.event &&& EVENT_RESET ≠ 0 ∧ s.we_are_resetting = 0 then
          Call.enter_watchdog_reset_self ::
            (if s.use_watchdog = 0 then []
              else [Call.wdmd_test_live s.wdmd_fd (monotime t) (monotime t)])
        else []) ∧
    (accept_reset t rv v s).1.event = v.event ∧
    (accept_reset t rv v s).1.event_out =
      (if v.event &&& EVENT_RESET ≠ 0 ∧ s.we_are_resetting = 0 then
        v.event_out ||| EVENT_RESETTING else v.event_out) := by
  unfold accept_reset
  by_cases h : v.event &&& EVENT_RESET ≠ 0 ∧ s.we_are_resetting = 0
  · simp only [if_pos h]
    refine ⟨?_, ?_, trivial, trivial⟩
    · rw [watchdog_reset_self_core]; rfl
    · rw [watchdog_reset_self_effects]
  · simp only [if_neg h]
    exact ⟨trivial, by simp, trivial, trivial⟩

theorem accept_reboot_spec (t : Nat) (v : EventVars) (s : AgentState) :
    (accept_reboot t v s).2.core =
      (if v.event &&& EVENT_REBOOT ≠ 0 ∧ s.we_are_rebooting = 0 then
        { s.core with we_are_rebooting := 1, rebooting_time := monotime t,
                      poll_timeout := 1000 } else s.core) ∧
    effects (accept_reboot t v s).2.trace = effects s.trace ∧
    (accept_reboot t v s).1.event_out =
      (if v.event &&& EVENT_REBOOT ≠ 0 ∧ s.we_are_rebooting = 0 then
        v.event_out ||| EVENT_REBOOTING else v.event_out) := by
  unfold accept_reboot
  by_cases h : v.event &&& EVENT_REBOOT ≠ 0 ∧ s.we_are_rebooting = 0
  · simp only [if_pos h]
    refine ⟨?_, ?_, ?_⟩ <;> first | rfl | trivial
  · simp only [if_neg h]
    refine ⟨?_, ?_, ?_⟩ <;> first | rfl | trivial

theorem handle_event_spec (inp : AgentIterIn) (i : Nat) (r : GetEventReply) (s : AgentState) :
    (handle_event inp i r s).core = handle_core inp i r s ∧
    effects (handle_event inp i r s).trace = effects s.trace ++ handle_effects inp i r s := by
  unfold handle_event
  dsimp only
  have hl := log_event_core r s
  have hle := log_event_effects r s
  generalize log_event r s = s1 at hl hle ⊢
  obtain ⟨a1, a2, a3, a4, a5⟩ := drop_reboot_spec ⟨r.from_he.event, 0⟩ s1
  generalize drop_reboot ⟨r.from_he.event, 0⟩ s1 = a at a1 a2 a3 a4 a5 ⊢
  obtain ⟨b1, b2, b3, b4⟩ :=
    accept_reset_spec (inp.tv_sec_watchdog i) (inp.test_live_rv i) a.1 a.2
  generalize accept_reset (inp.tv_sec_watchdog i) (inp.test_live_rv i) a.1 a.2 = b
    at b1 b2 b3 b4 ⊢
  obtain ⟨d1, d2, d3⟩ := accept_reboot_spec (inp.tv_sec_reboot i) b.1 b.2
  generalize accept_reboot (inp.tv_sec_reboot i) b.1 b.2 = d at d1 d2 d3 ⊢
  have f1 := core_fields hl
  have fa := core_fields (a1.trans hl)
  have hR : (a.1.event &&& EVENT_RESET ≠ 0 ∧ a.2.we_are_resetting = 0) ↔ reset_accepted r s := by
    unfold reset_accepted
    rw [a4, fa.2.2.2.2.1]
  have hwb : b.2.we_are_rebooting = s.we_are_rebooting := by
    have h := congrArg AgentState.we_are_rebooting b1
    rw [← fa.2.2.2.2.2.1]
    split_ifs at h <;> exact h
  have hB : (b.1.event &&& EVENT_REBOOT ≠ 0 ∧ b.2.we_are_rebooting = 0) ↔
      reboot_accepted r s := by
    unfold reboot_accepted
    rw [b3, a5, hwb, f1.2.2.1, and_assoc]
  simp only [hR] at b1 b2 b4
  simp only [hB] at d1 d3
  have hn : d.2.ls_names = s.ls_names := by
    have h1 := congrArg AgentState.ls_names d1
    have h2 := congrArg AgentState.ls_names b1
    have h3 : d.2.ls_names = b.2.ls_names := by split_ifs at h1 <;> exact h1
    have h4 : b.2.ls_names = a.2.ls_names := by split_ifs at h2 <;> exact h2
    rw [h3, h4, fa.2.2.2.2.2.2.2.1]
  have hout : d.1.event_out = ack_bits r s := by
    rw [d3, b4, a3]
    unfold ack_bits
    split_ifs <;> simp
  have hnz : d.1.event_out ≠ 0 ↔ (reset_accepted r s ∨ reboot_accepted r s) := by
    rw [hout]
    unfold ack_bits
    split_ifs with h1 h2 h2 <;> simp [h1, h2, EVENT_RESETTING, EVENT_REBOOTING]
  have hcore : d.2.core = handle_core inp i r s := by
    rw [d1, b1, a1.trans hl]
    rfl
  have heff : effects d.2.trace = effects s.trace ++
      (if reset_accepted r s then
        Call.enter_watchdog_reset_self ::
          (if s.use_watchdog = 0 then []
            else [Call.wdmd_test_live s.wdmd_fd (monotime (inp.tv_sec_watchdog i))
              (monotime (inp.tv_sec_watchdog i))])
      else []) := by
    rw [d2, b2, a2, hle, fa.2.1, fa.2.2.2.2.2.2.2.2.2.2.2.2.1]
  unfold handle_effects
  by_cases hz : d.1.event_out ≠ 0
  · rw [if_pos hz, if_pos (hnz.mp hz)]
    refine ⟨by rw [set_event_out_core, hcore], ?_⟩
    rw [set_event_out_effects, heff, hn, hout, List.append_assoc]
  · rw [if_neg hz, if_neg (fun h => hz (hnz.mpr h))]
    exact ⟨hcore, by rw [heff]; simp⟩

theorem fence_of_core {x y : AgentState} (h : x.core = y.core) : x.fence = y.fence := by
  obtain ⟨-, h2, h3, h4, h5, h6, h7, -, -, -, -, -, h13, -⟩ := core_fields h
  simp only [AgentState.fence, h2, h3, h4, h5, h6, h7, h13]

theorem unregister_ls_fence (i : Nat) (s : AgentState) : (unregister_ls i s).fence = s.fence :=
  rfl

theorem unregister_ls_effects (i : Nat) (s : AgentState) :
    effects (unregister_ls i s).trace = effects s.trace := by
  have h : (unregister_ls i s).trace =
      (s.emit (.sanlock_end_event (s.ls_fd i) (s.ls_names i))).trace := rfl
  rw [h, effects_emit]
  simp [Call.is_effect]

theorem agent_ls_err_spec (i : Nat) (s : AgentState) :
    (agent_ls_err i s).fence = s.fence ∧
    effects (agent_ls_err i s).trace = effects s.trace := by
  unfold agent_ls_err
  by_cases h : (s.pollfd i).revents &&& (POLLERR ||| POLLHUP ||| POLLNVAL) ≠ 0
  · rw [if_pos h]
    constructor
    · exact unregister_ls_fence i _
    · show effects (unregister_ls i (s.emit _)).trace = _
      rw [unregister_ls_effects, effects_emit]
      simp [Call.is_effect]
  · rw [if_neg h]
    exact ⟨rfl, rfl⟩

theorem agent_ls_spec (inp : AgentIterIn) (i : Nat) (s : AgentState) :
    (agent_ls inp i s).fence =
      (if received inp i s then (handle_core inp i (inp.get_event i) s).fence else s.fence) ∧
    effects (agent_ls inp i s).trace =
      effects s.trace ++
        (if received inp i s then handle_effects inp i (inp.get_event i) s else []) := by
  unfold agent_ls
  by_cases h1 : (s.pollfd i).fd < 0
  · have hr : ¬ received inp i s := fun h => h.1 h1
    rw [if_pos h1, if_neg hr, if_neg hr]
    exact ⟨rfl, by simp⟩
  · rw [if_neg h1]
    by_cases h2 : (s.pollfd i).revents &&& POLLIN ≠ 0
    · rw [if_pos h2]
      by_cases h3 : (inp.get_event i).rv < 0
      · have hr : ¬ received inp i s := fun h => h.2.2 h3
        rw [if_neg hr, if_neg hr]
        simp only [if_pos h3]
        constructor
        · exact unregister_ls_fence i _
        · show effects (unregister_ls i ((s.emit _).emit _)).trace = _
          rw [unregister_ls_effects, effects_emit, effects_emit]
          simp [Call.is_effect]
      · have hr : received inp i s := ⟨h1, h2, h3⟩
        rw [if_pos hr, if_pos hr]
        simp only [if_neg h3]
        obtain ⟨e1, e2⟩ := agent_ls_err_spec i
          (handle_event inp i (inp.get_event i) (s.emit (.sanlock_get_event (s.ls_fd i))))
        obtain ⟨k1, k2⟩ := handle_event_spec inp i (inp.get_event i)
          (s.emit (.sanlock_get_event (s.ls_fd i)))
        constructor
        · rw [e1]
          have k3 := congrArg AgentState.fence k1
          exact k3
        · rw [e2, k2, effects_emit]
          simp only [Call.is_effect, List.append_nil, Bool.false_eq_true, if_false]
          rfl
    · have hr : ¬ received inp i s := fun h => h2 h.2.1
      rw [if_neg h2, if_neg hr, if_neg hr]
      simp only [List.append_nil]
      exact agent_ls_err_spec i s

theorem Evolves.refl (s : AgentState) : Evolves s s := by
  constructor <;> first | rfl | exact le_refl _ | (intros; exact ⟨rfl, rfl⟩) | (intros; rfl)

theorem Evolves.trans {a b d : AgentState} (h1 : Evolves a b) (h2 : Evolves b d) :
    Evolves a d := by
  constructor
  · rw [h2.use_watchdog, h1.use_watchdog]
  · rw [h2.use_sysrq_reboot, h1.use_sysrq_reboot]
  · rw [h2.sysrq_delay, h1.sysrq_delay]
  · intro h
    have e1 := h1.resetting h
    rw [h2.resetting (by rw [e1]; exact h), e1]
  · intro h
    obtain ⟨e1, e2⟩ := h1.rebooting h
    obtain ⟨e3, e4⟩ := h2.rebooting (by rw [e1]; exact h)
    exact ⟨e3.trans e1, e4.trans e2⟩
  · intro h
    obtain ⟨e1, e2⟩ := h1.disabled h
    obtain ⟨e3, e4⟩ := h2.disabled (by rw [h1.use_sysrq_reboot]; exact h)
    exact ⟨e3.trans e1, e4.trans e2⟩
  · exact le_trans h2.arm h1.arm
  · exact le_trans h2.enter h1.enter
  · exact le_trans h2.ack_reset h1.ack_reset
  · exact le_trans h2.ack_reboot h1.ack_reboot
  · intro h hu
    obtain ⟨e1, -⟩ := h1.disabled hu
    rw [h2.sysrq (by rw [e1]; exact h) (by rw [h1.use_sysrq_reboot]; exact hu), h1.sysrq h hu]

/-- A step that changes neither the fencing fields nor the effects. -/
theorem Evolves.quiet {s s' : AgentState} (hf : s'.fence = s.fence)
    (he : effects s'.trace = effects s.trace) : Evolves s s' := by
  simp only [AgentState.fence, Fence.mk.injEq] at hf
  obtain ⟨h2, h3, h4, h5, h6, h7, -⟩ := hf
  constructor <;>
    simp only [AgentState.count, he, h2, h3, h4, h5, h6, h7, le_refl, and_self, implies_true]

theorem ack_bits_resetting (r : GetEventReply) (s : AgentState) :
    ack_bits r s &&& EVENT_RESETTING ≠ 0 ↔ reset_accepted r s := by
  unfold ack_bits
  split_ifs with h1 h2 h2 <;> simp [h1, EVENT_RESETTING, EVENT_REBOOTING] <;> decide

theorem ack_bits_rebooting (r : GetEventReply) (s : AgentState) :
    ack_bits r s &&& EVENT_REBOOTING ≠ 0 ↔ reboot_accepted r s := by
  unfold ack_bits
  split_ifs with h1 h2 h2 <;> simp [h2, EVENT_RESETTING, EVENT_REBOOTING] <;> decide

/-- A step that behaves like `handle_event`. -/
theorem Evolves.handle (inp : AgentIterIn) (i : Nat) (r : GetEventReply) {s s' : AgentState}
    (hf : s'.fence = (handle_core inp i r s).fence)
    (he : effects s'.trace = effects s.trace ++ handle_effects inp i r s) : Evolves s s' := by
  have hc1 : ∀ p, s'.count p = s.count p + (handle_effects inp i r s).countP p := by
    intro p
    simp only [AgentState.count, he, List.countP_append]
  have a2 := ack_bits_resetting r s
  have a8 := ack_bits_rebooting r s
  by_cases hR : reset_accepted r s <;> by_cases hB : reboot_accepted r s <;>
    simp only [AgentState.fence, handle_core, AgentState.core, hR, hB, if_true, if_false,
      Fence.mk.injEq] at hf <;>
    obtain ⟨h2, h3, h4, h5, h6, h7, -⟩ := hf <;>
    simp only [hR, hB, iff_true, iff_false, not_not] at a2 a8 <;>
    constructor <;>
    simp only [hc1, handle_effects, hR, hB, if_true, if_false, or_true, true_or, or_self,
      h2, h3, h4, h5, h6, h7, List.append_nil, List.nil_append, List.countP_nil, add_zero,
      le_refl, and_self, implies_true, unset] <;>
    first
    | done
    | (intro h; first | exact absurd hR.2 h | exact absurd hB.2.2 h | exact absurd h hB.2.1)
    | (intro _ h; exact absurd h hB.2.1)
    | (split_ifs <;>
        simp_all [List.countP_cons, Call.is_test_live, Call.is_enter_watchdog, Call.is_ack,
          Call.is_enter_sysrq, reset_accepted, reboot_accepted])

theorem agent_ls_evolves (inp : AgentIterIn) (i : Nat) (s : AgentState) :
    Evolves s (agent_ls inp i s) := by
  obtain ⟨h1, h2⟩ := agent_ls_spec inp i s
  by_cases hr : received inp i s
  · rw [if_pos hr] at h1 h2
    exact Evolves.handle inp i (inp.get_event i) h1 h2
  · rw [if_neg hr] at h1 h2
    exact Evolves.quiet h1 (by rw [h2]; simp)

theorem agent_fold_evolves (inp : AgentIterIn) (l : List Nat) (s : AgentState) :
    Evolves s (l.foldl (fun s i => agent_ls inp i s) s) :=
  foldl_inv (fun t => Evolves s t) _ l
    (fun t i _ h => Evolves.trans h (agent_ls_evolves inp i t)) s (Evolves.refl s)

theorem emit_fence (s : AgentState) (c : Call) : (s.emit c).fence = s.fence := rfl

theorem sysrq_reboot_spec (open_fd write_rv : Int) (s : AgentState) :
    (sysrq_reboot open_fd write_rv s).fence = s.fence ∧
    effects (sysrq_reboot open_fd write_rv s).trace = effects s.trace ++ sysrq_effects open_fd := by
  unfold sysrq_reboot sysrq_effects
  dsimp only
  by_cases h : open_fd < 0
  · simp only [if_pos h]
    refine ⟨by simp only [emit_fence], ?_⟩
    simp [effects_emit, Call.is_effect]
  · simp only [if_neg h]
    by_cases h2 : write_rv < 0
    · simp only [if_pos h2]
      refine ⟨by simp only [emit_fence], ?_⟩
      simp [effects_emit, Call.is_effect]
    · simp only [if_neg h2]
      refine ⟨by simp only [emit_fence], ?_⟩
      simp [effects_emit, Call.is_effect]

theorem check_reboot_spec (inp : AgentIterIn) (s : AgentState) :
    (check_reboot inp s).fence = s.fence ∧
    effects (check_reboot inp s).trace =
      effects s.trace ++ (if reboot_due inp s then sysrq_effects inp.sysrq_open_fd else []) := by
  unfold check_reboot
  by_cases h : reboot_due inp s
  · have h' : s.we_are_rebooting ≠ 0 ∧
        delay_elapsed (monotime inp.tv_sec_check) s.rebooting_time s.sysrq_delay = true := h
    rw [if_pos h', if_pos h]
    exact sysrq_reboot_spec _ _ s
  · have h' : ¬ (s.we_are_rebooting ≠ 0 ∧
        delay_elapsed (monotime inp.tv_sec_check) s.rebooting_time s.sysrq_delay = true) := h
    rw [if_neg h', if_neg h]
    exact ⟨rfl, by simp⟩

theorem sysrq_effects_count (open_fd : Int) :
    (sysrq_effects open_fd).countP Call.is_test_live = 0 ∧
    (sysrq_effects open_fd).countP Call.is_enter_watchdog = 0 ∧
    (sysrq_effects open_fd).countP (Call.is_ack EVENT_RESETTING) = 0 ∧
    (sysrq_effects open_fd).countP (Call.is_ack EVENT_REBOOTING) = 0 ∧
    (sysrq_effects open_fd).countP Call.is_enter_sysrq = 1 := by
  unfold sysrq_effects
  split_ifs <;>
    simp [List.countP_cons, Call.is_test_live, Call.is_enter_watchdog, Call.is_ack,
      Call.is_enter_sysrq]

theorem check_reboot_evolves (inp : AgentIterIn) (s : AgentState) :
    Evolves s (check_reboot inp s) := by
  obtain ⟨hf, he⟩ := check_reboot_spec inp s
  by_cases h : reboot_due inp s
  · rw [if_pos h] at he
    obtain ⟨c1, c2, c3, c4, -⟩ := sysrq_effects_count inp.sysrq_open_fd
    simp only [AgentState.fence, Fence.mk.injEq] at hf
    obtain ⟨h2, h3, h4, h5, h6, h7, -⟩ := hf
    constructor <;>
      simp only [AgentState.count, he, List.countP_append, c1, c2, c3, c4, add_zero,
        h2, h3, h4, h5, h6, h7, le_refl, and_self, implies_true]
    intro h0
    exact absurd h0 h.1
  · rw [if_neg h] at he
    exact Evolves.quiet hf (by rw [he]; simp)

theorem process_signals_spec (fd : Int) (rd : Option Nat) (s : AgentState) :
    (process_signals fd rd s).fence = s.fence ∧
    effects (process_signals fd rd s).trace = effects s.trace := by
  unfold process_signals
  dsimp only
  cases rd with
  | none => exact ⟨rfl, by simp [effects_emit, Call.is_effect]⟩
  | some signo =>
    dsimp only
    split_ifs
    · exact ⟨rfl, by simp [effects_emit, Call.is_effect]⟩
    · exact ⟨rfl, by simp [effects_emit, Call.is_effect]⟩

theorem after_signals_spec (inp : AgentIterIn) (s : AgentState) :
    (after_signals inp s).fence = s.fence ∧
    effects (after_signals inp s).trace = effects s.trace := by
  unfold after_signals
  dsimp only
  split_ifs
  · obtain ⟨h1, h2⟩ := process_signals_spec
      (poll_fill (MAX_LS + 1) inp.revents
        (s.emit (.poll (MAX_LS + 1) s.poll_timeout)).pollfd MAX_LS).fd inp.signal_read
      { s.emit (.poll (MAX_LS + 1) s.poll_timeout) with
        pollfd := poll_fill (MAX_LS + 1) inp.revents
          (s.emit (.poll (MAX_LS + 1) s.poll_timeout)).pollfd }
    refine ⟨h1.trans rfl, h2.trans ?_⟩
    show effects (s.emit _).trace = _
    simp [effects_emit, Call.is_effect]
  · refine ⟨rfl, ?_⟩
    show effects (s.emit _).trace = _
    simp [effects_emit, Call.is_effect]

theorem agent_iter_ok (inp : AgentIterIn) (s : AgentState) (hp : 0 ≤ inp.poll_rv) :
    agent_iter inp s =
      if (after_signals inp s).daemon_quit ≠ 0 then (after_signals inp s, true)
      else
        ((List.range MAX_LS).foldl (fun s i => agent_ls inp i s)
            (check_reboot inp (after_signals inp s)),
          decide (((List.range MAX_LS).foldl (fun s i => agent_ls inp i s)
            (check_reboot inp (after_signals inp s))).ls_count = 0)) := by
  have h1 : ¬ (inp.poll_rv = -1 ∧ inp.poll_eintr = true) := by omega
  have h2 : ¬ inp.poll_rv < 0 := by omega
  unfold agent_iter
  simp only [h1, h2, if_false]
  split_ifs with h3 h4 <;> simp_all [after_signals]

theorem agent_iter_fail (inp : AgentIterIn) (s : AgentState) (hp : inp.poll_rv < 0) :
    (agent_iter inp s).1 = s.emit (.poll (MAX_LS + 1) s.poll_timeout) := by
  unfold agent_iter
  dsimp only
  split_ifs <;> rfl

theorem agent_iter_evolves (inp : AgentIterIn) (s : AgentState) :
    Evolves s (agent_iter inp s).1 := by
  by_cases hp : 0 ≤ inp.poll_rv
  · obtain ⟨f1, e1⟩ := after_signals_spec inp s
    have h1 : Evolves s (after_signals inp s) := Evolves.quiet f1 e1
    rw [agent_iter_ok inp s hp]
    split_ifs
    · exact h1
    · exact Evolves.trans h1 (Evolves.trans (check_reboot_evolves inp _)
        (agent_fold_evolves inp _ _))
  · rw [agent_iter_fail inp s (by omega)]
    exact Evolves.quiet rfl (by simp [effects_emit, Call.is_effect])

theorem agent_run_evolves (ins : List AgentIterIn) (s : AgentState) :
    Evolves s (agent_run ins s).1 := by
  induction ins generalizing s with
  | nil => exact Evolves.refl s
  | cons inp rest ih =>
    unfold agent_run
    dsimp only
    split_ifs
    · exact agent_iter_evolves inp s
    · exact Evolves.trans (agent_iter_evolves inp s) (ih _)

/-- What `agent_ls` does with a delivered event, field by field. -/
theorem agent_ls_received (inp : AgentIterIn) (i : Nat) (s : AgentState)
    (hr : received inp i s) :
    (agent_ls inp i s).we_are_resetting =
      (if reset_accepted (inp.get_event i) s then 1 else s.we_are_resetting) ∧
    (agent_ls inp i s).we_are_rebooting =
      (if reboot_accepted (inp.get_event i) s then 1 else s.we_are_rebooting) ∧
    (agent_ls inp i s).rebooting_time =
      (if reboot_accepted (inp.get_event i) s then monotime (inp.tv_sec_reboot i)
        else s.rebooting_time) ∧
    effects (agent_ls inp i s).trace =
      effects s.trace ++ handle_effects inp i (inp.get_event i) s := by
  obtain ⟨h1, h2⟩ := agent_ls_spec inp i s
  rw [if_pos hr] at h1 h2
  refine ⟨?_, ?_, ?_, h2⟩ <;>
    by_cases hR : reset_accepted (inp.get_event i) s <;>
    by_cases hB : reboot_accepted (inp.get_event i) s <;>
    simp only [AgentState.fence, handle_core, AgentState.core, hR, hB, if_true, if_false,
      Fence.mk.injEq] at h1 ⊢ <;>
    simp only [h1]

/-! ## Signals and the end of the agent -/

theorem emit_daemon_quit (s : AgentState) (c : Call) : (s.emit c).daemon_quit = s.daemon_quit :=
  rfl

theorem core_daemon_quit (s : AgentState) : s.core.daemon_quit = s.daemon_quit := rfl

theorem handle_core_daemon_quit (inp : AgentIterIn) (i : Nat) (r : GetEventReply)
    (s : AgentState) : (handle_core inp i r s).daemon_quit = s.daemon_quit := by
  unfold handle_core
  dsimp only
  split_ifs <;> rfl

theorem handle_event_daemon_quit (inp : AgentIterIn) (i : Nat) (r : GetEventReply)
    (s : AgentState) : (handle_event inp i r s).daemon_quit = s.daemon_quit := by
  have h := congrArg AgentState.daemon_quit (handle_event_spec inp i r s).1
  rw [core_daemon_quit, handle_core_daemon_quit] at h
  exact h

theorem agent_ls_err_daemon_quit (i : Nat) (s : AgentState) :
    (agent_ls_err i s).daemon_quit = s.daemon_quit := by
  unfold agent_ls_err
  split_ifs <;> rfl

theorem agent_ls_daemon_quit (inp : AgentIterIn) (i : Nat) (s : AgentState) :
    (agent_ls inp i s).daemon_quit = s.daemon_quit := by
  unfold agent_ls
  dsimp only
  split_ifs
  · rfl
  · rfl
  · rw [agent_ls_err_daemon_quit, handle_event_daemon_quit]; rfl
  · exact agent_ls_err_daemon_quit i s

theorem agent_fold_daemon_quit (inp : AgentIterIn) (l : List Nat) (s : AgentState) :
    (l.foldl (fun s i => agent_ls inp i s) s).daemon_quit = s.daemon_quit :=
  foldl_inv (fun t => t.daemon_quit = s.daemon_quit) _ l
    (fun t i _ h => (agent_ls_daemon_quit inp i t).trans h) s rfl

theorem sysrq_reboot_daemon_quit (open_fd write_rv : Int) (s : AgentState) :
    (sysrq_reboot open_fd write_rv s).daemon_quit = s.daemon_quit := by
  unfold sysrq_reboot
  dsimp only
  split_ifs <;> simp only [emit_daemon_quit]

theorem check_reboot_daemon_quit (inp : AgentIterIn) (s : AgentState) :
    (check_reboot inp s).daemon_quit = s.daemon_quit := by
  unfold check_reboot
  split_ifs
  · exact sysrq_reboot_daemon_quit _ _ s
  · rfl

theorem after_signals_quit (inp : AgentIterIn) (s : AgentState) (signo : Nat)
    (hin : inp.revents MAX_LS &&& POLLIN ≠ 0) (hrd : inp.signal_read = some signo) :
    (after_signals inp s).daemon_quit =
      if signo = SIGTERM ∨ signo = SIGINT then 1 else s.daemon_quit := by
  have hrev : (poll_fill (MAX_LS + 1) inp.revents
      (s.emit (.poll (MAX_LS + 1) s.poll_timeout)).pollfd MAX_LS).revents =
      inp.revents MAX_LS := by
    simp [poll_fill]
  unfold after_signals
  dsimp only
  rw [hrev, if_pos hin, hrd]
  unfold process_signals
  dsimp only
  split_ifs <;> rfl

theorem close_wdmd_effects (s : AgentState) :
    effects (close_wdmd s).trace =
      effects s.trace ++
        (if s.use_watchdog = 0 then []
          else [Call.wdmd_refcount_clear s.wdmd_fd, Call.close s.wdmd_fd]) := by
  unfold close_wdmd
  split_ifs
  · simp
  · rw [effects_emit, effects_emit]
    simp [Call.is_effect]

theorem agent_finish_effects (s : AgentState) :
    effects (agent_finish s).trace =
      effects s.trace ++
        (if s.use_watchdog = 0 then []
          else [Call.wdmd_refcount_clear s.wdmd_fd, Call.close s.wdmd_fd]) := by
  have hfold : ∀ (l : List Nat) (t : AgentState),
      (l.foldl (fun (s : AgentState) i =>
        match s.ls_names i with
        | none => s
        | some _ => if s.ls_fd i = -1 then s else unregister_ls i s) t).fence = t.fence ∧
      effects (l.foldl (fun (s : AgentState) i =>
        match s.ls_names i with
        | none => s
        | some _ => if s.ls_fd i = -1 then s else unregister_ls i s) t).trace =
        effects t.trace := by
    intro l t
    apply foldl_inv (fun u => u.fence = t.fence ∧ effects u.trace = effects t.trace) _ l _ t
      ⟨rfl, rfl⟩
    intro u i _ hu
    dsimp only
    split
    · exact hu
    · split_ifs
      · exact hu
      · exact ⟨(unregister_ls_fence i u).trans hu.1, (unregister_ls_effects i u).trans hu.2⟩
  obtain ⟨h1, h2⟩ := hfold (List.range MAX_LS)
    (s.emit (.log .debug (.unregister_daemon_quit s.daemon_quit s.ls_count)))
  unfold agent_finish
  dsimp only
  rw [close_wdmd_effects, h2, effects_emit]
  simp only [AgentState.fence, Fence.mk.injEq] at h1
  rw [h1.1, h1.2.2.2.2.2.2]
  simp [Call.is_effect, AgentState.emit]

/-! ## The delayed sysrq reboot -/

theorem delay_elapsed_true (now rt : Nat) (d : Int) (hd0 : 0 ≤ d) (hd1 : d < 2 ^ 31)
    (hnow : now < U64) (hrt : rt ≤ now) (h : delay_elapsed now rt d = true) :
    (rt : Int) + d ≤ now := by
  unfold delay_elapsed u64_sub int_to_u64 at h
  simp only [ge_iff_le, decide_eq_true_eq] at h
  have hU : U64 = 18446744073709551616 := by unfold U64; norm_num
  rw [hU] at h hnow
  have hd2 : d % ((18446744073709551616 : Nat) : Int) = d := by
    apply Int.emod_eq_of_lt hd0
    norm_num at hd1 ⊢
    omega
  rw [hd2] at h
  have h1 : now % 18446744073709551616 = now := Nat.mod_eq_of_lt hnow
  have h2 : rt % 18446744073709551616 = rt := Nat.mod_eq_of_lt (by omega)
  rw [h1, h2] at h
  have h3 : (now + 18446744073709551616 - rt) % 18446744073709551616 = now - rt := by
    omega
  rw [h3] at h
  omega

theorem monotime_lt (t : Nat) : monotime t < U64 := by
  unfold monotime
  exact Nat.mod_lt _ (by unfold U64; norm_num)

theorem handle_effects_no_sysrq (inp : AgentIterIn) (i : Nat) (r : GetEventReply)
    (s : AgentState) : (handle_effects inp i r s).countP Call.is_enter_sysrq = 0 := by
  unfold handle_effects
  split_ifs <;> simp [List.countP_cons, Call.is_enter_sysrq]

theorem agent_ls_sysrq_count (inp : AgentIterIn) (i : Nat) (s : AgentState) :
    (agent_ls inp i s).count Call.is_enter_sysrq = s.count Call.is_enter_sysrq := by
  obtain ⟨-, h2⟩ := agent_ls_spec inp i s
  unfold AgentState.count
  rw [h2, List.countP_append]
  split_ifs
  · rw [handle_effects_no_sysrq]; rfl
  · rfl

theorem agent_fold_sysrq_count (inp : AgentIterIn) (l : List Nat) (s : AgentState) :
    (l.foldl (fun s i => agent_ls inp i s) s).count Call.is_enter_sysrq =
      s.count Call.is_enter_sysrq :=
  foldl_inv (fun t => t.count Call.is_enter_sysrq = s.count Call.is_enter_sysrq) _ l
    (fun t i _ h => (agent_ls_sysrq_count inp i t).trans h) s rfl

/-- A turn enters `sysrq_reboot` only when the agent was rebooting at the
start of the turn and the test on the elapsed time succeeded. -/
theorem agent_iter_sysrq (inp : AgentIterIn) (s : AgentState)
    (h : (agent_iter inp s).1.count Call.is_enter_sysrq ≠ s.count Call.is_enter_sysrq) :
    s.we_are_rebooting ≠ 0 ∧
    delay_elapsed (monotime inp.tv_sec_check) s.rebooting_time s.sysrq_delay = true := by
  by_contra hcon
  apply h
  by_cases hp : 0 ≤ inp.poll_rv
  · obtain ⟨f1, e1⟩ := after_signals_spec inp s
    simp only [AgentState.fence, Fence.mk.injEq] at f1
    have e1' : (after_signals inp s).count Call.is_enter_sysrq =
        s.count Call.is_enter_sysrq := by
      unfold AgentState.count; rw [e1]
    rw [agent_iter_ok inp s hp]
    split_ifs
    · exact e1'
    · dsimp only
      rw [agent_fold_sysrq_count]
      obtain ⟨-, e2⟩ := check_reboot_spec inp (after_signals inp s)
      have hnd : ¬ reboot_due inp (after_signals inp s) := by
        unfold reboot_due
        rw [f1.2.2.2.2.1, f1.2.2.2.2.2.1, f1.2.2.1]
        exact hcon
      rw [if_neg hnd, List.append_nil] at e2
      unfold AgentState.count
      rw [e2, e1]
  · rw [agent_iter_fail inp s (by omega)]
    unfold AgentState.count
    rw [effects_emit]
    simp [Call.is_effect]

/-- A turn that starts with `we_are_rebooting` clear ends with it clear, or
with it equal to 1 and `rebooting_time` equal to a clock reading of the turn. -/
theorem agent_iter_accept (inp : AgentIterIn) (s : AgentState) (h0 : s.we_are_rebooting = 0) :
    (agent_iter inp s).1.we_are_rebooting = 0 ∨
    ((agent_iter inp s).1.we_are_rebooting = 1 ∧
      ∃ i, i < MAX_LS ∧ (agent_iter inp s).1.rebooting_time = monotime (inp.tv_sec_reboot i)) := by
  have hls : ∀ (i : Nat) (t : AgentState), i < MAX_LS →
      (t.we_are_rebooting = 0 ∨ (t.we_are_rebooting = 1 ∧
        ∃ j, j < MAX_LS ∧ t.rebooting_time = monotime (inp.tv_sec_reboot j))) →
      ((agent_ls inp i t).we_are_rebooting = 0 ∨ ((agent_ls inp i t).we_are_rebooting = 1 ∧
        ∃ j, j < MAX_LS ∧ (agent_ls inp i t).rebooting_time = monotime (inp.tv_sec_reboot j))) := by
    intro i t hi ht
    rcases ht with ht | ⟨ht1, j, hj, ht2⟩
    · by_cases hr : received inp i t
      · obtain ⟨-, h2, h3, -⟩ := agent_ls_received inp i t hr
        by_cases hB : reboot_accepted (inp.get_event i) t
        · rw [if_pos hB] at h2 h3
          exact Or.inr ⟨h2, i, hi, h3⟩
        · rw [if_neg hB] at h2
          exact Or.inl (h2.trans ht)
      · obtain ⟨h1, -⟩ := agent_ls_spec inp i t
        rw [if_neg hr] at h1
        simp only [AgentState.fence, Fence.mk.injEq] at h1
        exact Or.inl (h1.2.2.2.2.1.trans ht)
    · have hev := (agent_ls_evolves inp i t).rebooting (by rw [ht1]; decide)
      exact Or.inr ⟨hev.1.trans ht1, j, hj, hev.2.trans ht2⟩
  by_cases hp : 0 ≤ inp.poll_rv
  · obtain ⟨f1, -⟩ := after_signals_spec inp s
    simp only [AgentState.fence, Fence.mk.injEq] at f1
    rw [agent_iter_ok inp s hp]
    split_ifs
    · exact Or.inl (f1.2.2.2.2.1.trans h0)
    · dsimp only
      apply foldl_inv (fun t => t.we_are_rebooting = 0 ∨ (t.we_are_rebooting = 1 ∧
        ∃ j, j < MAX_LS ∧ t.rebooting_time = monotime (inp.tv_sec_reboot j))) _ _
        (fun t i hi ht => hls i t (List.mem_range.mp hi) ht)
      left
      obtain ⟨f2, -⟩ := check_reboot_spec inp (after_signals inp s)
      simp only [AgentState.fence, Fence.mk.injEq] at f2
      exact f2.2.2.2.2.1.trans (f1.2.2.2.2.1.trans h0)
  · rw [agent_iter_fail inp s (by omega)]
    exact Or.inl h0

theorem agent_run_append (l1 l2 : List AgentIterIn) (s : AgentState) :
    agent_run (l1 ++ l2) s =
      if (agent_run l1 s).2 = true then agent_run l1 s else agent_run l2 (agent_run l1 s).1 := by
  induction l1 generalizing s with
  | nil => simp [agent_run]
  | cons x rest ih =>
    simp only [List.cons_append, agent_run]
    by_cases h : (agent_iter x s).2 = true
    · simp [h]
    · simp only [h, if_false]
      exact ih _

theorem agent_run_single (x : AgentIterIn) (s : AgentState) :
    (agent_run [x] s).1 = (agent_iter x s).1 := by
  unfold agent_run
  dsimp only
  split_ifs
  · rfl
  · rfl

/-- If the agent is rebooting after the turns `pre`, started with
`we_are_rebooting` clear, then one of these turns accepted the request: before
it the flag was 0, after it the flag was 1, and `rebooting_time` still is the
clock reading taken in that turn. -/
theorem agent_run_history (s0 : AgentState) (h0 : s0.we_are_rebooting = 0)
    (pre : List AgentIterIn) (h : (agent_run pre s0).1.we_are_rebooting ≠ 0) :
    ∃ j i x, pre[j]? = some x ∧ i < MAX_LS ∧
      (agent_run (pre.take j) s0).1.we_are_rebooting = 0 ∧
      (agent_run (pre.take (j + 1)) s0).1.we_are_rebooting = 1 ∧
      (agent_run pre s0).1.rebooting_time = monotime (x.tv_sec_reboot i) := by
  induction pre using List.reverseRecOn with
  | nil => exact absurd h0 h
  | append_singleton l a ih =>
    have hrun : (agent_run (l ++ [a]) s0).1 =
        if (agent_run l s0).2 = true then (agent_run l s0).1
        else (agent_iter a (agent_run l s0).1).1 := by
      rw [agent_run_append]
      split_ifs
      · rfl
      · exact agent_run_single a _
    by_cases hl : (agent_run l s0).1.we_are_rebooting = 0
    · have hb : ¬ (agent_run l s0).2 = true := by
        intro hb
        rw [hrun, if_pos hb] at h
        exact h hl
      rw [hrun, if_neg hb] at h
      rcases agent_iter_accept a _ hl with hz | ⟨h1, i, hi, h2⟩
      · exact absurd hz h
      · refine ⟨l.length, i, a, by simp, hi, ?_, ?_, ?_⟩
        · rw [List.take_left']
          · exact hl
          · rfl
        · rw [List.take_of_length_le (by simp), hrun, if_neg hb]
          exact h1
        · rw [hrun, if_neg hb]
          exact h2
    · obtain ⟨j, i, x, hx, hi, h1, h2, h3⟩ := ih hl
      have hj : j < l.length := by
        by_contra hj
        rw [List.getElem?_eq_none (by omega)] at hx
        exact absurd hx (by simp)
      have hkeep : (agent_run (l ++ [a]) s0).1.rebooting_time =
          (agent_run l s0).1.rebooting_time := by
        rw [hrun]
        split_ifs
        · rfl
        · exact ((agent_iter_evolves a _).rebooting hl).2
      refine ⟨j, i, x, ?_, hi, ?_, ?_, hkeep.trans h3⟩
      · rw [List.getElem?_append_left hj]
        exact hx
      · rw [List.take_append_of_le_length (by omega)]
        exact h1
      · rw [List.take_append_of_le_length (by omega)]
        exact h2

end Resetd

/-! ## The branches of `reset_done` -/

namespace Reset

/-- The decision of `reset_done` is the body of the branch its tests select. -/
theorem reset_done_decide_eq (host_id : Nat) (s : ReqState) (k : Counts) :
    reset_done_decide host_id s k = branch_outcome host_id s k (reset_done_branch k) := by
  unfold reset_done_decide reset_done_branch
  by_cases h1 : k.found_count = 0
  · simp only [if_pos h1]; rfl
  · simp only [if_neg h1]
    by_cases h2 : k.free_count = 0 ∧ k.live_count = 0 ∧ k.fail_count = 0 ∧ k.dead_count = 0
        ∧ k.unknown_count = 0
    · simp only [if_pos h2]; rfl
    · simp only [if_neg h2]
      by_cases h3 : k.live_count ≠ 0
      · simp only [if_pos h3]; rfl
      · simp only [if_neg h3]
        by_cases h4 : k.fail_count ≠ 0
        · simp only [if_pos h4]; rfl
        · simp only [if_neg h4]
          by_cases h5 : k.unknown_count ≠ 0
          · simp only [if_pos h5]; rfl
          · simp only [if_neg h5]
            by_cases h6 : k.free_count ≠ 0 ∧ k.fail_count = 0
            · simp only [if_pos h6]; rfl
            · simp only [if_neg h6]
              by_cases h7 : k.dead_count ≠ 0
              · simp only [if_pos h7]; rfl
              · simp only [if_neg h7]; rfl

theorem reset_done_branch_ne_fall_through (k : Counts) :
    reset_done_branch k ≠ DoneBranch.fall_through := by
  unfold reset_done_branch
  split_ifs with h1 h2 h3 h4 h5 h6 h7
  all_goals first
    | (intro h; cases h; done)
    | (exfalso
       simp only [not_and_or, not_not] at h2 h6
       omega)

theorem reset_done_ls_raw (c : HostConsts) (host_id : Nat) (reply : GetHostsReply) (i : Nat)
    (sk : ReqState × Counts) :
    (reset_done_ls c host_id reply i sk).1.trace.countP Call.is_status_raw =
      sk.1.trace.countP Call.is_status_raw := by
  unfold reset_done_ls
  split
  · rfl
  · split
    · simp [ReqState.emit, List.countP_append, Call.is_status_raw]
    · simp [ReqState.emit, List.countP_append, Call.is_status_raw]
    · dsimp only
      split <;> simp [ReqState.emit, List.countP_append, Call.is_status_raw]

theorem branch_outcome_raw (host_id : Nat) (s : ReqState) (k : Counts) (b : DoneBranch)
    (hb : b ≠ DoneBranch.fall_through) :
    (branch_outcome host_id s k b).2.trace.countP Call.is_status_raw =
      s.trace.countP Call.is_status_raw := by
  cases b <;> simp only [branch_outcome]
  · simp [ReqState.emit, List.countP_append, Call.is_status_raw]
  · simp [ReqState.emit, List.countP_append, Call.is_status_raw]
  · split_ifs <;> simp [ReqState.emit, List.countP_append, Call.is_status_raw]
  · split_ifs <;> simp [ReqState.emit, List.countP_append, Call.is_status_raw]
  · split_ifs <;> simp [ReqState.emit, List.countP_append, Call.is_status_raw]
  · simp [ReqState.emit, List.countP_append, Call.is_status_raw]
  · simp [ReqState.emit, List.countP_append, Call.is_status_raw]
  · exact absurd rfl hb

/-- The function `reset_done` never logs the raw status value. -/
theorem reset_done_raw (c : HostConsts) (host_id : Nat) (gh : Nat → GetHostsReply)
    (s : ReqState) :
    (reset_done c host_id gh s).2.trace.countP Call.is_status_raw =
      s.trace.countP Call.is_status_raw := by
  have hscan : (reset_done_scan c host_id gh s).1.trace.countP Call.is_status_raw =
      s.trace.countP Call.is_status_raw := by
    unfold reset_done_scan
    exact foldl_inv
      (fun sk => sk.1.trace.countP Call.is_status_raw = s.trace.countP Call.is_status_raw) _ _
      (fun sk i _ h => (reset_done_ls_raw c host_id (gh i) i sk).trans h) (s, Counts.zero) rfl
  unfold reset_done
  dsimp only
  rw [reset_done_decide_eq, branch_outcome_raw _ _ _ _ (reset_done_branch_ne_fall_through _),
    hscan]

end Reset

/-! ## A negative `sysrq_delay` -/

namespace Resetd

theorem int_to_u64_negative (d : Int) (hd1 : -2 ^ 31 ≤ d) (hd2 : d < 0) :
    (int_to_u64 d : Int) = (U64 : Int) + d := by
  unfold int_to_u64
  have hU : (U64 : Int) = 18446744073709551616 := by unfold U64; norm_num
  rw [hU]
  have h1 : d % 18446744073709551616 = d + 18446744073709551616 := by
    rw [← Int.add_emod_self]
    apply Int.emod_eq_of_lt
    · norm_num at hd1; omega
    · omega
  rw [h1, Int.toNat_of_nonneg (by norm_num at hd1; omega)]
  omega

theorem delay_elapsed_negative (now rt : Nat) (d : Int) (hd1 : -2 ^ 31 ≤ d) (hd2 : d < 0)
    (he : (u64_sub now rt : Int) < (U64 : Int) - |d|) : delay_elapsed now rt d = false := by
  have h := int_to_u64_negative d hd1 hd2
  have habs : |d| = -d := abs_of_neg hd2
  rw [habs] at he
  unfold delay_elapsed
  simp only [ge_iff_le, decide_eq_false_iff_not, not_le]
  omega

end Resetd

/-! ## The argument loop -/

theorem LsTable.foldl_take_name (l : List String) :
    ∀ (t : LsTable) (m : Nat), t.ls_count = (m : Int) → m ≤ MAX_LS →
      (l.foldl (fun t a => LsTable.take_name a t) t).ls_count =
        ((min (m + l.length) MAX_LS : Nat) : Int) ∧
      (∀ i, (l.foldl (fun t a => LsTable.take_name a t) t).ls_names i =
        if m ≤ i ∧ i < min (m + l.length) MAX_LS then l[i - m]? else t.ls_names i) ∧
      (l.foldl (fun t a => LsTable.take_name a t) t).trace =
        t.trace ++ ignored_names m l := by
  induction l with
  | nil =>
    intro t m hm hle
    refine ⟨?_, ?_, ?_⟩
    · simp only [List.foldl_nil, List.length_nil, Nat.add_zero, hm]
      rw [Nat.min_eq_left hle]
    · intro i
      have hn : ¬ (m ≤ i ∧ i < min (m + ([] : List String).length) MAX_LS) := by
        rintro ⟨h1, h2⟩
        have h3 := Nat.min_le_left (m + ([] : List String).length) MAX_LS
        simp only [List.length_nil, Nat.add_zero] at h2 h3
        omega
      rw [if_neg hn]
      rfl
    · simp [ignored_names]
  | cons a l ih =>
    intro t m hm hle
    simp only [List.foldl_cons, List.length_cons]
    by_cases hfull : t.ls_count = (MAX_LS : Int)
    · have hm4 : m = MAX_LS := by rw [hm] at hfull; exact_mod_cast hfull
      have hstep : LsTable.take_name a t =
          { t with trace := t.trace ++ [.fprintf_stderr (.ignore_lockspace_name a)] } := by
        unfold LsTable.take_name; rw [if_pos hfull]
      rw [hstep]
      obtain ⟨h1, h2, h3⟩ := ih
        { t with trace := t.trace ++ [.fprintf_stderr (.ignore_lockspace_name a)] } m hm hle
      refine ⟨?_, ?_, ?_⟩
      · rw [h1]; subst hm4; simp
      · intro i
        rw [h2 i]
        subst hm4
        rw [if_neg (by simp only [MAX_LS]; omega), if_neg (by simp only [MAX_LS]; omega)]
      · rw [h3]
        subst hm4
        simp [ignored_names]
    · have hlt : m < MAX_LS := by
        rcases Nat.lt_or_ge m MAX_LS with h | h
        · exact h
        · exfalso; apply hfull; rw [hm]; have : m = MAX_LS := Nat.le_antisymm hle h
          rw [this]
      have hstep : LsTable.take_name a t =
          { t with
            ls_names := Function.update t.ls_names t.ls_count.toNat (some a)
            ls_count := t.ls_count + 1 } := by
        unfold LsTable.take_name; rw [if_neg hfull]
      rw [hstep]
      have hto : t.ls_count.toNat = m := by rw [hm]; simp
      obtain ⟨h1, h2, h3⟩ := ih
        { t with
          ls_names := Function.update t.ls_names t.ls_count.toNat (some a)
          ls_count := t.ls_count + 1 } (m + 1) (by simp [hm]) hlt
      refine ⟨?_, ?_, ?_⟩
      · rw [h1]
        congr 2
        omega
      · intro i
        rw [h2 i]
        dsimp only
        rw [hto]
        have e : m + 1 + l.length = m + (l.length + 1) := by omega
        rw [e]
        rcases Nat.lt_trichotomy i m with hi | hi | hi
        · rw [if_neg (by omega), if_neg (by omega), Function.update_noteq (by omega)]
        · subst hi
          rw [if_neg (by omega), Function.update_same, if_pos (by
            refine ⟨le_refl _, ?_⟩
            simp only [MAX_LS] at hlt ⊢
            omega)]
          simp
        · by_cases hb : i < min (m + (l.length + 1)) MAX_LS
          · rw [if_pos ⟨by omega, hb⟩, if_pos ⟨by omega, hb⟩]
            have e2 : i - m = (i - (m + 1)) + 1 := by omega
            rw [e2, List.getElem?_cons_succ]
          · rw [if_neg (fun h => hb h.2), if_neg (fun h => hb h.2),
              Function.update_noteq (by omega)]
      · rw [h3]
        unfold ignored_names
        have e3 : MAX_LS - m = (MAX_LS - (m + 1)) + 1 := by omega
        rw [e3, List.drop_succ_cons]

theorem Reset.req_foldl_table (l : List String) :
    ∀ s : Reset.ReqState, (l.foldl (fun s a => Reset.parse_ls_name a s) s).table =
      l.foldl (fun t a => LsTable.take_name a t) s.table := by
  induction l with
  | nil => intro s; rfl
  | cons a l ih =>
    intro s
    simp only [List.foldl_cons]
    rw [ih]
    congr 1
    unfold Reset.parse_ls_name LsTable.take_name Reset.ReqState.table Reset.ReqState.emit
    split_ifs <;> rfl

theorem Resetd.agent_foldl_table (l : List String) :
    ∀ s : Resetd.AgentState, (l.foldl (fun s a => Resetd.parse_ls_name a s) s).table =
      l.foldl (fun t a => LsTable.take_name a t) s.table := by
  induction l with
  | nil => intro s; rfl
  | cons a l ih =>
    intro s
    simp only [List.foldl_cons]
    rw [ih]
    congr 1
    unfold Resetd.parse_ls_name LsTable.take_name Resetd.AgentState.table Resetd.AgentState.emit
    split_ifs <;> rfl

/-- The table after the argument loop started on an empty count. -/
theorem LsTable.parse (l : List String) (t : LsTable) (h0 : t.ls_count = 0) :
    (l.foldl (fun t a => LsTable.take_name a t) t).ls_count =
      ((min l.length MAX_LS : Nat) : Int) ∧
    (∀ i, i < min l.length MAX_LS →
      (l.foldl (fun t a => LsTable.take_name a t) t).ls_names i = l[i]?) ∧
    (∀ i, min l.length MAX_LS ≤ i →
      (l.foldl (fun t a => LsTable.take_name a t) t).ls_names i = t.ls_names i) ∧
    (l.foldl (fun t a => LsTable.take_name a t) t).trace = t.trace ++ ignored_names 0 l := by
  obtain ⟨h1, h2, h3⟩ := LsTable.foldl_take_name l t 0 (by simp [h0]) (Nat.zero_le _)
  simp only [Nat.zero_add] at h1 h2
  refine ⟨h1, ?_, ?_, h3⟩
  · intro i hi
    rw [h2 i, if_pos ⟨Nat.zero_le _, hi⟩, Nat.sub_zero]
  · intro i hi
    rw [h2 i, if_neg (by omega)]

theorem Reset.req_parse_tables (l : List String) :
    ∀ s : Reset.ReqState,
      (l.foldl (fun s a => Reset.parse_ls_name a s) s).ls_fd = s.ls_fd ∧
      (l.foldl (fun s a => Reset.parse_ls_name a s) s).pollfd = s.pollfd := by
  induction l with
  | nil => intro s; exact ⟨rfl, rfl⟩
  | cons a l ih =>
    intro s
    simp only [List.foldl_cons]
    obtain ⟨h1, h2⟩ := ih (Reset.parse_ls_name a s)
    rw [h1, h2]
    unfold Reset.parse_ls_name Reset.ReqState.emit
    split_ifs <;> exact ⟨rfl, rfl⟩

theorem Resetd.agent_parse_tables (l : List String) :
    ∀ s : Resetd.AgentState,
      (l.foldl (fun s a => Resetd.parse_ls_name a s) s).ls_fd = s.ls_fd ∧
      (l.foldl (fun s a => Resetd.parse_ls_name a s) s).pollfd = s.pollfd := by
  induction l with
  | nil => intro s; exact ⟨rfl, rfl⟩
  | cons a l ih =>
    intro s
    simp only [List.foldl_cons]
    obtain ⟨h1, h2⟩ := ih (Resetd.parse_ls_name a s)
    rw [h1, h2]
    unfold Resetd.parse_ls_name Resetd.AgentState.emit
    split_ifs <;> exact ⟨rfl, rfl⟩

/-! ## The event the requester sends -/

namespace Reset

theorem request_bits_spec (w r : Int) :
    (request_bits w r &&& EVENT_RESET ≠ 0 ↔ w ≠ 0) ∧
    (request_bits w r &&& EVENT_REBOOT ≠ 0 ↔ r ≠ 0) ∧
    request_bits w r &&& (EVENT_RESETTING ||| EVENT_REBOOTING) = 0 ∧
    (request_bits w r = 0 ↔ w = 0 ∧ r = 0) := by
  unfold request_bits
  by_cases hw : w = 0 <;> by_cases hr : r = 0 <;>
    simp only [hw, hr, ne_eq, not_true_eq_false, not_false_eq_true, if_true, if_false,
      and_self, and_false, false_and, iff_true, iff_false, true_and] <;> decide

theorem init_tables_request (s : ReqState) :
    (init_tables s).request = s.request ∧ (init_tables s).ls_names = s.ls_names ∧
    ∀ i, i < MAX_LS → (init_tables s).ls_fd i = -1 := by
  have key : ∀ (l : List Nat) (t : ReqState),
      (l.foldl (fun (s : ReqState) i =>
        ({ s with
          ls_fd := Function.update s.ls_fd i (-1)
          pollfd := Function.update s.pollfd i ⟨-1, 0, 0⟩ } : ReqState)) t).request =
        t.request ∧
      (l.foldl (fun (s : ReqState) i =>
        ({ s with
          ls_fd := Function.update s.ls_fd i (-1)
          pollfd := Function.update s.pollfd i ⟨-1, 0, 0⟩ } : ReqState)) t).ls_names =
        t.ls_names ∧
      ∀ i, (i ∈ l ∨ t.ls_fd i = -1) →
        (l.foldl (fun (s : ReqState) i =>
          ({ s with
            ls_fd := Function.update s.ls_fd i (-1)
            pollfd := Function.update s.pollfd i ⟨-1, 0, 0⟩ } : ReqState)) t).ls_fd i
          = -1 := by
    intro l
    induction l with
    | nil =>
      intro t
      refine ⟨rfl, rfl, fun i hi => ?_⟩
      rcases hi with hi | hi
      · exact absurd hi (List.not_mem_nil _)
      · exact hi
    | cons a rest ih =>
      intro t
      simp only [List.foldl_cons]
      obtain ⟨h0, h1, h2⟩ := ih
        ({ t with
          ls_fd := Function.update t.ls_fd a (-1)
          pollfd := Function.update t.pollfd a ⟨-1, 0, 0⟩ } : ReqState)
      refine ⟨h0, h1, fun i hi => h2 i ?_⟩
      by_cases hia : i = a
      · right
        subst hia
        show (Function.update t.ls_fd i (-1)) i = -1
        rw [Function.update_same]
      · rcases hi with hi | hi
        · rcases List.mem_cons.mp hi with h | h
          · exact absurd h hia
          · exact Or.inl h
        · right
          show (Function.update t.ls_fd a (-1)) i = -1
          rw [Function.update_noteq hia]
          exact hi
  unfold init_tables
  obtain ⟨h0, h1, h2⟩ := key (List.range MAX_LS) s
  exact ⟨h0, h1, fun i hi => h2 i (Or.inl (List.mem_range.mpr hi))⟩

theorem sent_emit (s : ReqState) (x : Call) (h : Call.is_set_event x = false) :
    (s.emit x).sent = s.sent := by
  unfold ReqState.sent ReqState.emit
  simp only [List.filter_append, List.filter_cons, h, List.filter_nil, List.append_nil]
  simp

theorem sent_emit_log (s : ReqState) (l : LogLevel) (m : LogMsg) :
    (s.emit (.log l m)).sent = s.sent := sent_emit s _ rfl

theorem sent_emit_reg (s : ReqState) (n : String) :
    (s.emit (.sanlock_reg_event n)).sent = s.sent := sent_emit s _ rfl

theorem sent_emit_end (s : ReqState) (fd : Int) (n : Option String) :
    (s.emit (.sanlock_end_event fd n)).sent = s.sent := sent_emit s _ rfl

theorem reg_event_ls_spec (reg_event : Nat → Int) (i : Nat) (s : ReqState) :
    (reg_event_ls reg_event i s).request = s.request ∧
    (∀ j, j ≠ i → (reg_event_ls reg_event i s).ls_names j = s.ls_names j ∧
      (reg_event_ls reg_event i s).ls_fd j = s.ls_fd j) ∧
    (reg_event_ls reg_event i s).ls_names i = registered_name reg_event s i ∧
    ((reg_event_ls reg_event i s).ls_names i ≠ none →
      (reg_event_ls reg_event i s).ls_fd i ≠ -1) := by
  unfold reg_event_ls registered_name
  cases hn : s.ls_names i with
  | none =>
    dsimp only
    exact ⟨rfl, fun j _ => ⟨rfl, rfl⟩, hn, fun h => absurd hn h⟩
  | some name =>
    dsimp only
    by_cases hfd : reg_event i < 0
    · rw [if_pos hfd, if_pos hfd]
      refine ⟨?_, fun j hj => ⟨?_, rfl⟩, ?_, ?_⟩
      · unfold ReqState.request
        refine Prod.ext rfl (Prod.ext rfl (Prod.ext rfl (Prod.ext rfl ?_)))
        simp [ReqState.sent, ReqState.emit, List.filter_append, Call.is_set_event]
      · show (Function.update s.ls_names i none) j = s.ls_names j
        rw [Function.update_noteq hj]
      · show (Function.update s.ls_names i none) i = none
        rw [Function.update_same]
      · intro h
        exfalso
        apply h
        show (Function.update s.ls_names i none) i = none
        rw [Function.update_same]
    · rw [if_neg hfd, if_neg hfd]
      refine ⟨?_, fun j hj => ⟨rfl, ?_⟩, hn, ?_⟩
      · unfold ReqState.request
        refine Prod.ext rfl (Prod.ext rfl (Prod.ext rfl (Prod.ext rfl ?_)))
        simp [ReqState.sent, ReqState.emit, List.filter_append, Call.is_set_event]
      · show (Function.update s.ls_fd i (reg_event i)) j = s.ls_fd j
        rw [Function.update_noteq hj]
      · intro _
        show (Function.update s.ls_fd i (reg_event i)) i ≠ -1
        rw [Function.update_same]
        omega

theorem reg_fold_spec (reg_event : Nat → Int) (l : List Nat) (hnd : l.Nodup) :
    ∀ s : ReqState,
      (l.foldl (fun s i => reg_event_ls reg_event i s) s).request = s.request ∧
      (∀ j, j ∉ l →
        (l.foldl (fun s i => reg_event_ls reg_event i s) s).ls_names j = s.ls_names j ∧
        (l.foldl (fun s i => reg_event_ls reg_event i s) s).ls_fd j = s.ls_fd j) ∧
      (∀ j, j ∈ l →
        (l.foldl (fun s i => reg_event_ls reg_event i s) s).ls_names j =
          registered_name reg_event s j ∧
        ((l.foldl (fun s i => reg_event_ls reg_event i s) s).ls_names j ≠ none →
          (l.foldl (fun s i => reg_event_ls reg_event i s) s).ls_fd j ≠ -1)) := by
  induction l with
  | nil =>
    intro s
    exact ⟨rfl, fun j _ => ⟨rfl, rfl⟩, fun j hj => absurd hj (List.not_mem_nil _)⟩
  | cons a rest ih =>
    intro s
    obtain ⟨ha, hrest⟩ := List.nodup_cons.mp hnd
    simp only [List.foldl_cons]
    obtain ⟨i1, i2, i3⟩ := ih hrest (reg_event_ls reg_event a s)
    obtain ⟨s1, s2, s3, s4⟩ := reg_event_ls_spec reg_event a s
    refine ⟨i1.trans s1, ?_, ?_⟩
    · intro j hj
      have hja : j ≠ a := fun h => hj (h ▸ List.mem_cons_self _ _)
      have hjr : j ∉ rest := fun h => hj (List.mem_cons_of_mem _ h)
      exact ⟨(i2 j hjr).1.trans (s2 j hja).1, (i2 j hjr).2.trans (s2 j hja).2⟩
    · intro j hj
      rcases List.mem_cons.mp hj with h | h
      · subst h
        obtain ⟨e1, e2⟩ := i2 j ha
        rw [e1, e2]
        exact ⟨s3, s4⟩
      · have hja : j ≠ a := fun e => ha (e ▸ h)
        obtain ⟨e1, e2⟩ := i3 j h
        refine ⟨?_, e2⟩
        rw [e1]
        unfold registered_name
        rw [(s2 j hja).1]

theorem main_register_spec (inp : ReqMainIn) (s : ReqState) :
    (main_register inp s).request = s.request ∧
    ∀ i, i < MAX_LS →
      (main_register inp s).ls_names i = registered_name inp.reg_event s i ∧
      ((main_register inp s).ls_names i ≠ none → (main_register inp s).ls_fd i ≠ -1) := by
  obtain ⟨h0, h1, -⟩ := init_tables_request s
  obtain ⟨r1, -, r3⟩ := reg_fold_spec inp.reg_event (List.range MAX_LS) (List.nodup_range _)
    ({ init_tables s with ls_count := 0 } : ReqState)
  unfold main_register
  dsimp only
  refine ⟨r1.trans h0, fun i hi => ?_⟩
  obtain ⟨e1, e2⟩ := r3 i (List.mem_range.mpr hi)
  refine ⟨?_, e2⟩
  rw [e1]
  unfold registered_name
  show (match (init_tables s).ls_names i with
    | none => none
    | some name => if inp.reg_event i < 0 then none else some name) = _
  rw [h1]

theorem build_event_spec (c : HostConsts) (s : ReqState) (h0 : s.he.event = 0) :
    (build_event c s).he = fencing_event s ∧
    (build_event c s).flags = fencing_flags c s ∧
    (build_event c s).sent = s.sent ∧
    (build_event c s).ls_names = s.ls_names ∧
    (build_event c s).ls_fd = s.ls_fd := by
  rcases s with ⟨names, fd, pfd, cnt, er, uw, us, l1, l2, l3, ⟨hid, gen, ev, dat⟩, fl, dn, tr⟩
  simp only at h0
  subst h0
  unfold build_event fencing_event fencing_flags request_bits
  dsimp only
  by_cases hw : uw = 0 <;> by_cases hr : us = 0 <;> by_cases hg : gen = 0 <;>
    simp [hw, hr, hg, ReqState.sent]

theorem send_event_ls_spec (set_event : Nat → Int) (i : Nat) (s : ReqState) :
    (send_event_ls set_event i s).he = s.he ∧
    (send_event_ls set_event i s).flags = s.flags ∧
    (send_event_ls set_event i s).sent = s.sent ++ (pending_event s i).toList ∧
    (∀ j, j ≠ i → (send_event_ls set_event i s).ls_names j = s.ls_names j ∧
      (send_event_ls set_event i s).ls_fd j = s.ls_fd j) := by
  unfold send_event_ls pending_event
  cases hn : s.ls_names i with
  | none =>
    dsimp only
    refine ⟨rfl, rfl, ?_, fun j _ => ⟨rfl, rfl⟩⟩
    simp
  | some name =>
    dsimp only
    by_cases hfd : s.ls_fd i = -1
    · rw [if_pos hfd, if_pos hfd]
      refine ⟨rfl, rfl, ?_, fun j _ => ⟨rfl, rfl⟩⟩
      simp
    · rw [if_neg hfd, if_neg hfd]
      have hsent : (s.emit (.sanlock_set_event (some name) s.he s.flags)).sent =
          s.sent ++ [Call.sanlock_set_event (some name) s.he s.flags] := by
        unfold ReqState.sent ReqState.emit
        simp [List.filter_append, Call.is_set_event]
      by_cases hrv : set_event i < 0
      · rw [if_pos hrv]
        refine ⟨rfl, rfl, ?_, fun j hj => ⟨?_, ?_⟩⟩
        · have e : ∀ t : ReqState, (unregister_ls i t).sent = t.sent := by
            intro t
            unfold unregister_ls
            dsimp only
            exact sent_emit_end _ _ _
          rw [e, sent_emit_log]
          exact hsent
        · show (Function.update s.ls_names i none) j = s.ls_names j
          rw [Function.update_noteq hj]
        · show (Function.update s.ls_fd i (-1)) j = s.ls_fd j
          rw [Function.update_noteq hj]
      · rw [if_neg hrv]
        refine ⟨rfl, rfl, ?_, fun j _ => ⟨rfl, rfl⟩⟩
        rw [sent_emit_log]
        exact hsent

theorem send_fold_spec (set_event : Nat → Int) (l : List Nat) (hnd : l.Nodup) :
    ∀ s : ReqState,
      (l.foldl (fun s i => send_event_ls set_event i s) s).sent =
        s.sent ++ l.filterMap (pending_event s) := by
  induction l with
  | nil => intro s; simp
  | cons a rest ih =>
    intro s
    obtain ⟨ha, hrest⟩ := List.nodup_cons.mp hnd
    simp only [List.foldl_cons]
    obtain ⟨s1, s2, s3, s4⟩ := send_event_ls_spec set_event a s
    rw [ih hrest, s3]
    have hc : rest.filterMap (pending_event (send_event_ls set_event a s)) =
        rest.filterMap (pending_event s) := by
      apply List.filterMap_congr
      intro j hj
      have hja : j ≠ a := fun e => ha (e ▸ hj)
      unfold pending_event
      rw [(s4 j hja).1, (s4 j hja).2, s1, s2]
    rw [hc, List.append_assoc]
    congr 1
    cases h : pending_event s a <;> simp [List.filterMap_cons, h]

/-- The `sanlock_set_event` calls of `main`: one for each table index whose
name was registered, with the event and flags built from the options. -/
theorem main_send_sent (c : HostConsts) (inp : ReqMainIn) (s : ReqState)
    (h0 : s.he.event = 0) :
    (main_send c inp (main_register inp s)).sent =
      s.sent ++ (List.range MAX_LS).filterMap (expected_event c inp.reg_event s) := by
  obtain ⟨r0, r1⟩ := main_register_spec inp s
  have hreq : (main_register inp s).he = s.he ∧ (main_register inp s).flags = s.flags ∧
      (main_register inp s).use_watchdog = s.use_watchdog ∧
      (main_register inp s).use_sysrq_reboot = s.use_sysrq_reboot ∧
      (main_register inp s).sent = s.sent := by
    unfold ReqState.request at r0
    simp only [Prod.mk.injEq] at r0
    exact r0
  obtain ⟨q1, q2, q3, q4, q5⟩ := hreq
  obtain ⟨b1, b2, b3, b4, b5⟩ := build_event_spec c (main_register inp s) (by rw [q1]; exact h0)
  unfold main_send
  dsimp only
  rw [send_fold_spec inp.set_event _ (List.nodup_range _), b3, q5]
  congr 1
  apply List.filterMap_congr
  intro i hi
  obtain ⟨e1, e2⟩ := r1 i (List.mem_range.mp hi)
  have hfe : fencing_event (main_register inp s) = fencing_event s := by
    unfold fencing_event; rw [q1, q3, q4]
  have hff : fencing_flags c (main_register inp s) = fencing_flags c s := by
    unfold fencing_flags; rw [q1, q2]
  unfold pending_event expected_event
  rw [b4, b5, b1, b2, hfe, hff]
  cases hn : (main_register inp s).ls_names i with
  | none =>
    rw [← e1, hn]
    rfl
  | some name =>
    rw [← e1, hn]
    have hfd := e2 (by rw [hn]; simp)
    dsimp only
    rw [if_neg hfd]
    rfl

end Reset

/-! ## The wait loop ends with success -/

/-- From a state that satisfies the invariant of the wait loop, after turns
whose `poll` calls succeed, a turn in which a registered lockspace reports the
target dead and none reports it live, fail or unknown makes the requester exit
with success. -/
theorem wait_loop_ends_done (c : HostConsts) (hc : c.Distinct) (s0 : Reset.ReqState)
    (pre : List Reset.ReqIterIn) (inp : Reset.ReqIterIn) (rest : List Reset.ReqIterIn)
    (hinv : Reset.WaitInv s0) (hpolls : Reset.PollsOk pre) (hp : 0 ≤ inp.poll_rv)
    (hdead : ∃ i, i < MAX_LS ∧
      Reset.spec_report c s0.he.host_id (Reset.wait_run c pre s0).1.ls_names inp.get_hosts i =
        some c.SANLK_HOST_DEAD)
    (hnone : ∀ i, i < MAX_LS →
      Reset.spec_report c s0.he.host_id (Reset.wait_run c pre s0).1.ls_names inp.get_hosts i ≠
        some c.SANLK_HOST_LIVE ∧
      Reset.spec_report c s0.he.host_id (Reset.wait_run c pre s0).1.ls_names inp.get_hosts i ≠
        some c.SANLK_HOST_FAIL ∧
      Reset.spec_report c s0.he.host_id (Reset.wait_run c pre s0).1.ls_names inp.get_hosts i ≠
        some c.SANLK_HOST_UNKNOWN) :
    (Reset.wait_and_finish c (pre ++ inp :: rest) s0).map Prod.snd =
      some ExitCode.EXIT_SUCCESS := by
  obtain ⟨i1, i2, i3⟩ := Reset.wait_run_inv c pre s0 hinv hpolls
  have hdone : ∀ r : Reset.ReqState × Bool, r.2 = true → r.1.done ≠ 0 →
      (if r.2 = true then some (Reset.finish r.1) else none).map Prod.snd =
        some ExitCode.EXIT_SUCCESS := by
    intro r h1 h2
    rw [if_pos h1, Option.map_some', Reset.finish_exit, if_pos h2]
  unfold Reset.wait_and_finish
  dsimp only
  rw [Reset.wait_run_append]
  by_cases hb : (Reset.wait_run c pre s0).2 = true
  · rw [if_pos hb]
    apply hdone _ hb
    rcases i3 hb with h | h
    · exact h
    · exfalso
      obtain ⟨i, hi, hr⟩ := hdead
      rw [Reset.spec_report_unregistered _ _ _ _ _ (i1.none_registered h i hi)] at hr
      exact absurd hr (by simp)
  · rw [if_neg hb]
    have hspec : Reset.SpecDone c (Reset.wait_run c pre s0).1.he.host_id
        (Reset.polled inp (Reset.wait_run c pre s0).1).ls_names inp.get_hosts := by
      rw [i2]
      obtain ⟨i, hi, hr⟩ := hdead
      exact ⟨⟨i, hi, Or.inr hr⟩, hnone⟩
    have hone := (Reset.reset_done_one_iff c hc _ inp.get_hosts
      (Reset.polled inp (Reset.wait_run c pre s0).1)).mpr hspec
    have hw : Reset.wait_iter c inp (Reset.wait_run c pre s0).1 =
        ({ (Reset.reset_done c (Reset.wait_run c pre s0).1.he.host_id inp.get_hosts
              (Reset.polled inp (Reset.wait_run c pre s0).1)).2 with done := 1 }, true) := by
      rw [Reset.wait_iter_ok c inp _ hp, hone]
      simp
    unfold Reset.wait_run
    dsimp only
    rw [hw]
    dsimp only
    rw [if_pos rfl]
    exact hdone _ rfl (by simp)

/-! ## The properties of the specification -/

/-- C1: `reset_done` returns 1 exactly when some registered lockspace reports
the target free or dead and no registered lockspace reports it live, fail or
unknown, and returns 0 in every other case; in a turn of the wait loop whose
`poll` succeeded the requester sets `done` exactly in that case, and otherwise
it keeps waiting: the turn leaves the loop only when no lockspace is left. -/
theorem C1_reset_done_iff (c : HostConsts) (hc : c.Distinct) (host_id : Nat)
    (get_hosts : Nat → GetHostsReply) (s : Reset.ReqState) (inp : Reset.ReqIterIn) :
    ((Reset.reset_done c host_id get_hosts s).1 = 1 ↔
      Reset.SpecDone c host_id s.ls_names get_hosts) ∧
    ((Reset.reset_done c host_id get_hosts s).1 = 0 ↔
      ¬ Reset.SpecDone c host_id s.ls_names get_hosts) ∧
    (0 ≤ inp.poll_rv →
      ((Reset.wait_iter c inp s).1.done = 1 ↔
        Reset.SpecDone c s.he.host_id s.ls_names inp.get_hosts) ∧
      (¬ Reset.SpecDone c s.he.host_id s.ls_names inp.get_hosts →
        (Reset.wait_iter c inp s).1.done = 0 ∧
        ((Reset.wait_iter c inp s).2 = true ↔ (Reset.wait_iter c inp s).1.ls_count = 0))) := by
  have h1 := Reset.reset_done_one_iff c hc host_id get_hosts s
  have h01 : (Reset.reset_done c host_id get_hosts s).1 = 0 ∨
      (Reset.reset_done c host_id get_hosts s).1 = 1 :=
    Reset.reset_done_decide_zero_or_one _ _ _
  refine ⟨h1, ?_, ?_⟩
  · rw [← h1]
    rcases h01 with h | h <;> simp [h]
  · intro hp
    have h2 := Reset.reset_done_one_iff c hc s.he.host_id inp.get_hosts (Reset.polled inp s)
    have hn : (Reset.polled inp s).ls_names = s.ls_names := rfl
    rw [hn] at h2
    have h02 : (Reset.reset_done c s.he.host_id inp.get_hosts (Reset.polled inp s)).1 = 0 ∨
        (Reset.reset_done c s.he.host_id inp.get_hosts (Reset.polled inp s)).1 = 1 :=
      Reset.reset_done_decide_zero_or_one _ _ _
    rw [Reset.wait_iter_ok c inp s hp]
    rcases h02 with h | h
    · have hnot : ¬ Reset.SpecDone c s.he.host_id s.ls_names inp.get_hosts := by
        rw [← h2, h]; decide
      simp only [h, ne_eq, not_true_eq_false, if_false, Reset.wait_fold_done]
      simp [hnot]
    · have hyes : Reset.SpecDone c s.he.host_id s.ls_names inp.get_hosts := h2.mp h
      simp [h, hyes]

/-- C1, evaluated on the requester with three lockspaces registered: when all
of them report host 7 dead `reset_done` returns 1 and the condition of the
specification holds; when two of them still report it live, `reset_done`
returns 0 and the turn of the wait loop leaves `done` at 0. -/
theorem C1_reset_done_iff_witness :
    sample_consts.Distinct ∧
    (Reset.reset_done sample_consts 7 Reset.turn_all_dead.get_hosts Reset.sample_waiting).1 = 1 ∧
    Reset.SpecDone sample_consts 7 Reset.sample_waiting.ls_names
      Reset.turn_all_dead.get_hosts ∧
    (Reset.reset_done sample_consts 7 Reset.turn_dead.get_hosts Reset.sample_waiting).1 = 0 ∧
    (0 : Int) ≤ Reset.turn_dead.poll_rv ∧
    (Reset.wait_iter sample_consts Reset.turn_dead Reset.sample_waiting).1.done = 0 :=
  ⟨by decide, by decide,
    (C1_reset_done_iff sample_consts (by decide) 7 Reset.turn_all_dead.get_hosts
      Reset.sample_waiting Reset.turn_dead).1.mp (by decide),
    by decide, by decide,
    (((C1_reset_done_iff sample_consts (by decide) 7 Reset.turn_dead.get_hosts
      Reset.sample_waiting Reset.turn_dead).2.2 (by decide)).2
      (fun h => absurd
        ((C1_reset_done_iff sample_consts (by decide) 7 Reset.turn_dead.get_hosts
          Reset.sample_waiting Reset.turn_dead).1.mpr h) (by decide))).1⟩

/-- C2: when an event carrying the reset bit is delivered while
`we_are_resetting` is 0, the agent sets `we_are_resetting`, enters
`watchdog_reset_self` once, and makes exactly one `sanlock_set_event` call, into
the lockspace the event came from, with the sender's host id and generation,
data 0 and an event that has the RESETTING bit.  Nothing is assumed about
`use_watchdog` or about the result of `wdmd_test_live`: the acknowledgment is
sent with the watchdog disabled and when arming it fails. -/
theorem C2_reset_acknowledged (inp : Resetd.AgentIterIn) (i : Nat) (s : Resetd.AgentState)
    (hrecv : Resetd.received inp i s)
    (hbit : (inp.get_event i).from_he.event &&& EVENT_RESET ≠ 0)
    (hw : s.we_are_resetting = 0) :
    (Resetd.agent_ls inp i s).we_are_resetting = 1 ∧
    (Resetd.agent_ls inp i s).trace.countP Call.is_enter_watchdog =
      s.trace.countP Call.is_enter_watchdog + 1 ∧
    (Resetd.agent_ls inp i s).trace.countP Call.is_test_live =
      s.trace.countP Call.is_test_live + (if s.use_watchdog = 0 then 0 else 1) ∧
    (Resetd.agent_ls inp i s).trace.filter Call.is_set_event =
      s.trace.filter Call.is_set_event ++
        [Call.sanlock_set_event (s.ls_names i)
          ⟨(inp.get_event i).from_host, (inp.get_event i).from_gen,
            Resetd.ack_bits (inp.get_event i) s, 0⟩ 0] ∧
    Resetd.ack_bits (inp.get_event i) s &&& EVENT_RESETTING ≠ 0 := by
  have hR : Resetd.reset_accepted (inp.get_event i) s := ⟨hbit, hw⟩
  obtain ⟨h1, -, -, h4⟩ := Resetd.agent_ls_received inp i s hrecv
  rw [if_pos hR] at h1
  refine ⟨h1, ?_, ?_, ?_, (Resetd.ack_bits_resetting _ _).mpr hR⟩
  · rw [← countP_effects _ is_enter_watchdog_effect, ← countP_effects _ is_enter_watchdog_effect
      s.trace, h4, List.countP_append]
    simp only [Resetd.handle_effects, hR, if_true, true_or]
    split_ifs <;> simp [List.countP_cons, Call.is_enter_watchdog]
  · rw [← countP_effects _ is_test_live_effect, ← countP_effects _ is_test_live_effect
      s.trace, h4, List.countP_append]
    simp only [Resetd.handle_effects, hR, if_true, true_or]
    split_ifs <;> simp [List.countP_cons, Call.is_test_live]
  · rw [← filter_effects _ is_set_event_effect, ← filter_effects _ is_set_event_effect
      s.trace, h4, List.filter_append]
    simp only [Resetd.handle_effects, hR, if_true, true_or]
    split_ifs <;> simp [List.filter_cons, Call.is_set_event]

/-- C2, evaluated with the watchdog disabled, and with the watchdog enabled
and `wdmd_test_live` failing: in both runs the reset request of host 3 is
acknowledged with RESETTING into the lockspace it came from. -/
theorem C2_reset_acknowledged_witness :
    Resetd.received (Resetd.sample_turn 1 0 100) 0 (Resetd.sample_agent 0 0) ∧
    (Resetd.agent_ls (Resetd.sample_turn 1 0 100) 0 (Resetd.sample_agent 0 0)).trace.filter
        Call.is_set_event =
      [Call.sanlock_set_event (some "ls0") ⟨3, 11, EVENT_RESETTING, 0⟩ 0] ∧
    (Resetd.agent_ls (Resetd.sample_turn 1 (-1) 100) 0 (Resetd.sample_agent 1 0)).trace.filter
        Call.is_set_event =
      [Call.sanlock_set_event (some "ls0") ⟨3, 11, EVENT_RESETTING, 0⟩ 0] ∧
    (Resetd.agent_ls (Resetd.sample_turn 1 0 100) 0 (Resetd.sample_agent 0 0)).we_are_resetting
      = 1 :=
  ⟨by decide,
    (C2_reset_acknowledged (Resetd.sample_turn 1 0 100) 0 (Resetd.sample_agent 0 0)
      (by decide) (by decide) (by decide)).2.2.2.1,
    (C2_reset_acknowledged (Resetd.sample_turn 1 (-1) 100) 0 (Resetd.sample_agent 1 0)
      (by decide) (by decide) (by decide)).2.2.2.1,
    (C2_reset_acknowledged (Resetd.sample_turn 1 0 100) 0 (Resetd.sample_agent 0 0)
      (by decide) (by decide) (by decide)).1⟩

/-- C3: with sysrq reboot disabled, (1) a delivered event with the reboot bit
and without the reset bit causes no `sanlock_set_event`, leaves
`we_are_rebooting` and `rebooting_time` as they are and does not enter
`sysrq_reboot`; (2) a delivered event with both bits, while the agent is not yet
resetting, is honoured as a reset: the one acknowledgment sent is exactly
RESETTING, without the REBOOTING bit, and the reboot fields stay as they are;
(3) over any number of turns of the main loop started with `we_are_rebooting`
clear, `we_are_rebooting` stays 0 and `sysrq_reboot` is never entered. -/
theorem C3_reboot_disabled (s : Resetd.AgentState) (hd : s.use_sysrq_reboot = 0) :
    (∀ inp i, Resetd.received inp i s →
      (inp.get_event i).from_he.event &&& EVENT_REBOOT ≠ 0 →
      (inp.get_event i).from_he.event &&& EVENT_RESET = 0 →
        (Resetd.agent_ls inp i s).trace.filter Call.is_set_event =
          s.trace.filter Call.is_set_event ∧
        (Resetd.agent_ls inp i s).we_are_rebooting = s.we_are_rebooting ∧
        (Resetd.agent_ls inp i s).rebooting_time = s.rebooting_time ∧
        (Resetd.agent_ls inp i s).trace.countP Call.is_enter_sysrq =
          s.trace.countP Call.is_enter_sysrq) ∧
    (∀ inp i, Resetd.received inp i s →
      (inp.get_event i).from_he.event &&& EVENT_REBOOT ≠ 0 →
      (inp.get_event i).from_he.event &&& EVENT_RESET ≠ 0 →
      s.we_are_resetting = 0 →
        (Resetd.agent_ls inp i s).we_are_resetting = 1 ∧
        (Resetd.agent_ls inp i s).trace.filter Call.is_set_event =
          s.trace.filter Call.is_set_event ++
            [Call.sanlock_set_event (s.ls_names i)
              ⟨(inp.get_event i).from_host, (inp.get_event i).from_gen, EVENT_RESETTING, 0⟩ 0] ∧
        EVENT_RESETTING &&& EVENT_REBOOTING = 0 ∧
        (Resetd.agent_ls inp i s).we_are_rebooting = s.we_are_rebooting ∧
        (Resetd.agent_ls inp i s).rebooting_time = s.rebooting_time) ∧
    (∀ ins, s.we_are_rebooting = 0 →
        (Resetd.agent_run ins s).1.we_are_rebooting = 0 ∧
        (Resetd.agent_run ins s).1.trace.countP Call.is_enter_sysrq =
          s.trace.countP Call.is_enter_sysrq) := by
  refine ⟨?_, ?_, ?_⟩
  · intro inp i hrecv _ hreset
    have hR : ¬ Resetd.reset_accepted (inp.get_event i) s := fun h => h.1 hreset
    have hB : ¬ Resetd.reboot_accepted (inp.get_event i) s := fun h => h.2.1 hd
    obtain ⟨-, h2, h3, h4⟩ := Resetd.agent_ls_received inp i s hrecv
    rw [if_neg hB] at h2 h3
    have h5 : Resetd.handle_effects inp i (inp.get_event i) s = [] := by
      simp [Resetd.handle_effects, hR, hB]
    rw [h5, List.append_nil] at h4
    refine ⟨?_, h2, h3, ?_⟩
    · rw [← filter_effects _ is_set_event_effect, ← filter_effects _ is_set_event_effect
        s.trace, h4]
    · rw [← countP_effects _ is_enter_sysrq_effect, ← countP_effects _ is_enter_sysrq_effect
        s.trace, h4]
  · intro inp i hrecv _ hreset hw
    have hR : Resetd.reset_accepted (inp.get_event i) s := ⟨hreset, hw⟩
    have hB : ¬ Resetd.reboot_accepted (inp.get_event i) s := fun h => h.2.1 hd
    obtain ⟨h1, h2, h3, h4⟩ := Resetd.agent_ls_received inp i s hrecv
    rw [if_pos hR] at h1
    rw [if_neg hB] at h2 h3
    refine ⟨h1, ?_, by decide, h2, h3⟩
    rw [← filter_effects _ is_set_event_effect, ← filter_effects _ is_set_event_effect
      s.trace, h4, List.filter_append]
    simp only [Resetd.handle_effects, Resetd.ack_bits, hR, hB, if_true, if_false, true_or]
    split_ifs <;> simp [List.filter_cons, Call.is_set_event]
  · intro ins hz
    have h := Resetd.agent_run_evolves ins s
    refine ⟨(h.disabled hd).1.trans hz, ?_⟩
    have hs := h.sysrq hz hd
    unfold Resetd.AgentState.count at hs
    rw [← countP_effects _ is_enter_sysrq_effect, ← countP_effects _ is_enter_sysrq_effect
      s.trace, hs]

/-- C3, evaluated: a reboot-only request yields no `sanlock_set_event` at all,
a reset-and-reboot request yields the single acknowledgment RESETTING, and a
run over a reboot request enters `sysrq_reboot` zero times. -/
theorem C3_reboot_disabled_witness :
    (Resetd.sample_agent 1 0).use_sysrq_reboot = 0 ∧
    Resetd.received (Resetd.sample_turn 4 0 100) 0 (Resetd.sample_agent 1 0) ∧
    (Resetd.agent_ls (Resetd.sample_turn 4 0 100) 0 (Resetd.sample_agent 1 0)).trace.filter
        Call.is_set_event = [] ∧
    (Resetd.agent_ls (Resetd.sample_turn 5 0 100) 0 (Resetd.sample_agent 1 0)).trace.filter
        Call.is_set_event = [Call.sanlock_set_event (some "ls0") ⟨3, 11, 2, 0⟩ 0] ∧
    (Resetd.agent_run [Resetd.sample_turn 4 0 100, Resetd.sample_turn 0 0 200]
        (Resetd.sample_agent 1 0)).1.trace.countP Call.is_enter_sysrq = 0 :=
  ⟨rfl, by decide,
    ((C3_reboot_disabled (Resetd.sample_agent 1 0) rfl).1 (Resetd.sample_turn 4 0 100) 0
      (by decide) (by decide) (by decide)).1,
    ((C3_reboot_disabled (Resetd.sample_agent 1 0) rfl).2.1 (Resetd.sample_turn 5 0 100) 0
      (by decide) (by decide) (by decide) rfl).2.1,
    ((C3_reboot_disabled (Resetd.sample_agent 1 0) rfl).2.2
      [Resetd.sample_turn 4 0 100, Resetd.sample_turn 0 0 200] rfl).2⟩

/-- C4: in every run of `main`, whatever the registrations and
`sanlock_set_event` returned: after turns `pre` of the wait loop whose `poll`
calls succeed (lockspaces may be deregistered in them), a turn whose `poll`
succeeds and in which a lockspace that is still registered reports the target
dead, while no registered lockspace reports it live, fail or unknown, makes the
requester exit with success, whatever would follow.  The replies for
deregistered indices do not matter to that turn, and a lockspace whose
`sanlock_get_event` fails or whose descriptor shows POLLERR, POLLHUP or
POLLNVAL is taken out of `ls_names`. -/
theorem C4_degraded_run_ends_done (c : HostConsts) (hc : c.Distinct)
    (reg_event set_event : Nat → Int) (s : Reset.ReqState)
    (pre : List Reset.ReqIterIn) (inp : Reset.ReqIterIn) (rest : List Reset.ReqIterIn)
    (hpolls : Reset.PollsOk pre) (hp : 0 ≤ inp.poll_rv)
    (hdead : ∃ i, i < MAX_LS ∧
      Reset.spec_report c (Reset.wait_entry c reg_event set_event s).he.host_id
        (Reset.wait_run c pre (Reset.wait_entry c reg_event set_event s)).1.ls_names
        inp.get_hosts i = some c.SANLK_HOST_DEAD)
    (hnone : ∀ i, i < MAX_LS →
      Reset.spec_report c (Reset.wait_entry c reg_event set_event s).he.host_id
        (Reset.wait_run c pre (Reset.wait_entry c reg_event set_event s)).1.ls_names
        inp.get_hosts i ≠ some c.SANLK_HOST_LIVE ∧
      Reset.spec_report c (Reset.wait_entry c reg_event set_event s).he.host_id
        (Reset.wait_run c pre (Reset.wait_entry c reg_event set_event s)).1.ls_names
        inp.get_hosts i ≠ some c.SANLK_HOST_FAIL ∧
      Reset.spec_report c (Reset.wait_entry c reg_event set_event s).he.host_id
        (Reset.wait_run c pre (Reset.wait_entry c reg_event set_event s)).1.ls_names
        inp.get_hosts i ≠ some c.SANLK_HOST_UNKNOWN) :
    (Reset.main_after_parse c ⟨reg_event, set_event, pre ++ inp :: rest⟩ s).map Prod.snd =
      some ExitCode.EXIT_SUCCESS ∧
    (∀ gh', (∀ i, i < MAX_LS →
        (Reset.wait_run c pre (Reset.wait_entry c reg_event set_event s)).1.ls_names i ≠ none →
        gh' i = inp.get_hosts i) →
      Reset.wait_iter c { inp with get_hosts := gh' }
          (Reset.wait_run c pre (Reset.wait_entry c reg_event set_event s)).1 =
        Reset.wait_iter c inp
          (Reset.wait_run c pre (Reset.wait_entry c reg_event set_event s)).1) ∧
    (∀ (x : Reset.ReqIterIn) (i : Nat) (t : Reset.ReqState), 0 ≤ (t.pollfd i).fd →
      (((t.pollfd i).revents &&& POLLIN ≠ 0 ∧ (x.get_event i).rv < 0) ∨
        (t.pollfd i).revents &&& (POLLERR ||| POLLHUP ||| POLLNVAL) ≠ 0) →
      (Reset.wait_ls x i t).ls_names i = none) := by
  refine ⟨?_, fun gh' h => Reset.wait_iter_congr c inp gh' _ h,
    fun x i t h1 h2 => Reset.wait_ls_unregisters x i t h1 h2⟩
  obtain ⟨hinv, hcnt⟩ := Reset.main_send_inv c ⟨reg_event, set_event, []⟩ s
  have hinv' : Reset.WaitInv (Reset.wait_entry c reg_event set_event s) := hinv
  have hcnt' : (Reset.wait_entry c reg_event set_event s).ls_count =
      (Reset.main_register ⟨reg_event, set_event, []⟩ s).ls_count := hcnt
  have hne : (Reset.wait_entry c reg_event set_event s).ls_count ≠ 0 := by
    intro h0
    obtain ⟨i, hi, hr⟩ := hdead
    have hn := hinv'.none_registered h0 i hi
    have hreg : (Reset.wait_run c pre (Reset.wait_entry c reg_event set_event s)).1.ls_names i
        ≠ none := by
      intro h
      rw [Reset.spec_report_unregistered _ _ _ _ _ h] at hr
      exact absurd hr (by simp)
    exact Reset.wait_run_names c pre _ i hreg hn
  have hmain : Reset.main_after_parse c ⟨reg_event, set_event, pre ++ inp :: rest⟩ s =
      Reset.wait_and_finish c (pre ++ inp :: rest) (Reset.wait_entry c reg_event set_event s) :=
    Reset.main_after_parse_waits c ⟨reg_event, set_event, pre ++ inp :: rest⟩ s
      (by
        show (Reset.main_register ⟨reg_event, set_event, []⟩ s).ls_count ≠ 0
        rw [← hcnt']
        exact hne) hne
  rw [hmain]
  exact wait_loop_ends_done c hc _ pre inp rest hinv' hpolls hp hdead hnone

/-- C4, on the scenario of the specification: three lockspaces registered, the
first drops out on a `sanlock_get_event` error, the second on a hang-up, and in
the third turn the last one reports the target dead while the replies for the
two deregistered indices still say live: the requester exits with success. -/
theorem C4_degraded_run_ends_done_witness :
    sample_consts.Distinct ∧
    (Reset.wait_run sample_consts [Reset.turn_get_event_error, Reset.turn_hangup]
        (Reset.wait_entry sample_consts (fun i => 5 + i) (fun _ => 0)
          Reset.sample_parsed)).1.ls_names 0 = none ∧
    (Reset.wait_run sample_consts [Reset.turn_get_event_error, Reset.turn_hangup]
        (Reset.wait_entry sample_consts (fun i => 5 + i) (fun _ => 0)
          Reset.sample_parsed)).1.ls_names 1 = none ∧
    (Reset.main_after_parse sample_consts
        ⟨fun i => 5 + i, fun _ => 0,
          [Reset.turn_get_event_error, Reset.turn_hangup] ++ Reset.turn_dead :: []⟩
        Reset.sample_parsed).map Prod.snd = some ExitCode.EXIT_SUCCESS :=
  ⟨by decide, by decide, by decide,
    (C4_degraded_run_ends_done sample_consts (by decide) (fun i => 5 + i) (fun _ => 0)
      Reset.sample_parsed [Reset.turn_get_event_error, Reset.turn_hangup] Reset.turn_dead []
      (by intro x hx; left; fin_cases hx <;> decide) (by decide)
      ⟨2, by decide, by decide⟩ (by decide)).1⟩

/-- C5, the code at the failing input: three lockspaces are registered and
`sanlock_set_event` fails for each of them.  `main` does not exit: it enters the
wait loop with `ls_count` still 3 and, as long as `poll` only times out, stays
in it for any number `n` of turns. -/
theorem C5_set_event_failure_never_exits (n : Nat) :
    (Reset.main_send sample_consts (Reset.set_event_fails [])
      (Reset.main_register (Reset.set_event_fails []) Reset.sample_parsed)).ls_count = 3 ∧
    (∀ i, i < MAX_LS →
      (Reset.main_send sample_consts (Reset.set_event_fails [])
        (Reset.main_register (Reset.set_event_fails []) Reset.sample_parsed)).ls_names i
        = none) ∧
    Reset.main_after_parse sample_consts
      (Reset.set_event_fails (List.replicate n Reset.turn_timeout)) Reset.sample_parsed
      = none := by
  have h1 : (Reset.main_register (Reset.set_event_fails []) Reset.sample_parsed).ls_count ≠ 0 := by
    decide
  have h2 : (Reset.main_send sample_consts (Reset.set_event_fails [])
      (Reset.main_register (Reset.set_event_fails []) Reset.sample_parsed)).ls_count ≠ 0 := by
    decide
  have hn : ∀ i, i < MAX_LS →
      (Reset.main_send sample_consts (Reset.set_event_fails [])
        (Reset.main_register (Reset.set_event_fails []) Reset.sample_parsed)).ls_names i
        = none := by decide
  have hfd : ∀ i, i < MAX_LS →
      ((Reset.main_send sample_consts (Reset.set_event_fails [])
        (Reset.main_register (Reset.set_event_fails []) Reset.sample_parsed)).pollfd i).fd
        < 0 := by decide
  have hp : Reset.PollsOk (List.replicate n Reset.turn_timeout) := by
    intro x hx
    rw [List.eq_of_mem_replicate hx]
    left
    decide
  have hrun := Reset.wait_run_stuck sample_consts _ _ hn hfd h2 hp
  refine ⟨by decide, hn, ?_⟩
  rw [Reset.main_after_parse_waits sample_consts
    (Reset.set_event_fails (List.replicate n Reset.turn_timeout)) Reset.sample_parsed h1 h2]
  unfold Reset.wait_and_finish
  dsimp only
  have hrun' : (Reset.wait_run sample_consts
      (Reset.set_event_fails (List.replicate n Reset.turn_timeout)).iters
      (Reset.main_send sample_consts (Reset.set_event_fails (List.replicate n Reset.turn_timeout))
        (Reset.main_register (Reset.set_event_fails (List.replicate n Reset.turn_timeout))
          Reset.sample_parsed))).2 = false := hrun
  rw [hrun']
  rfl

/-- C6, the code at the failing input: the target host 7 sends an event that
carries the REBOOTING acknowledgment only.  The test on the event is false, the
requester logs it as ignored and `event_reply` stays 0. -/
theorem C6_rebooting_ack_ignored :
    Reset.is_reply ⟨7, 0, EVENT_REBOOT, 0⟩ ⟨0, ⟨0, 0, EVENT_REBOOTING, 0⟩, 7, 1⟩ = false ∧
    (Reset.wait_run sample_consts [Reset.turn_event EVENT_REBOOTING 7]
      Reset.sample_waiting).1.event_reply = 0 ∧
    Call.log .warn (.event_ignored EVENT_REBOOTING 0 7 1) ∈
      (Reset.wait_run sample_consts [Reset.turn_event EVENT_REBOOTING 7]
        Reset.sample_waiting).1.trace ∧
    (Reset.wait_run sample_consts [Reset.turn_event EVENT_RESETTING 7]
      Reset.sample_waiting).1.event_reply = 1 := by
  decide

/-- C7: two runs of the wait loop from the same state over turns that agree on
the `poll` results, on the host status snapshots and on the return codes of
`sanlock_get_event`, and differ only in what the delivered events contain, leave
the loop at the same turn (or both keep waiting), exit with the same status, and
agree on every field of the state other than `event_reply` and the trace: in
particular on the lockspaces still registered. -/
theorem C7_acknowledgments_advisory (c : HostConsts) (s : Reset.ReqState)
    (la lb : List Reset.ReqIterIn) (h : List.Forall₂ Reset.SameButEvents la lb) :
    (Reset.wait_and_finish c la s).map Prod.snd = (Reset.wait_and_finish c lb s).map Prod.snd ∧
    (Reset.wait_run c la s).2 = (Reset.wait_run c lb s).2 ∧
    (Reset.wait_run c la s).1.core = (Reset.wait_run c lb s).1.core ∧
    (Reset.wait_run c la s).1.ls_names = (Reset.wait_run c lb s).1.ls_names ∧
    (Reset.wait_run c la s).1.done = (Reset.wait_run c lb s).1.done := by
  obtain ⟨h1, h2⟩ := Reset.wait_run_core c h (rfl : s.core = s.core)
  have hf := Reset.req_core_fields h1
  refine ⟨?_, h2, h1, hf.1, hf.2.2.2.2.2.2.2.2.2.2.2⟩
  unfold Reset.wait_and_finish
  dsimp only
  rw [h2]
  split_ifs
  · simp only [Option.map_some', Reset.finish_exit, hf.2.2.2.2.2.2.2.2.2.2.2]
  · rfl

/-- C7, evaluated: a run that receives the RESETTING acknowledgment of the
target and a run that receives an unrelated event from host 9 differ in
`event_reply` and nowhere else that matters: both exit with success once the
target is reported dead. -/
theorem C7_acknowledgments_advisory_witness :
    List.Forall₂ Reset.SameButEvents
      [Reset.turn_event EVENT_RESETTING 7, Reset.turn_all_dead]
      [Reset.turn_event 0 9, Reset.turn_all_dead] ∧
    (Reset.wait_run sample_consts [Reset.turn_event EVENT_RESETTING 7, Reset.turn_all_dead]
      Reset.sample_waiting).1.event_reply = 1 ∧
    (Reset.wait_run sample_consts [Reset.turn_event 0 9, Reset.turn_all_dead]
      Reset.sample_waiting).1.event_reply = 0 ∧
    (Reset.wait_and_finish sample_consts [Reset.turn_event 0 9, Reset.turn_all_dead]
      Reset.sample_waiting).map Prod.snd = some ExitCode.EXIT_SUCCESS ∧
    (Reset.wait_and_finish sample_consts [Reset.turn_event EVENT_RESETTING 7, Reset.turn_all_dead]
        Reset.sample_waiting).map Prod.snd =
      (Reset.wait_and_finish sample_consts [Reset.turn_event 0 9, Reset.turn_all_dead]
        Reset.sample_waiting).map Prod.snd :=
  ⟨List.Forall₂.cons ⟨rfl, rfl, rfl, rfl, fun _ => rfl⟩
      (List.Forall₂.cons ⟨rfl, rfl, rfl, rfl, fun _ => rfl⟩ List.Forall₂.nil),
    by decide, by decide, by decide,
    (C7_acknowledgments_advisory sample_consts Reset.sample_waiting
      [Reset.turn_event EVENT_RESETTING 7, Reset.turn_all_dead]
      [Reset.turn_event 0 9, Reset.turn_all_dead]
      (List.Forall₂.cons ⟨rfl, rfl, rfl, rfl, fun _ => rfl⟩
        (List.Forall₂.cons ⟨rfl, rfl, rfl, rfl, fun _ => rfl⟩ List.Forall₂.nil))).1⟩

/-- C8: over any number of turns of the main loop from any state, a set
`we_are_resetting` keeps its value, a set `we_are_rebooting` keeps its value
and `rebooting_time` is not written again; in a run that starts with an empty
trace the agent enters `watchdog_reset_self` at most once, calls
`wdmd_test_live` at most once, and sends at most one event with the RESETTING
bit and at most one with the REBOOTING bit. -/
theorem C8_agent_never_unarms (s : Resetd.AgentState) (ins : List Resetd.AgentIterIn) :
    (s.we_are_resetting ≠ 0 →
      (Resetd.agent_run ins s).1.we_are_resetting = s.we_are_resetting) ∧
    (s.we_are_rebooting ≠ 0 →
      (Resetd.agent_run ins s).1.we_are_rebooting = s.we_are_rebooting ∧
      (Resetd.agent_run ins s).1.rebooting_time = s.rebooting_time) ∧
    (s.trace = [] →
      (Resetd.agent_run ins s).1.trace.countP Call.is_enter_watchdog ≤ 1 ∧
      (Resetd.agent_run ins s).1.trace.countP Call.is_test_live ≤ 1 ∧
      (Resetd.agent_run ins s).1.trace.countP (Call.is_ack EVENT_RESETTING) ≤ 1 ∧
      (Resetd.agent_run ins s).1.trace.countP (Call.is_ack EVENT_REBOOTING) ≤ 1) := by
  have h := Resetd.agent_run_evolves ins s
  refine ⟨h.resetting, h.rebooting, ?_⟩
  intro ht
  have hu : ∀ x : Int, Resetd.unset x ≤ 1 := by
    intro x; unfold Resetd.unset; split_ifs <;> omega
  have hz : ∀ p, s.count p = 0 := by
    intro p; simp [Resetd.AgentState.count, ht, effects]
  have h1 := h.enter
  have h2 := h.arm
  have h3 := h.ack_reset
  have h4 := h.ack_reboot
  rw [hz] at h1 h2 h3 h4
  have u1 := hu s.we_are_resetting
  have u2 := hu s.we_are_rebooting
  unfold Resetd.AgentState.count at h1 h2 h3 h4
  rw [countP_effects _ is_enter_watchdog_effect] at h1
  rw [countP_effects _ is_test_live_effect] at h2
  rw [countP_effects _ (is_ack_effect _)] at h3 h4
  refine ⟨?_, ?_, ?_, ?_⟩ <;> omega

/-- C8, evaluated: two turns that both deliver a reset and reboot request arm
the watchdog once and acknowledge once. -/
theorem C8_agent_never_unarms_witness :
    (Resetd.sample_agent 1 1).trace = [] ∧
    (Resetd.agent_run [Resetd.sample_turn 5 0 100, Resetd.sample_turn 5 0 200]
      (Resetd.sample_agent 1 1)).1.trace.countP Call.is_test_live = 1 ∧
    (Resetd.agent_run [Resetd.sample_turn 5 0 100, Resetd.sample_turn 5 0 200]
      (Resetd.sample_agent 1 1)).1.rebooting_time = 100 ∧
    (Resetd.agent_run [Resetd.sample_turn 5 0 100, Resetd.sample_turn 5 0 200]
      (Resetd.sample_agent 1 1)).1.trace.countP (Call.is_ack EVENT_RESETTING) ≤ 1 :=
  ⟨rfl, by decide, by decide,
    ((C8_agent_never_unarms (Resetd.sample_agent 1 1)
      [Resetd.sample_turn 5 0 100, Resetd.sample_turn 5 0 200]).2.2 rfl).2.2.1⟩

/-- C9 fails as stated: the agent accepts a reset request from host 3 and arms
the watchdog (`we_are_resetting` is 1 and the loop goes on); in the next turn
SIGTERM arrives, the loop is left and the end of `main` releases the watchdog
connection with `wdmd_refcount_clear` and `close`. -/
theorem C9_counterexample :
    (Resetd.agent_run [Resetd.sample_turn 1 0 100] (Resetd.sample_agent 1 0)).1.we_are_resetting
      = 1 ∧
    (Resetd.agent_run [Resetd.sample_turn 1 0 100] (Resetd.sample_agent 1 0)).2 = false ∧
    (Resetd.agent_run [Resetd.sample_turn 1 0 100, Resetd.turn_signal SIGTERM]
      (Resetd.sample_agent 1 0)).2 = true ∧
    (Resetd.agent_loop_and_finish [Resetd.sample_turn 1 0 100, Resetd.turn_signal SIGTERM]
      (Resetd.sample_agent 1 0)).map (fun t => effects t.trace) =
      some [Call.enter_watchdog_reset_self, Call.wdmd_test_live 7 100 100,
        Call.sanlock_set_event (some "ls0") ⟨3, 11, EVENT_RESETTING, 0⟩ 0,
        Call.wdmd_refcount_clear 7, Call.close 7] := by
  decide

/-- C9 as amended: in a turn whose `poll` succeeds and flags the signal
descriptor readable, reading SIGTERM or SIGINT sets `daemon_quit` and ends the
loop in that turn, whatever `we_are_resetting` and `we_are_rebooting` are (they
are left as they are), and the end of `main` then releases the watchdog
connection when the watchdog is in use; reading SIGHUP leaves a clear
`daemon_quit` clear, and the loop is then left only if no lockspace remains. -/
theorem C9_signal_ends_loop (inp : Resetd.AgentIterIn) (s : Resetd.AgentState) (signo : Nat)
    (hp : 0 ≤ inp.poll_rv) (hin : inp.revents MAX_LS &&& POLLIN ≠ 0)
    (hrd : inp.signal_read = some signo) :
    ((signo = SIGTERM ∨ signo = SIGINT) →
      (Resetd.agent_iter inp s).2 = true ∧
      (Resetd.agent_iter inp s).1.daemon_quit = 1 ∧
      (Resetd.agent_iter inp s).1.we_are_resetting = s.we_are_resetting ∧
      (Resetd.agent_iter inp s).1.we_are_rebooting = s.we_are_rebooting ∧
      effects (Resetd.agent_finish (Resetd.agent_iter inp s).1).trace =
        effects s.trace ++
          (if s.use_watchdog = 0 then []
            else [Call.wdmd_refcount_clear s.wdmd_fd, Call.close s.wdmd_fd])) ∧
    (signo = SIGHUP → s.daemon_quit = 0 →
      (Resetd.agent_iter inp s).1.daemon_quit = 0 ∧
      ((Resetd.agent_iter inp s).2 = true ↔ (Resetd.agent_iter inp s).1.ls_count = 0)) := by
  have hq := Resetd.after_signals_quit inp s signo hin hrd
  obtain ⟨hf, he⟩ := Resetd.after_signals_spec inp s
  simp only [Resetd.AgentState.fence, Resetd.Fence.mk.injEq] at hf
  constructor
  · intro hs
    rw [if_pos hs] at hq
    have hne : (Resetd.after_signals inp s).daemon_quit ≠ 0 := by rw [hq]; decide
    rw [Resetd.agent_iter_ok inp s hp, if_pos hne]
    refine ⟨rfl, hq, hf.2.2.2.1, hf.2.2.2.2.1, ?_⟩
    rw [Resetd.agent_finish_effects, he, hf.1, hf.2.2.2.2.2.2]
  · intro hs h0
    have hns : ¬ (signo = SIGTERM ∨ signo = SIGINT) := by
      rw [hs]; decide
    rw [if_neg hns, h0] at hq
    have hne : ¬ (Resetd.after_signals inp s).daemon_quit ≠ 0 := by rw [hq]; simp
    rw [Resetd.agent_iter_ok inp s hp, if_neg hne]
    refine ⟨?_, ?_⟩
    · dsimp only
      rw [Resetd.agent_fold_daemon_quit, Resetd.check_reboot_daemon_quit, hq]
    · simp

/-- C9 as amended, evaluated: SIGTERM ends the loop of an agent that is
already resetting, SIGHUP does not end the loop. -/
theorem C9_signal_ends_loop_witness :
    (0 : Int) ≤ (Resetd.turn_signal SIGTERM).poll_rv ∧
    ((Resetd.agent_iter (Resetd.turn_signal SIGTERM)
      { Resetd.sample_agent 1 0 with we_are_resetting := 1 }).2 = true ∧
    (Resetd.agent_iter (Resetd.turn_signal SIGTERM)
      { Resetd.sample_agent 1 0 with we_are_resetting := 1 }).1.daemon_quit = 1) ∧
    (Resetd.agent_iter (Resetd.turn_signal SIGHUP) (Resetd.sample_agent 1 0)).2 = false ∧
    ((Resetd.agent_iter (Resetd.turn_signal SIGHUP) (Resetd.sample_agent 1 0)).2 = true ↔
      (Resetd.agent_iter (Resetd.turn_signal SIGHUP) (Resetd.sample_agent 1 0)).1.ls_count = 0) :=
  ⟨by decide,
    ⟨((C9_signal_ends_loop (Resetd.turn_signal SIGTERM)
        { Resetd.sample_agent 1 0 with we_are_resetting := 1 } SIGTERM (by decide) (by decide)
        rfl).1 (Or.inl rfl)).1,
      ((C9_signal_ends_loop (Resetd.turn_signal SIGTERM)
        { Resetd.sample_agent 1 0 with we_are_resetting := 1 } SIGTERM (by decide) (by decide)
        rfl).1 (Or.inl rfl)).2.1⟩,
    by decide,
    ((C9_signal_ends_loop (Resetd.turn_signal SIGHUP) (Resetd.sample_agent 1 0) SIGHUP
      (by decide) (by decide) rfl).2 rfl rfl).2⟩

/-- C10: with sysrq reboot enabled and a delay `0 ≤ sysrq_delay`,
(1) a delivered event with the reboot bit, while the agent is not rebooting,
sets `we_are_rebooting`, records the clock reading in `rebooting_time` and is
acknowledged by one `sanlock_set_event` whose event has the REBOOTING bit;
(2) a turn that starts with `we_are_rebooting` clear does not enter
`sysrq_reboot`, so the turn that accepts the request does not;
(3) if, after the turns `pre` of a run started with `we_are_rebooting` clear, a
turn enters `sysrq_reboot`, then one of the turns of `pre` accepted a reboot
request (the flag was 0 before it and 1 after it), `rebooting_time` is the clock
reading of that turn, and, the clock being monotonic, at least `sysrq_delay`
seconds lie between that reading and the reading of the present turn. -/
theorem C10_reboot_after_delay (s0 : Resetd.AgentState) (hen : s0.use_sysrq_reboot ≠ 0)
    (hd0 : 0 ≤ s0.sysrq_delay) (hd1 : s0.sysrq_delay < 2 ^ 31) :
    (∀ inp i, Resetd.received inp i s0 →
      (inp.get_event i).from_he.event &&& EVENT_REBOOT ≠ 0 → s0.we_are_rebooting = 0 →
        (Resetd.agent_ls inp i s0).we_are_rebooting = 1 ∧
        (Resetd.agent_ls inp i s0).rebooting_time = Resetd.monotime (inp.tv_sec_reboot i) ∧
        (Resetd.agent_ls inp i s0).trace.filter Call.is_set_event =
          s0.trace.filter Call.is_set_event ++
            [Call.sanlock_set_event (s0.ls_names i)
              ⟨(inp.get_event i).from_host, (inp.get_event i).from_gen,
                Resetd.ack_bits (inp.get_event i) s0, 0⟩ 0] ∧
        Resetd.ack_bits (inp.get_event i) s0 &&& EVENT_REBOOTING ≠ 0) ∧
    (∀ inp, s0.we_are_rebooting = 0 →
      (Resetd.agent_iter inp s0).1.trace.countP Call.is_enter_sysrq =
        s0.trace.countP Call.is_enter_sysrq) ∧
    (∀ pre inp, s0.we_are_rebooting = 0 →
      (∀ x ∈ pre, ∀ i, Resetd.monotime (x.tv_sec_reboot i) ≤
        Resetd.monotime inp.tv_sec_check) →
      (Resetd.agent_iter inp (Resetd.agent_run pre s0).1).1.trace.countP Call.is_enter_sysrq ≠
        (Resetd.agent_run pre s0).1.trace.countP Call.is_enter_sysrq →
      ∃ j i x, pre[j]? = some x ∧ i < MAX_LS ∧
        (Resetd.agent_run (pre.take j) s0).1.we_are_rebooting = 0 ∧
        (Resetd.agent_run (pre.take (j + 1)) s0).1.we_are_rebooting = 1 ∧
        (Resetd.agent_run pre s0).1.rebooting_time = Resetd.monotime (x.tv_sec_reboot i) ∧
        (Resetd.monotime (x.tv_sec_reboot i) : Int) + s0.sysrq_delay ≤
          Resetd.monotime inp.tv_sec_check) := by
  have hcount : ∀ t : Resetd.AgentState,
      t.count Call.is_enter_sysrq = t.trace.countP Call.is_enter_sysrq :=
    fun t => countP_effects _ is_enter_sysrq_effect t.trace
  refine ⟨?_, ?_, ?_⟩
  · intro inp i hrecv hbit h0
    have hB : Resetd.reboot_accepted (inp.get_event i) s0 := ⟨hbit, hen, h0⟩
    obtain ⟨-, h2, h3, h4⟩ := Resetd.agent_ls_received inp i s0 hrecv
    rw [if_pos hB] at h2 h3
    refine ⟨h2, h3, ?_, (Resetd.ack_bits_rebooting _ _).mpr hB⟩
    rw [← filter_effects _ is_set_event_effect, ← filter_effects _ is_set_event_effect
      s0.trace, h4, List.filter_append]
    simp only [Resetd.handle_effects, hB, if_true, or_true]
    split_ifs <;> simp [List.filter_cons, Call.is_set_event]
  · intro inp h0
    by_contra hne
    rw [← hcount, ← hcount] at hne
    exact (Resetd.agent_iter_sysrq inp s0 hne).1 h0
  · intro pre inp h0 hclock hne
    rw [← hcount, ← hcount] at hne
    obtain ⟨hreb, hdel⟩ := Resetd.agent_iter_sysrq inp _ hne
    obtain ⟨j, i, x, hx, hi, h1, h2, h3⟩ := Resetd.agent_run_history s0 h0 pre hreb
    refine ⟨j, i, x, hx, hi, h1, h2, h3, ?_⟩
    have hmem : x ∈ pre := List.getElem?_mem hx
    have hev := Resetd.agent_run_evolves pre s0
    rw [h3, hev.sysrq_delay] at hdel
    exact Resetd.delay_elapsed_true _ _ _ hd0 hd1 (Resetd.monotime_lt _) (hclock x hmem i) hdel

/-- C10, evaluated with the default delay of 25 seconds: a reboot request
accepted at clock reading 100 is followed by `sysrq_reboot` in a turn at
reading 125, not in a turn at reading 124. -/
theorem C10_reboot_after_delay_witness :
    (Resetd.sample_agent 1 1).use_sysrq_reboot ≠ 0 ∧
    (Resetd.agent_iter (Resetd.sample_turn 0 0 124)
      (Resetd.agent_run [Resetd.sample_turn 4 0 100] (Resetd.sample_agent 1 1)).1).1.trace.countP
        Call.is_enter_sysrq = 0 ∧
    (Resetd.agent_iter (Resetd.sample_turn 0 0 125)
      (Resetd.agent_run [Resetd.sample_turn 4 0 100] (Resetd.sample_agent 1 1)).1).1.trace.countP
        Call.is_enter_sysrq = 1 ∧
    ∃ j i x, [Resetd.sample_turn 4 0 100][j]? = some x ∧ i < MAX_LS ∧
      (Resetd.agent_run ([Resetd.sample_turn 4 0 100].take j)
        (Resetd.sample_agent 1 1)).1.we_are_rebooting = 0 ∧
      (Resetd.agent_run ([Resetd.sample_turn 4 0 100].take (j + 1))
        (Resetd.sample_agent 1 1)).1.we_are_rebooting = 1 ∧
      (Resetd.agent_run [Resetd.sample_turn 4 0 100]
        (Resetd.sample_agent 1 1)).1.rebooting_time = Resetd.monotime (x.tv_sec_reboot i) ∧
      (Resetd.monotime (x.tv_sec_reboot i) : Int) + (Resetd.sample_agent 1 1).sysrq_delay ≤
        Resetd.monotime (Resetd.sample_turn 0 0 125).tv_sec_check :=
  ⟨by decide, by decide, by decide,
    (C10_reboot_after_delay (Resetd.sample_agent 1 1) (by decide) (by decide) (by decide)).2.2
      [Resetd.sample_turn 4 0 100] (Resetd.sample_turn 0 0 125) rfl
      (by intro x hx i; fin_cases hx; show Resetd.monotime 100 ≤ Resetd.monotime 125; decide)
      (by decide)⟩

/-- C14: after the loop of `reset_done`, whenever the target was found and one
of the five counters is not zero, the tests select the live, fail, unknown,
free or dead branch; together with the two tests before them this leaves no
counters for the last `return 0`, so `reset_done` never logs the raw status
value; and whenever the free test is reached (no earlier branch returned)
`fail_count` is 0, so the free branch is taken exactly when `free_count` is not
zero. -/
theorem C14_status_branches_exhaustive (host_id : Nat) (s : Reset.ReqState)
    (k : Reset.Counts) :
    Reset.reset_done_decide host_id s k =
      Reset.branch_outcome host_id s k (Reset.reset_done_branch k) ∧
    (k.found_count ≠ 0 →
      (k.free_count ≠ 0 ∨ k.live_count ≠ 0 ∨ k.fail_count ≠ 0 ∨ k.dead_count ≠ 0 ∨
        k.unknown_count ≠ 0) →
      Reset.reset_done_branch k = .live ∨ Reset.reset_done_branch k = .fail ∨
        Reset.reset_done_branch k = .unknown ∨ Reset.reset_done_branch k = .free ∨
        Reset.reset_done_branch k = .dead) ∧
    Reset.reset_done_branch k ≠ .fall_through ∧
    (Reset.reset_done_branch k ≠ .not_found → Reset.reset_done_branch k ≠ .no_status →
      Reset.reset_done_branch k ≠ .live → Reset.reset_done_branch k ≠ .fail →
      Reset.reset_done_branch k ≠ .unknown →
        k.fail_count = 0 ∧ (Reset.reset_done_branch k = .free ↔ k.free_count ≠ 0)) ∧
    (∀ (c : HostConsts) (get_hosts : Nat → GetHostsReply),
      (Reset.reset_done c host_id get_hosts s).2.trace.countP Call.is_status_raw =
        s.trace.countP Call.is_status_raw) := by
  refine ⟨Reset.reset_done_decide_eq host_id s k, ?_,
    Reset.reset_done_branch_ne_fall_through k, ?_,
    fun c gh => Reset.reset_done_raw c host_id gh s⟩
  · intro hf hz
    have hft := Reset.reset_done_branch_ne_fall_through k
    unfold Reset.reset_done_branch at hft ⊢
    split_ifs at hft ⊢ with h1 h2 h3 h4 h5 h6 h7
    · exact absurd h1 hf
    · omega
    · exact Or.inl rfl
    · exact Or.inr (Or.inl rfl)
    · exact Or.inr (Or.inr (Or.inl rfl))
    · exact Or.inr (Or.inr (Or.inr (Or.inl rfl)))
    · exact Or.inr (Or.inr (Or.inr (Or.inr rfl)))
    · exact absurd rfl hft
  · unfold Reset.reset_done_branch
    split_ifs with h1 h2 h3 h4 h5 h6 h7
    · intro h; exact absurd rfl h
    · intro _ h; exact absurd rfl h
    · intro _ _ h; exact absurd rfl h
    · intro _ _ _ h; exact absurd rfl h
    · intro _ _ _ _ h; exact absurd rfl h
    · intro _ _ _ _ _
      exact ⟨h6.2, by simp [h6.1]⟩
    · intro _ _ _ _ _
      refine ⟨by omega, ?_⟩
      constructor
      · intro h; cases h
      · intro h; exact absurd ⟨h, by omega⟩ h6
    · intro _ _ _ _ _
      refine ⟨by omega, ?_⟩
      constructor
      · intro h; cases h
      · intro h; exact absurd ⟨h, by omega⟩ h6

/-- C14, evaluated: counters with one free report select the free branch, and
counters with one dead report the dead branch. -/
theorem C14_status_branches_exhaustive_witness :
    (⟨1, 1, 0, 0, 0, 0, some 2⟩ : Reset.Counts).found_count ≠ 0 ∧
    Reset.reset_done_branch ⟨1, 1, 0, 0, 0, 0, some 2⟩ = .free ∧
    Reset.reset_done_branch ⟨1, 0, 0, 0, 1, 0, some 5⟩ = .dead ∧
    (Reset.reset_done_branch ⟨1, 1, 0, 0, 0, 0, some 2⟩ = .live ∨
      Reset.reset_done_branch ⟨1, 1, 0, 0, 0, 0, some 2⟩ = .fail ∨
      Reset.reset_done_branch ⟨1, 1, 0, 0, 0, 0, some 2⟩ = .unknown ∨
      Reset.reset_done_branch ⟨1, 1, 0, 0, 0, 0, some 2⟩ = .free ∨
      Reset.reset_done_branch ⟨1, 1, 0, 0, 0, 0, some 2⟩ = .dead) ∧
    (⟨1, 0, 0, 0, 1, 0, some 5⟩ : Reset.Counts).fail_count = 0 :=
  ⟨by decide, by decide, by decide,
    (C14_status_branches_exhaustive 7 Reset.sample_waiting ⟨1, 1, 0, 0, 0, 0, some 2⟩).2.1
      (by decide) (Or.inl (by decide)),
    ((C14_status_branches_exhaustive 7 Reset.sample_waiting ⟨1, 0, 0, 0, 1, 0, some 5⟩).2.2.2.1
      (by decide) (by decide) (by decide) (by decide) (by decide)).1⟩

/-- C15: for a negative `sysrq_delay` (an `int`) and an elapsed time
`monotime() - rebooting_time` below `2^64 - |sysrq_delay|`, the delay converted
to `uint64_t` is `2^64 - |sysrq_delay|`, the test
`monotime() - rebooting_time >= sysrq_delay` is false, and the turn of the main
loop does not enter `sysrq_reboot`, whether or not a reboot request was
accepted. -/
theorem C15_negative_delay_never_reboots (inp : Resetd.AgentIterIn) (s : Resetd.AgentState)
    (hd1 : -2 ^ 31 ≤ s.sysrq_delay) (hd2 : s.sysrq_delay < 0)
    (he : (u64_sub (Resetd.monotime inp.tv_sec_check) s.rebooting_time : Int) <
      (U64 : Int) - |s.sysrq_delay|) :
    (int_to_u64 s.sysrq_delay : Int) = (U64 : Int) - |s.sysrq_delay| ∧
    Resetd.delay_elapsed (Resetd.monotime inp.tv_sec_check) s.rebooting_time s.sysrq_delay
      = false ∧
    (Resetd.check_reboot inp s).trace.countP Call.is_enter_sysrq =
      s.trace.countP Call.is_enter_sysrq ∧
    (Resetd.agent_iter inp s).1.trace.countP Call.is_enter_sysrq =
      s.trace.countP Call.is_enter_sysrq := by
  have hfalse := Resetd.delay_elapsed_negative _ _ _ hd1 hd2 he
  have hcount : ∀ t : Resetd.AgentState,
      t.count Call.is_enter_sysrq = t.trace.countP Call.is_enter_sysrq :=
    fun t => countP_effects _ is_enter_sysrq_effect t.trace
  refine ⟨?_, hfalse, ?_, ?_⟩
  · rw [Resetd.int_to_u64_negative _ hd1 hd2, abs_of_neg hd2]
    omega
  · obtain ⟨-, h2⟩ := Resetd.check_reboot_spec inp s
    have hnd : ¬ Resetd.reboot_due inp s := by
      intro h
      have h2 := h.2
      rw [hfalse] at h2
      exact absurd h2 (by simp)
    rw [if_neg hnd, List.append_nil] at h2
    rw [← hcount, ← hcount]
    unfold Resetd.AgentState.count
    rw [h2]
  · by_contra hne
    rw [← hcount, ← hcount] at hne
    have h := (Resetd.agent_iter_sysrq inp s hne).2
    rw [hfalse] at h
    exact absurd h (by simp)

/-- C15, evaluated: with `sysrq_delay = -1` an agent that accepted a reboot
request at clock reading 100 does not enter `sysrq_reboot` at reading 1000. -/
theorem C15_negative_delay_never_reboots_witness :
    ({ Resetd.sample_agent 1 1 with
        sysrq_delay := -1, we_are_rebooting := 1, rebooting_time := 100 } :
      Resetd.AgentState).sysrq_delay < 0 ∧
    u64_sub (Resetd.monotime (Resetd.sample_turn 0 0 1000).tv_sec_check) 100 = 900 ∧
    int_to_u64 (-1) = 18446744073709551615 ∧
    (Resetd.agent_iter (Resetd.sample_turn 0 0 1000)
      { Resetd.sample_agent 1 1 with
        sysrq_delay := -1, we_are_rebooting := 1, rebooting_time := 100 }).1.trace.countP
        Call.is_enter_sysrq =
      ({ Resetd.sample_agent 1 1 with
        sysrq_delay := -1, we_are_rebooting := 1, rebooting_time := 100 } :
      Resetd.AgentState).trace.countP Call.is_enter_sysrq :=
  ⟨by decide, by decide, by decide,
    (C15_negative_delay_never_reboots (Resetd.sample_turn 0 0 1000)
      { Resetd.sample_agent 1 1 with
        sysrq_delay := -1, we_are_rebooting := 1, rebooting_time := 100 }
      (by decide) (by decide) (by decide)).2.2.2⟩

/-- C12: for every list of lockspace-name arguments, the argument loop of the
requester and that of the agent leave `ls_count = min(n, MAX_LS)`, the first
`min(n, MAX_LS)` arguments in `ls_names[0..]` in their order, every other entry
of `ls_names` (so every index from `MAX_LS` on) as it was, `ls_fd` and `pollfd`
untouched, and one line `ignore lockspace_name` for each further argument. -/
theorem C12_registration_bounded (args : List String) (s : Reset.ReqState)
    (a : Resetd.AgentState) :
    ((Reset.parse_ls_names args s).ls_count = ((min args.length MAX_LS : Nat) : Int) ∧
      (∀ i, i < min args.length MAX_LS →
        (Reset.parse_ls_names args s).ls_names i = args[i]?) ∧
      (∀ i, min args.length MAX_LS ≤ i →
        (Reset.parse_ls_names args s).ls_names i = s.ls_names i) ∧
      (Reset.parse_ls_names args s).ls_fd = s.ls_fd ∧
      (Reset.parse_ls_names args s).pollfd = s.pollfd ∧
      (Reset.parse_ls_names args s).trace =
        s.trace ++ (args.drop MAX_LS).map
          (fun x => Call.fprintf_stderr (.ignore_lockspace_name x))) ∧
    ((Resetd.parse_ls_names args a).ls_count = ((min args.length MAX_LS : Nat) : Int) ∧
      (∀ i, i < min args.length MAX_LS →
        (Resetd.parse_ls_names args a).ls_names i = args[i]?) ∧
      (∀ i, min args.length MAX_LS ≤ i →
        (Resetd.parse_ls_names args a).ls_names i = a.ls_names i) ∧
      (Resetd.parse_ls_names args a).ls_fd = a.ls_fd ∧
      (Resetd.parse_ls_names args a).pollfd = a.pollfd ∧
      (Resetd.parse_ls_names args a).trace =
        a.trace ++ (args.drop MAX_LS).map
          (fun x => Call.fprintf_stderr (.ignore_lockspace_name x))) := by
  constructor
  · have ht := Reset.req_foldl_table args { s with ls_count := 0 }
    obtain ⟨h1, h2, h3, h4⟩ :=
      LsTable.parse args (Reset.ReqState.table { s with ls_count := 0 }) rfl
    rw [← ht] at h1 h2 h3 h4
    obtain ⟨h5, h6⟩ := Reset.req_parse_tables args { s with ls_count := 0 }
    exact ⟨h1, h2, h3, h5, h6, h4⟩
  · have ht := Resetd.agent_foldl_table args { a with ls_count := 0 }
    obtain ⟨h1, h2, h3, h4⟩ :=
      LsTable.parse args (Resetd.AgentState.table { a with ls_count := 0 }) rfl
    rw [← ht] at h1 h2 h3 h4
    obtain ⟨h5, h6⟩ := Resetd.agent_parse_tables args { a with ls_count := 0 }
    exact ⟨h1, h2, h3, h5, h6, h4⟩

/-- C12, evaluated: of six names both programs keep the first four and report
the last two. -/
theorem C12_registration_bounded_witness :
    (Reset.parse_ls_names six_names Reset.ReqState.initial).ls_count = 4 ∧
    (List.range 6).map (Reset.parse_ls_names six_names Reset.ReqState.initial).ls_names =
      [some "a", some "b", some "c", some "d", none, none] ∧
    (Reset.parse_ls_names six_names Reset.ReqState.initial).trace =
      [.fprintf_stderr (.ignore_lockspace_name "e"),
       .fprintf_stderr (.ignore_lockspace_name "f")] ∧
    (Resetd.parse_ls_names six_names Resetd.AgentState.initial).ls_count = 4 ∧
    (List.range 6).map (Resetd.parse_ls_names six_names Resetd.AgentState.initial).ls_names =
      [some "a", some "b", some "c", some "d", none, none] ∧
    (Resetd.parse_ls_names six_names Resetd.AgentState.initial).trace =
      [.fprintf_stderr (.ignore_lockspace_name "e"),
       .fprintf_stderr (.ignore_lockspace_name "f")] :=
  ⟨(C12_registration_bounded six_names Reset.ReqState.initial Resetd.AgentState.initial).1.1,
    by decide,
    (C12_registration_bounded six_names Reset.ReqState.initial
      Resetd.AgentState.initial).1.2.2.2.2.2,
    (C12_registration_bounded six_names Reset.ReqState.initial Resetd.AgentState.initial).2.1,
    by decide,
    (C12_registration_bounded six_names Reset.ReqState.initial
      Resetd.AgentState.initial).2.2.2.2.2.2⟩

/-- C11 fails as stated: with the watchdog disabled (`-w 0`) and the sysrq
reboot left disabled (its default), `main` registers three lockspaces and sends
into each an event for host 7 whose `event` field is 0: it carries neither the
reset nor the reboot request bit. -/
theorem C11_counterexample :
    Reset.sample_disabled.use_watchdog = 0 ∧ Reset.sample_disabled.use_sysrq_reboot = 0 ∧
    (Reset.main_send sample_consts (Reset.sample_main [])
      (Reset.main_register (Reset.sample_main []) Reset.sample_disabled)).trace.filter
        Call.is_set_event =
      [Call.sanlock_set_event (some "ls0") ⟨7, 0, 0, 0⟩ 1,
       Call.sanlock_set_event (some "ls1") ⟨7, 0, 0, 0⟩ 1,
       Call.sanlock_set_event (some "ls2") ⟨7, 0, 0, 0⟩ 1] ∧
    (∀ x ∈ (Reset.main_send sample_consts (Reset.sample_main [])
        (Reset.main_register (Reset.sample_main []) Reset.sample_disabled)).trace,
      Call.is_ack EVENT_RESET x = false ∧ Call.is_ack EVENT_REBOOT x = false) ∧
    (Reset.main_after_options sample_consts ["ls0", "ls1", "ls2"]
      (Reset.sample_main [Reset.turn_all_dead])
      { Reset.ReqState.initial with he := ⟨7, 0, 0, 0⟩, use_watchdog := 0 }).map
        (fun r => (r.1.trace.filter Call.is_set_event, r.2)) =
      some ([Call.sanlock_set_event (some "ls0") ⟨7, 0, 0, 0⟩ 1,
        Call.sanlock_set_event (some "ls1") ⟨7, 0, 0, 0⟩ 1,
        Call.sanlock_set_event (some "ls2") ⟨7, 0, 0, 0⟩ 1], ExitCode.EXIT_SUCCESS) := by
  decide

/-- C11 as amended: when `he.event` is clear before the event is built (as
`memset` leaves it), the `sanlock_set_event` calls of `main` are one call for each
table index whose name was registered, in index order, each with the target
`host_id` and generation given by the options (and the flag for the current
generation when the generation is 0); the event carries the reset request bit
exactly when the watchdog is enabled, the reboot request bit exactly when the
sysrq reboot is enabled, and no acknowledgment bit; with both disabled it carries
no request bit at all. -/
theorem C11_fencing_event_contents (c : HostConsts) (inp : Reset.ReqMainIn)
    (s : Reset.ReqState) (h0 : s.he.event = 0) :
    (Reset.main_send c inp (Reset.main_register inp s)).trace.filter Call.is_set_event =
      s.trace.filter Call.is_set_event ++
        (List.range MAX_LS).filterMap (Reset.expected_event c inp.reg_event s) ∧
    (Reset.fencing_event s).host_id = s.he.host_id ∧
    (Reset.fencing_event s).generation = s.he.generation ∧
    ((Reset.fencing_event s).event &&& EVENT_RESET ≠ 0 ↔ s.use_watchdog ≠ 0) ∧
    ((Reset.fencing_event s).event &&& EVENT_REBOOT ≠ 0 ↔ s.use_sysrq_reboot ≠ 0) ∧
    (Reset.fencing_event s).event &&& (EVENT_RESETTING ||| EVENT_REBOOTING) = 0 ∧
    ((Reset.fencing_event s).event = 0 ↔ s.use_watchdog = 0 ∧ s.use_sysrq_reboot = 0) := by
  obtain ⟨b1, b2, b3, b4⟩ := Reset.request_bits_spec s.use_watchdog s.use_sysrq_reboot
  exact ⟨Reset.main_send_sent c inp s h0, rfl, rfl, b1, b2, b3, b4⟩

/-- C11 as amended, evaluated: with the watchdog and the sysrq reboot enabled
the three registered lockspaces each get the event `RESET | REBOOT` for host 7. -/
theorem C11_fencing_event_contents_witness :
    ({ Reset.sample_parsed with use_sysrq_reboot := 1 } : Reset.ReqState).he.event = 0 ∧
    (Reset.main_send sample_consts (Reset.sample_main [])
      (Reset.main_register (Reset.sample_main [])
        { Reset.sample_parsed with use_sysrq_reboot := 1 })).trace.filter Call.is_set_event =
      [Call.sanlock_set_event (some "ls0") ⟨7, 0, EVENT_RESET ||| EVENT_REBOOT, 0⟩ 1,
       Call.sanlock_set_event (some "ls1") ⟨7, 0, EVENT_RESET ||| EVENT_REBOOT, 0⟩ 1,
       Call.sanlock_set_event (some "ls2") ⟨7, 0, EVENT_RESET ||| EVENT_REBOOT, 0⟩ 1] :=
  ⟨by decide,
    (C11_fencing_event_contents sample_consts (Reset.sample_main [])
      { Reset.sample_parsed with use_sysrq_reboot := 1 } (by decide)).1.trans (by decide)⟩

end Sanlock
